import Mathlib

/-! BLE MCP transport: framing, reassembly and fragmentation.

A shallow embedding of `src/src/mcp_transport.c`.

* Bytes, lengths and counters are natural numbers; the 8-bit casts and the
  8-bit counters (`seq_id`, `attempt`) are written `% 256`.  Sums of `size_t`
  values are not reduced: `rx_received_len` is at most 8192 in every reachable
  state and a packet shares the address space with the 8192-byte buffer, so
  `rx_received_len + payload_len` cannot wrap.
* The module's globals are the fields of `Transport`.  A pointer that may be
  `NULL` is a flag (`rx_buffer_alloc`, `tx_buffer_alloc`) next to the contents
  it points to; a `void` hook is a flag saying whether it is installed, and a
  call of it is an event in the output of the function that makes it.
* `rx_buffer` is the memory addressed from the pointer `rx_buffer`: cell `i`
  is `rx_buffer[i]`.  The `malloc`ed block is the cells `0 .. 8191`; the
  indices a call stores to are listed in `RxOut.writes`.
* `s_send_fn` is a function on the carrier's state returning the `int` code.
  `tx_buffer` is not a field: every byte of the packet handed to `s_send_fn`
  is written just before the call, so the packet is built as a list.
* The two loops that need not terminate in C (`mcp_transport_send_packet` with
  an 8-bit counter, the `while` loop of `mcp_transport_send_message`) take
  fuel and return `none` when it runs out.
* Logging (`mcp_transport_logf`) changes no state and is left out.
-/

namespace McpTransport

/-! ## Constants -/

def MAX_MESSAGE_SIZE : Nat := 8192
def DEFAULT_MTU : Nat := 23
def MAX_MTU : Nat := 517
def MAX_GATT_VALUE_LEN : Nat := 512

def HEADER_TYPE_MASK : Nat := 0xC0
def HEADER_SEQ_MASK : Nat := 0x3F

def TYPE_SINGLE : Nat := 0x00
def TYPE_START : Nat := 0x40
def TYPE_CONT : Nat := 0x80
def TYPE_END : Nat := 0xC0

/-! ## State -/

/-- The file-scope variables of `mcp_transport.c`.  `κ` is the state of the
packet carrier behind `s_send_fn` (what `s_send_ctx` points to). -/
structure Transport (κ : Type) where
  rx_buffer_alloc : Bool
  rx_buffer : Nat → Nat
  tx_buffer_alloc : Bool
  rx_received_len : Nat
  rx_total_len : Nat
  rx_expect_seq_id : Nat
  rx_in_progress : Bool
  s_send_fn : Option (List Nat → κ → Int × κ)
  s_message_cb : Bool
  s_sleep_fn : Bool
  s_lock_fn : Bool
  s_mtu : Nat
  s_tx_gap_ticks : Nat
  s_send_max_retries : Nat
  s_send_retry_delay_ticks : Nat
  s_initialized : Bool

/-- The static initialisers of the file-scope variables. -/
def Transport.static (κ : Type) : Transport κ where
  rx_buffer_alloc := false
  rx_buffer := fun _ => 0
  tx_buffer_alloc := false
  rx_received_len := 0
  rx_total_len := 0
  rx_expect_seq_id := 0
  rx_in_progress := false
  s_send_fn := none
  s_message_cb := false
  s_sleep_fn := false
  s_lock_fn := false
  s_mtu := DEFAULT_MTU
  s_tx_gap_ticks := 0
  s_send_max_retries := 3
  s_send_retry_delay_ticks := 1
  s_initialized := false

/-- Function `mcp_transport_init`; the two arguments say whether the two
`malloc` calls succeed. -/
def mcp_transport_init {κ : Type} (t : Transport κ) (rx_ok tx_ok : Bool) : Transport κ :=
  if t.s_initialized then t
  else if !rx_ok then { t with rx_buffer_alloc := false }
  else if !tx_ok then { t with rx_buffer_alloc := false, tx_buffer_alloc := false }
  else { t with rx_buffer_alloc := true, tx_buffer_alloc := true, s_initialized := true }

def mcp_transport_deinit {κ : Type} (t : Transport κ) : Transport κ :=
  { t with tx_buffer_alloc := false, rx_buffer_alloc := false, rx_received_len := 0,
           rx_total_len := 0, rx_expect_seq_id := 0, rx_in_progress := false,
           s_initialized := false }

def mcp_transport_set_send_fn {κ : Type} (t : Transport κ)
    (fn : Option (List Nat → κ → Int × κ)) : Transport κ :=
  { t with s_send_fn := fn }

def mcp_transport_set_message_cb {κ : Type} (t : Transport κ) (cb : Bool) : Transport κ :=
  { t with s_message_cb := cb }

def mcp_transport_set_sleep_fn {κ : Type} (t : Transport κ) (fn : Bool) : Transport κ :=
  { t with s_sleep_fn := fn }

def mcp_transport_set_lock_fn {κ : Type} (t : Transport κ) (fn : Bool) : Transport κ :=
  { t with s_lock_fn := fn }

def mcp_transport_set_mtu {κ : Type} (t : Transport κ) (mtu : Nat) : Transport κ :=
  { t with s_mtu := if mtu ≠ 0 then mtu else DEFAULT_MTU }

def mcp_transport_set_tx_gap_ticks {κ : Type} (t : Transport κ) (gap_ticks : Nat) : Transport κ :=
  { t with s_tx_gap_ticks := gap_ticks }

def mcp_transport_set_send_retry {κ : Type} (t : Transport κ)
    (max_retries retry_delay_ticks : Nat) : Transport κ :=
  { t with s_send_max_retries := max_retries, s_send_retry_delay_ticks := retry_delay_ticks }

def mcp_transport_max_packet_len {κ : Type} (t : Transport κ) : Nat :=
  let mtu := t.s_mtu
  if mtu < 4 then 20
  else
    let max_len := mtu - 3
    let max_len := if max_len > MAX_GATT_VALUE_LEN then MAX_GATT_VALUE_LEN else max_len
    let max_len := if max_len < 2 then 2 else max_len
    max_len

/-- The packet size limit as the specification words it:
`clamp(mtu - 3, 2, 512)` in integer arithmetic. -/
def clampSpec (mtu : Nat) : Int :=
  min (max ((mtu : Int) - 3) 2) 512

/-! ## Receiver -/

/-- The call `memcpy(buf + off, src, n)` with `n` the length of `src`. -/
def memcpy (buf : Nat → Nat) (off : Nat) (src : List Nat) : Nat → Nat :=
  fun i => if off ≤ i ∧ i < off + src.length then src.getD (i - off) 0 else buf i

/-- The assignment `buf[idx] = v`. -/
def store (buf : Nat → Nat) (idx v : Nat) : Nat → Nat :=
  fun i => if i = idx then v else buf i

/-- The characters of the C string that starts at cell `i`, read as the
callback's `const char *` argument is: up to the first zero byte.  The engine
writes a zero at an index `≤ MAX_MESSAGE_SIZE` before every callback, so the
read never needs more than `MAX_MESSAGE_SIZE + 1` cells. -/
def c_string_from (buf : Nat → Nat) : Nat → Nat → List Nat
  | 0, _ => []
  | fuel + 1, i => if buf i = 0 then [] else buf i :: c_string_from buf fuel (i + 1)

def c_string (buf : Nat → Nat) : List Nat :=
  c_string_from buf (MAX_MESSAGE_SIZE + 1) 0

/-- The length field of a START frame:
`(payload[0] << 24) | (payload[1] << 16) | (payload[2] << 8) | payload[3]`. -/
def decode_total_len (p0 p1 p2 p3 : Nat) : Nat :=
  (p0 <<< 24) ||| (p1 <<< 16) ||| (p2 <<< 8) ||| p3

/-- What one call of `mcp_transport_receive` does: the state it leaves, the
argument of the `s_message_cb` call if it makes one, and the indices of
`rx_buffer` it stores to, in order. -/
structure RxOut (κ : Type) where
  t : Transport κ
  delivered : Option (List Nat)
  writes : List Nat

def mcp_transport_receive {κ : Type} (t : Transport κ) (data : List Nat) : RxOut κ :=
  if !t.rx_buffer_alloc then ⟨t, none, []⟩
  else
    match data with
    | [] => ⟨t, none, []⟩
    | header :: payload =>
      let type := header &&& HEADER_TYPE_MASK
      let seq_id := header &&& HEADER_SEQ_MASK
      let payload_len := payload.length
      if type = TYPE_SINGLE then
        if payload_len ≥ MAX_MESSAGE_SIZE then ⟨t, none, []⟩
        else
          let buf := store (memcpy t.rx_buffer 0 payload) payload_len 0
          ⟨{ t with rx_buffer := buf, rx_received_len := 0, rx_total_len := 0,
                    rx_in_progress := false },
           if t.s_message_cb then some (c_string buf) else none,
           List.range' 0 payload_len ++ [payload_len]⟩
      else if type = TYPE_START then
        match payload with
        | p0 :: p1 :: p2 :: p3 :: chunk =>
          let total_len := decode_total_len p0 p1 p2 p3
          if total_len > MAX_MESSAGE_SIZE then
            ⟨{ t with rx_total_len := 0 }, none, []⟩
          else
            let expect := ((seq_id + 1) &&& HEADER_SEQ_MASK) % 256
            if chunk.length > total_len then
              ⟨{ t with rx_total_len := 0, rx_received_len := 0, rx_in_progress := false,
                        rx_expect_seq_id := expect }, none, []⟩
            else
              ⟨{ t with rx_buffer := memcpy t.rx_buffer 0 chunk,
                        rx_total_len := total_len,
                        rx_received_len := 0 + chunk.length,
                        rx_in_progress := true,
                        rx_expect_seq_id := expect }, none, List.range' 0 chunk.length⟩
        | _ => ⟨t, none, []⟩
      else if type = TYPE_CONT then
        if t.rx_total_len = 0 then ⟨t, none, []⟩
        else if !t.rx_in_progress then ⟨t, none, []⟩
        else if seq_id ≠ t.rx_expect_seq_id then
          ⟨{ t with rx_total_len := 0, rx_received_len := 0, rx_in_progress := false },
           none, []⟩
        else
          let expect := ((t.rx_expect_seq_id + 1) &&& HEADER_SEQ_MASK) % 256
          if t.rx_received_len + payload_len > t.rx_total_len then
            ⟨{ t with rx_expect_seq_id := expect, rx_total_len := 0, rx_received_len := 0,
                      rx_in_progress := false }, none, []⟩
          else
            ⟨{ t with rx_expect_seq_id := expect,
                      rx_buffer := memcpy t.rx_buffer t.rx_received_len payload,
                      rx_received_len := t.rx_received_len + payload_len },
             none, List.range' t.rx_received_len payload_len⟩
      else if type = TYPE_END then
        if t.rx_total_len = 0 then ⟨t, none, []⟩
        else if !t.rx_in_progress then ⟨t, none, []⟩
        else if seq_id ≠ t.rx_expect_seq_id then
          ⟨{ t with rx_total_len := 0, rx_received_len := 0, rx_in_progress := false },
           none, []⟩
        else if t.rx_received_len + payload_len > t.rx_total_len then
          ⟨{ t with rx_total_len := 0, rx_received_len := 0, rx_in_progress := false },
           none, []⟩
        else
          let buf := memcpy t.rx_buffer t.rx_received_len payload
          let received := t.rx_received_len + payload_len
          if received = t.rx_total_len then
            let buf1 := store buf received 0
            ⟨{ t with rx_buffer := buf1, rx_total_len := 0, rx_received_len := 0,
                      rx_in_progress := false },
             if t.s_message_cb then some (c_string buf1) else none,
             List.range' t.rx_received_len payload_len ++ [received]⟩
          else
            ⟨{ t with rx_buffer := buf, rx_total_len := 0, rx_received_len := 0,
                      rx_in_progress := false },
             none, List.range' t.rx_received_len payload_len⟩
      else ⟨t, none, []⟩

/-- The carrier's inbound hook: one `mcp_transport_receive` call per packet, in
arrival order.  Returns the final state and, per packet, the callback argument
if that call invoked the callback. -/
def receive_all {κ : Type} (t : Transport κ) :
    List (List Nat) → Transport κ × List (Option (List Nat))
  | [] => (t, [])
  | p :: ps =>
    let r := mcp_transport_receive t p
    let rest := receive_all r.t ps
    (rest.1, r.delivered :: rest.2)

/-! ## Sender -/

/-- What the sender does to its collaborators: a call of the lock hook
(`true` acquires), a call of the sleep hook, and a call of `s_send_fn` on the
first `len` bytes of `tx_buffer` together with the code it returns. -/
inductive TxEvent where
  | lock (acquire : Bool)
  | sleep (ticks : Nat)
  | send (data : List Nat) (rc : Int)

/-- The packets the carrier accepted (return code 0), in order. -/
def sentPackets : List TxEvent → List (List Nat)
  | [] => []
  | TxEvent.send data rc :: es => if rc = 0 then data :: sentPackets es else sentPackets es
  | _ :: es => sentPackets es

/-- The C library's `strlen`: the number of bytes before the first zero byte. -/
def strlen (s : List Nat) : Nat :=
  (s.takeWhile (fun b => b ≠ 0)).length

/-- The `for` loop of `mcp_transport_send_packet`, from the test
`attempt <= s_send_max_retries` on.  `attempt` is a `uint8_t`.  The result is
`none` when the loop has not finished within `fuel` iterations. -/
def send_packet_loop {κ : Type} (t : Transport κ) (send_fn : List Nat → κ → Int × κ)
    (data : List Nat) : Nat → Nat → κ → Option (Bool × κ × List TxEvent)
  | 0, _, _ => none
  | fuel + 1, attempt, k =>
    if attempt ≤ t.s_send_max_retries then
      let r := send_fn data k
      if r.1 = 0 then some (true, r.2, [TxEvent.send data r.1])
      else
        let nap :=
          if attempt < t.s_send_max_retries ∧ t.s_send_retry_delay_ticks > 0 ∧ t.s_sleep_fn = true
          then [TxEvent.sleep t.s_send_retry_delay_ticks] else []
        match send_packet_loop t send_fn data fuel ((attempt + 1) % 256) r.2 with
        | none => none
        | some (ok, k2, evs) => some (ok, k2, TxEvent.send data r.1 :: nap ++ evs)
    else some (false, k, [])

def mcp_transport_send_packet {κ : Type} (t : Transport κ) (fuel : Nat) (data : List Nat)
    (k : κ) : Option (Bool × κ × List TxEvent) :=
  match t.s_send_fn with
  | none => some (false, k, [])
  | some fn => send_packet_loop t fn data fuel 0 k

/-- The four length bytes of a START frame, `tx_buffer[1..4]`. -/
def total_len_bytes (total_len : Nat) : List Nat :=
  [(total_len >>> 24) &&& 0xFF, (total_len >>> 16) &&& 0xFF, (total_len >>> 8) &&& 0xFF,
   total_len &&& 0xFF]

def lock_call {κ : Type} (t : Transport κ) (acquire : Bool) : List TxEvent :=
  if t.s_lock_fn then [TxEvent.lock acquire] else []

/-- The `while (offset < total_len)` loop of `mcp_transport_send_message`.
`seq_id` is a `uint8_t`.  The flag of the result is `false` when the function
returned from inside the loop (the lock is then already released) and `true`
when the loop ran to its end; the result is `none` when a loop has not finished
within `fuel` iterations. -/
def send_message_loop {κ : Type} (t : Transport κ) (json_message : List Nat)
    (total_len packet_len_max : Nat) : Nat → Nat → Nat → κ → Option (Bool × κ × List TxEvent)
  | 0, _, _, _ => none
  | fuel + 1, offset, seq_id, k =>
    if offset < total_len then
      let gap :=
        if t.s_tx_gap_ticks > 0 ∧ t.s_sleep_fn = true then [TxEvent.sleep t.s_tx_gap_ticks]
        else []
      let remaining := total_len - offset
      if remaining > packet_len_max - 1 then
        let chunk_len := packet_len_max - 1
        match mcp_transport_send_packet t (fuel + 1)
            ((TYPE_CONT ||| (seq_id &&& HEADER_SEQ_MASK)) ::
              (json_message.drop offset).take chunk_len) k with
        | none => none
        | some (false, k1, evs) => some (false, k1, gap ++ evs ++ lock_call t false)
        | some (true, k1, evs) =>
          match send_message_loop t json_message total_len packet_len_max fuel
              (offset + chunk_len) ((seq_id + 1) % 256) k1 with
          | none => none
          | some (ok, k2, evs2) => some (ok, k2, gap ++ evs ++ evs2)
      else
        let chunk_len := remaining
        match mcp_transport_send_packet t (fuel + 1)
            ((TYPE_END ||| (seq_id &&& HEADER_SEQ_MASK)) ::
              (json_message.drop offset).take chunk_len) k with
        | none => none
        | some (false, k1, evs) => some (false, k1, gap ++ evs ++ lock_call t false)
        | some (true, k1, evs) =>
          match send_message_loop t json_message total_len packet_len_max fuel
              (offset + chunk_len) seq_id k1 with
          | none => none
          | some (ok, k2, evs2) => some (ok, k2, gap ++ evs ++ evs2)
    else some (true, k, [])

/-- Function `mcp_transport_send_message`.  `json_message` holds the bytes at
the pointer; the message is its C string.  The result is the carrier's state
afterwards and the events in order, or `none` when a loop has not finished
within `fuel` iterations. -/
def mcp_transport_send_message {κ : Type} (t : Transport κ) (fuel : Nat)
    (json_message : List Nat) (k : κ) : Option (κ × List TxEvent) :=
  if t.s_send_fn.isNone ∨ t.tx_buffer_alloc = false then some (k, [])
  else
    let total_len := strlen json_message
    if total_len > MAX_MESSAGE_SIZE then some (k, lock_call t true ++ lock_call t false)
    else
      let offset := 0
      let seq_id := 0
      let packet_len_max := mcp_transport_max_packet_len t
      if total_len + 1 ≤ packet_len_max then
        match mcp_transport_send_packet t fuel
            ((TYPE_SINGLE ||| (seq_id &&& HEADER_SEQ_MASK)) :: json_message.take total_len) k with
        | none => none
        | some (_, k1, evs) => some (k1, lock_call t true ++ evs ++ lock_call t false)
      else if packet_len_max ≤ 5 then some (k, lock_call t true ++ lock_call t false)
      else
        let chunk_len := packet_len_max - 5
        match mcp_transport_send_packet t fuel
            ((TYPE_START ||| (seq_id &&& HEADER_SEQ_MASK)) ::
              (total_len_bytes total_len ++ (json_message.drop offset).take chunk_len)) k with
        | none => none
        | some (false, k1, evs) => some (k1, lock_call t true ++ evs ++ lock_call t false)
        | some (true, k1, evs) =>
          match send_message_loop t json_message total_len packet_len_max fuel
              (offset + chunk_len) ((seq_id + 1) % 256) k1 with
          | none => none
          | some (false, k2, evs2) => some (k2, lock_call t true ++ evs ++ evs2)
          | some (true, k2, evs2) =>
            some (k2, lock_call t true ++ evs ++ evs2 ++ lock_call t false)

/-- The CONT and END frames `mcp_transport_send_message` builds from `offset`
on when no send fails: the frames of the `while` loop without the carrier.
`n` bounds the number of frames. -/
def tailFrames (P : Nat) (m : List Nat) : Nat → Nat → Nat → List (List Nat)
  | 0, _, _ => []
  | n + 1, offset, seq_id =>
    if m.length - offset > P - 1 then
      ((TYPE_CONT ||| (seq_id &&& HEADER_SEQ_MASK)) :: (m.drop offset).take (P - 1)) ::
        tailFrames P m n (offset + (P - 1)) ((seq_id + 1) % 256)
    else
      [(TYPE_END ||| (seq_id &&& HEADER_SEQ_MASK)) :: (m.drop offset).take (m.length - offset)]

/-- A carrier that accepts every packet. -/
def AlwaysAccepts {κ : Type} (fn : List Nat → κ → Int × κ) : Prop :=
  ∀ data k, (fn data k).1 = 0

/-- Every byte of the message is a character: none is the terminator. -/
@[reducible]
def NulFree (m : List Nat) : Prop :=
  ∀ b ∈ m, b ≠ 0

/-- No message is being reassembled: the state `mcp_transport_init` and
`mcp_transport_deinit` leave. -/
def Idle {κ : Type} (t : Transport κ) : Prop :=
  t.rx_in_progress = false ∧ t.rx_total_len = 0 ∧ t.rx_received_len = 0

/-- The states of the receiver after any number of `mcp_transport_receive`
calls on any packets, starting from an idle state. -/
inductive Reachable {κ : Type} : Transport κ → Prop where
  | idle (t : Transport κ) : Idle t → Reachable t
  | step (t : Transport κ) (data : List Nat) :
      Reachable t → Reachable (mcp_transport_receive t data).t

/-! ## Vocabulary of the statements -/

/-- The type bits of a packet's header byte; `none` for an empty packet. -/
def frame_type : List Nat → Option Nat
  | [] => none
  | header :: _ => some (header &&& HEADER_TYPE_MASK)

/-- A packet whose header says CONT or END. -/
def IsContOrEnd (p : List Nat) : Prop :=
  frame_type p = some TYPE_CONT ∨ frame_type p = some TYPE_END

/-- The data chunks of CONT and END frames, concatenated: each frame without
its header byte. -/
def dataOf : List (List Nat) → List Nat
  | [] => []
  | f :: fs => f.drop 1 ++ dataOf fs

/-- The receiver is in the middle of message `m`: `offset` bytes of it are in
the buffer and the frame numbered `seq_id` comes next. -/
def Assembling {κ : Type} (t : Transport κ) (m : List Nat) (offset seq_id : Nat) : Prop :=
  t.rx_buffer_alloc = true ∧ t.s_message_cb = true ∧ t.rx_in_progress = true ∧
  t.rx_total_len = m.length ∧ t.rx_received_len = offset ∧
  t.rx_expect_seq_id = seq_id % 64 ∧ ∀ j, j < offset → t.rx_buffer j = m.getD j 0

/-- What every reachable receiver state satisfies. -/
def RxInv {κ : Type} (t : Transport κ) : Prop :=
  t.rx_total_len ≤ MAX_MESSAGE_SIZE ∧
  (t.rx_total_len ≠ 0 →
    t.rx_buffer_alloc = true ∧ t.rx_in_progress = true ∧ t.rx_received_len ≤ t.rx_total_len)

/-! ## Concrete transports and messages -/

/-- A carrier that accepts every packet and keeps no state. -/
def acceptAll : List Nat → Unit → Int × Unit :=
  fun _ k => (0, k)

/-- A transport after `mcp_transport_init` with both allocations succeeding, a
send function and a message callback installed. -/
def readyTransport : Transport Unit :=
  mcp_transport_set_message_cb
    (mcp_transport_set_send_fn (mcp_transport_init (Transport.static Unit) true true)
      (some acceptAll)) true

/-- A 25-character message: too long for one frame at the default MTU. -/
def longMessage : List Nat :=
  [123, 34, 106, 115, 111, 110, 114, 112, 99, 34, 58, 34, 50, 46, 48, 34, 44, 34, 105, 100,
   34, 58, 49, 125, 10]

/-- A 4-character message. -/
def shortMessage : List Nat := [110, 117, 108, 108]

/-- The receiver after a START frame announcing 2 bytes and carrying 1. -/
def midMessage : Transport Unit :=
  (mcp_transport_receive readyTransport [0x40, 0, 0, 0, 2, 7]).t

/-- The receiver after a START frame announcing 2 bytes and carrying 1, and
then a START frame announcing 8193 bytes. -/
def afterOversizedStart : Transport Unit :=
  (receive_all readyTransport [[0x40, 0, 0, 0, 2, 7], [0x40, 0, 0, 0x20, 0x01]]).1

/-- The receiver after a START frame announcing 0 bytes. -/
def afterEmptyStart : Transport Unit :=
  (receive_all readyTransport [[0x40, 0, 0, 0, 0]]).1

/-! ## Carriers that fail -/

/-- The packets offered to the carrier, accepted or not, in order. -/
def offeredPackets : List TxEvent → List (List Nat)
  | [] => []
  | TxEvent.send data _ :: es => data :: offeredPackets es
  | _ :: es => offeredPackets es

/-- The lock and carrier events of a trace: the trace without the sleeps. -/
def withoutSleeps : List TxEvent → List TxEvent
  | [] => []
  | TxEvent.sleep _ :: es => withoutSleeps es
  | e :: es => e :: withoutSleeps es

/-- The calls of the lock hook in a trace, in order (`true` acquires). -/
def lockCalls : List TxEvent → List Bool
  | [] => []
  | TxEvent.lock acquire :: es => acquire :: lockCalls es
  | _ :: es => lockCalls es

/-- A carrier that rejects every packet, as `sendBytes` does while the link
is down. -/
def rejectAll : List Nat → Unit → Int × Unit :=
  fun _ k => (-1, k)

/-- A carrier that rejects as many packets as its state counts and accepts
from then on. -/
def rejectFirst : List Nat → Nat → Int × Nat :=
  fun _ k => if k = 0 then (0, 0) else (-1, k - 1)

/-- A ready transport with a lock hook, configured by
`mcp_transport_set_send_retry(255, 1)`, over a carrier that rejects every
packet. -/
def stuckTransport : Transport Unit :=
  mcp_transport_set_send_retry
    (mcp_transport_set_lock_fn
      (mcp_transport_set_send_fn (mcp_transport_init (Transport.static Unit) true true)
        (some rejectAll)) true) 255 1

/-- A ready transport configured by `mcp_transport_set_send_retry(255, 1)`
over a carrier that rejects a counted number of packets. -/
def patientTransport : Transport Nat :=
  mcp_transport_set_send_retry
    (mcp_transport_set_send_fn (mcp_transport_init (Transport.static Nat) true true)
      (some rejectFirst)) 255 1

/-! ## A message of the maximum size -/

/-- The frames of a message of 8192 bytes cut for a 512-byte packet limit: a
START frame announcing 8192 bytes with 507 of them, 15 CONT frames with 511
bytes each, numbered 1 to 15, and the END frame, numbered 16, with the last 20
bytes. -/
def fullSizeStart : List Nat :=
  TYPE_START :: 0 :: 0 :: 0x20 :: 0x00 :: List.replicate 507 65

def fullSizeConts : List (List Nat) :=
  (List.range 15).map (fun i => (TYPE_CONT ||| (i + 1)) :: List.replicate 511 65)

def fullSizeEnd : List Nat :=
  (TYPE_END ||| 16) :: List.replicate 20 65

/-- The receiver after the START and CONT frames of the 8192-byte message. -/
def beforeFullSizeEnd : Transport Unit :=
  (receive_all readyTransport (fullSizeStart :: fullSizeConts)).1

end McpTransport

/-! # JSON-RPC dispatcher

A shallow embedding of `src/src/MCPServer.cpp` and `src/include/MCPServer.h`.
ArduinoJson documents are JSON values without a capacity limit; the text
parser and the serializer of the library are parameters (`JsonLib`). -/

namespace McpServer

/-! ## JSON values and the ArduinoJson operations the server uses -/

/-- A JSON value as an ArduinoJson document holds it.  An object keeps its
members in insertion order.  Numbers are the integers; numbers with a
fraction or an exponent are not modelled.  Strings are C strings. -/
inductive Json where
  | null
  | bool (b : Bool)
  | int (n : Int)
  | str (s : String)
  | arr (items : List Json)
  | obj (members : List (String × Json))

/-- The two ArduinoJson entry points that turn text into a document and a
document into text.  Both belong to the library, not to the repository, and
are taken as given: `deserializeJson` answers `none` for a
`DeserializationError`. -/
structure JsonLib where
  deserializeJson : String → Option Json
  serializeJson : Json → String

/-- The value of member `key` in a member list, if there is one. -/
def member? : List (String × Json) → String → Option Json
  | [], _ => none
  | (k, v) :: rest, key => if k = key then some v else member? rest key

/-- The assignment `obj[key] = v`: replaces the member when the key is there,
appends it otherwise. -/
def setMember : List (String × Json) → String → Json → List (String × Json)
  | [], key, v => [(key, v)]
  | (k, w) :: rest, key, v =>
    if k = key then (k, v) :: rest else (k, w) :: setMember rest key v

/-- The subscript `v[key]` on a variant: the member, or null when `v` is not
an object or has no such member. -/
def Json.get (v : Json) (key : String) : Json :=
  match v with
  | Json.obj members => (member? members key).getD Json.null
  | _ => Json.null

def Json.isNull : Json → Bool
  | Json.null => true
  | _ => false

/-- The test `is<const char*>()`, `is<String>()`, `is<std::string>()`. -/
def Json.is_string : Json → Bool
  | Json.str _ => true
  | _ => false

/-- Limits of `int` and `long` (both 32 bits on the ESP32) and of their
unsigned counterparts. -/
def LONG_MIN : Int := -2147483648
def LONG_MAX : Int := 2147483647
def ULONG_MAX : Int := 4294967295

/-- The test `is<int>()`, `is<long>()`: an integer that fits the type. -/
def Json.is_long : Json → Bool
  | Json.int n => decide (LONG_MIN ≤ n ∧ n ≤ LONG_MAX)
  | _ => false

/-- The test `is<unsigned int>()`, `is<unsigned long>()`. -/
def Json.is_unsigned_long : Json → Bool
  | Json.int n => decide (0 ≤ n ∧ n ≤ ULONG_MAX)
  | _ => false

/-- The conversion `as<long>()` of a number: the integer when it fits a
`long`, 0 when it does not. -/
def Json.as_long : Json → Int
  | Json.int n => if LONG_MIN ≤ n ∧ n ≤ LONG_MAX then n else 0
  | _ => 0

/-- The conversion `as<String>()`, `as<std::string>()`: the string when the
variant holds one, the serialization of the variant otherwise. -/
def Json.as_string (lib : JsonLib) : Json → String
  | Json.str s => s
  | v => lib.serializeJson v

/-! ## Schema model -/

/-- The class `Properties`.  The fields are, in order: `type`, `title`,
`description`, `properties` (a `std::map`, in key order), `required`,
`additionalProperties`, `hasAdditionalProperties`, `items`, `enumValues`,
`oneOf`, `anyOf`, `allOf`, `format`, `defaultValue`. -/
inductive Properties where
  | mk (type title description : String) (properties : List (String × Properties))
      (required : List String) (additionalProperties hasAdditionalProperties : Bool)
      (items : Option Properties) (enumValues : List String)
      (oneOf anyOf allOf : List Properties) (format defaultValue : String) : Properties

def Properties.type : Properties → String
  | Properties.mk t _ _ _ _ _ _ _ _ _ _ _ _ _ => t

def Properties.title : Properties → String
  | Properties.mk _ t _ _ _ _ _ _ _ _ _ _ _ _ => t

def Properties.description : Properties → String
  | Properties.mk _ _ d _ _ _ _ _ _ _ _ _ _ _ => d

def Properties.properties : Properties → List (String × Properties)
  | Properties.mk _ _ _ p _ _ _ _ _ _ _ _ _ _ => p

def Properties.required : Properties → List String
  | Properties.mk _ _ _ _ r _ _ _ _ _ _ _ _ _ => r

def Properties.additionalProperties : Properties → Bool
  | Properties.mk _ _ _ _ _ a _ _ _ _ _ _ _ _ => a

def Properties.hasAdditionalProperties : Properties → Bool
  | Properties.mk _ _ _ _ _ _ h _ _ _ _ _ _ _ => h

def Properties.items : Properties → Option Properties
  | Properties.mk _ _ _ _ _ _ _ i _ _ _ _ _ _ => i

def Properties.enumValues : Properties → List String
  | Properties.mk _ _ _ _ _ _ _ _ e _ _ _ _ _ => e

def Properties.oneOf : Properties → List Properties
  | Properties.mk _ _ _ _ _ _ _ _ _ o _ _ _ _ => o

def Properties.anyOf : Properties → List Properties
  | Properties.mk _ _ _ _ _ _ _ _ _ _ a _ _ _ => a

def Properties.allOf : Properties → List Properties
  | Properties.mk _ _ _ _ _ _ _ _ _ _ _ a _ _ => a

def Properties.format : Properties → String
  | Properties.mk _ _ _ _ _ _ _ _ _ _ _ _ f _ => f

def Properties.defaultValue : Properties → String
  | Properties.mk _ _ _ _ _ _ _ _ _ _ _ _ _ d => d

/-- An array of strings, as the loops over `required` and `enumValues` fill
it. -/
def stringArray (xs : List String) : Json :=
  Json.arr (xs.map Json.str)

mutual
/-- The members `Properties::toJson` gives the empty object it is handed. -/
def Properties.toJson : Properties → List (String × Json)
  | Properties.mk type title description properties required additionalProperties
      hasAdditionalProperties items enumValues oneOf anyOf allOf format defaultValue =>
    let obj := setMember [] "type" (Json.str type)
    let obj := if title.length > 0 then setMember obj "title" (Json.str title) else obj
    let obj :=
      if description.length > 0 then setMember obj "description" (Json.str description) else obj
    let obj :=
      if !properties.isEmpty then
        setMember obj "properties" (Json.obj (Properties.toJsonMap properties []))
      else obj
    let obj := if !required.isEmpty then setMember obj "required" (stringArray required) else obj
    let obj :=
      if hasAdditionalProperties then
        setMember obj "additionalProperties" (Json.bool additionalProperties)
      else obj
    let obj :=
      match items with
      | some it => setMember obj "items" (Json.obj (Properties.toJson it))
      | none => obj
    let obj := if !enumValues.isEmpty then setMember obj "enum" (stringArray enumValues) else obj
    let obj :=
      if !oneOf.isEmpty then setMember obj "oneOf" (Json.arr (Properties.toJsonList oneOf))
      else obj
    let obj :=
      if !anyOf.isEmpty then setMember obj "anyOf" (Json.arr (Properties.toJsonList anyOf))
      else obj
    let obj :=
      if !allOf.isEmpty then setMember obj "allOf" (Json.arr (Properties.toJsonList allOf))
      else obj
    let obj := if format.length > 0 then setMember obj "format" (Json.str format) else obj
    let obj :=
      if defaultValue.length > 0 then setMember obj "default" (Json.str defaultValue) else obj
    obj
/-- The loop over the `properties` map: one member per key, set into the
object built so far. -/
def Properties.toJsonMap : List (String × Properties) → List (String × Json) →
    List (String × Json)
  | [], acc => acc
  | (key, value) :: rest, acc =>
    Properties.toJsonMap rest (setMember acc key (Json.obj (Properties.toJson value)))
/-- The loops over `oneOf`, `anyOf`, `allOf`: one nested object per schema. -/
def Properties.toJsonList : List Properties → List Json
  | [] => []
  | schema :: rest => Json.obj (Properties.toJson schema) :: Properties.toJsonList rest
end

/-! ## Requests, responses, tools -/

def PROTOCOL_VERSION : String := "2024-11-05"
def DEFAULT_SERVER_NAME : String := "ESP32-MCP-BLE"
def DEFAULT_SERVER_VERSION : String := "1.0.0"

/-- The struct `MCPRequest`: the method and the two documents. -/
structure MCPRequest where
  method : String
  idDoc : Json
  paramsDoc : Json

def MCPRequest.params (r : MCPRequest) : Json := r.paramsDoc

def MCPRequest.id (r : MCPRequest) : Json := r.idDoc

/-- The struct `MCPResponse`. -/
structure MCPResponse where
  idDoc : Json
  resultDoc : Json
  errorDoc : Json
  httpStatusCode : Int

/-- The constructor `MCPResponse(id)`. -/
def MCPResponse.ofId (id : Json) : MCPResponse :=
  { idDoc := id, resultDoc := Json.null, errorDoc := Json.null, httpStatusCode := 200 }

def MCPResponse.id (r : MCPResponse) : Json := r.idDoc

def MCPResponse.result (r : MCPResponse) : Json := r.resultDoc

def MCPResponse.error (r : MCPResponse) : Json := r.errorDoc

def MCPResponse.hasResult (r : MCPResponse) : Bool := !r.resultDoc.isNull

def MCPResponse.hasError (r : MCPResponse) : Bool := !r.errorDoc.isNull

/-- The values of `enum class ErrorCode`. -/
def SERVER_ERROR : Int := -32000
def INVALID_REQUEST : Int := -32600
def METHOD_NOT_FOUND : Int := -32601
def INVALID_PARAMS : Int := -32602
def INTERNAL_ERROR : Int := -32603
def PARSE_ERROR : Int := -32700

/-- The class `Tool`.  The handler is the `call` of the `ToolHandler` the
shared pointer holds, `none` for a null pointer. -/
structure Tool where
  name : String
  description : String
  inputSchema : Properties
  outputSchema : Properties
  handler : Option (Json → Json)

/-- The lookup `tools.find(key)` in a `std::map`, kept as the list of its
entries in key order. -/
def mapFind {α : Type} : List (String × α) → String → Option α
  | [], _ => none
  | (k, v) :: rest, key => if k = key then some v else mapFind rest key

/-- The assignment `tools[key] = value` in a `std::map`: the value of an
existing key is replaced, a new key is inserted at its place in key order. -/
def mapAssign {α : Type} : List (String × α) → String → α → List (String × α)
  | [], key, value => [(key, value)]
  | (k, v) :: rest, key, value =>
    if key < k then (key, value) :: (k, v) :: rest
    else if key = k then (key, value) :: rest
    else (k, v) :: mapAssign rest key value

/-- The invariant of a `std::map`: the keys increase strictly. -/
def SortedKeys {α : Type} (m : List (String × α)) : Prop :=
  m.Pairwise (fun a b => a.1 < b.1)

/-- The data members of `BLEMCPServer` the dispatcher reads. -/
structure BLEMCPServer where
  tools : List (String × Tool)
  serverName : String
  serverVersion : String
  serverInstructions : String

/-- The constructor of `BLEMCPServer`. -/
def BLEMCPServer.new (name version instructions : String) : BLEMCPServer :=
  { tools := [], serverName := name, serverVersion := version,
    serverInstructions := instructions }

def RegisterTool (s : BLEMCPServer) (tool : Tool) : BLEMCPServer :=
  { s with tools := mapAssign s.tools tool.name tool }

/-! ## Dispatcher -/

def parseRequest (lib : JsonLib) (json : String) : MCPRequest :=
  match lib.deserializeJson json with
  | none => { method := "", idDoc := Json.null, paramsDoc := Json.null }
  | some doc =>
    { method := (doc.get "method").as_string lib,
      idDoc := doc.get "id",
      paramsDoc := doc.get "params" }

/-- The document `serializeResponse` builds before it serializes it. -/
def responseDoc (lib : JsonLib) (response : MCPResponse) : List (String × Json) :=
  let idVariant := response.id
  let doc :=
    if idVariant.is_string then setMember [] "id" (Json.str (idVariant.as_string lib))
    else if idVariant.is_long || idVariant.is_unsigned_long then
      setMember [] "id" (Json.int idVariant.as_long)
    else if idVariant.isNull then setMember [] "id" Json.null
    else setMember [] "id" idVariant
  let doc := setMember doc "jsonrpc" (Json.str "2.0")
  let doc := if response.hasResult then setMember doc "result" response.result else doc
  let doc := if response.hasError then setMember doc "error" response.error else doc
  doc

def serializeResponse (lib : JsonLib) (response : MCPResponse) : String :=
  lib.serializeJson (Json.obj (responseDoc lib response))

def createJSONRPCError (code : Int) (id : Json) (message : String) : MCPResponse :=
  { MCPResponse.ofId id with
    errorDoc := Json.obj (setMember (setMember [] "code" (Json.int code)) "message"
      (Json.str message)) }

def handleInitialize (s : BLEMCPServer) (request : MCPRequest) : MCPResponse :=
  let capabilities := setMember [] "experimental" (Json.obj [])
  let tools := setMember [] "listChanged" (Json.bool false)
  let capabilities := setMember capabilities "tools" (Json.obj tools)
  let serverInfo := setMember [] "name" (Json.str s.serverName)
  let serverInfo := setMember serverInfo "version" (Json.str s.serverVersion)
  let result := setMember [] "protocolVersion" (Json.str PROTOCOL_VERSION)
  let result := setMember result "capabilities" (Json.obj capabilities)
  let result := setMember result "serverInfo" (Json.obj serverInfo)
  let result :=
    if s.serverInstructions.length > 0 then
      setMember result "instructions" (Json.str s.serverInstructions)
    else result
  { MCPResponse.ofId request.id with resultDoc := Json.obj result }

def handleInitialized (request : MCPRequest) : MCPResponse :=
  { MCPResponse.ofId request.id with resultDoc := Json.obj [], httpStatusCode := 202 }

/-- The object one iteration of the loop of `handleToolsList` adds to the
array. -/
def toolEntry (key : String) (value : Tool) : Json :=
  let tool := setMember [] "name" (Json.str key)
  let tool := setMember tool "description" (Json.str value.description)
  let tool := setMember tool "inputSchema" (Json.obj value.inputSchema.toJson)
  let tool :=
    if value.outputSchema.type.length > 0 then
      setMember tool "outputSchema" (Json.obj value.outputSchema.toJson)
    else tool
  Json.obj tool

def handleToolsList (s : BLEMCPServer) (request : MCPRequest) : MCPResponse :=
  let toolsArray := s.tools.map (fun kv => toolEntry kv.1 kv.2)
  { MCPResponse.ofId request.id with
    resultDoc := Json.obj (setMember [] "tools" (Json.arr toolsArray)) }

def handleFunctionCalls (lib : JsonLib) (s : BLEMCPServer) (request : MCPRequest) :
    MCPResponse :=
  let params := request.params
  if !(params.get "name").is_string then
    createJSONRPCError INVALID_PARAMS request.id "Missing or invalid 'name' parameter"
  else
    let functionName := (params.get "name").as_string lib
    let arguments := params.get "arguments"
    match mapFind s.tools functionName with
    | some tool =>
      match tool.handler with
      | some call =>
        let resultDoc := call arguments
        let resultText := lib.serializeJson resultDoc
        let textContent := setMember [] "type" (Json.str "text")
        let textContent := setMember textContent "text" (Json.str resultText)
        { MCPResponse.ofId request.id with
          resultDoc := Json.obj (setMember [] "content" (Json.arr [Json.obj textContent])) }
      | none =>
        createJSONRPCError INTERNAL_ERROR request.id
          ("Tool handler not initialized: " ++ functionName)
    | none =>
      createJSONRPCError METHOD_NOT_FOUND request.id ("Method not supported: " ++ functionName)

def handle (lib : JsonLib) (s : BLEMCPServer) (request : MCPRequest) : MCPResponse :=
  if request.method = "" then
    createJSONRPCError PARSE_ERROR request.id "Parse error: Invalid JSON"
  else if request.method = "initialize" then handleInitialize s request
  else if request.method = "tools/list" then handleToolsList s request
  else if request.method = "notifications/initialized" then handleInitialized request
  else if request.method = "tools/call" then handleFunctionCalls lib s request
  else
    createJSONRPCError METHOD_NOT_FOUND request.id ("Method not found: " ++ request.method)

/-- The function `processMessage` up to the call of `sendResponse`, which hands
the text to `mcp_transport_send_message`: the text and the status code. -/
def processMessage (lib : JsonLib) (s : BLEMCPServer) (message : String) : String × Int :=
  let request := parseRequest lib message
  let response := handle lib s request
  let jsonResponse := serializeResponse lib response
  (jsonResponse, response.httpStatusCode)

/-- What holds of the `tools` map of every server: it is a `std::map` (keys
increase strictly) and `RegisterTool`, the only writer, files a tool under its
own name. -/
def ValidRegistry (m : List (String × Tool)) : Prop :=
  SortedKeys m ∧ ∀ kv ∈ m, kv.1 = kv.2.name

/-- The member list is one of a tool entry for key `k` and tool `tool`: it has
the tool's name, description and input schema, and an `outputSchema` member
exactly when the type of the output schema is not empty. -/
def EntryFor (kv : String × Tool) (e : Json) : Prop :=
  e.get "name" = Json.str kv.1 ∧
  e.get "description" = Json.str kv.2.description ∧
  e.get "inputSchema" = Json.obj kv.2.inputSchema.toJson ∧
  (match e with
   | Json.obj members =>
     member? members "outputSchema" =
       if kv.2.outputSchema.type.length > 0 then some (Json.obj kv.2.outputSchema.toJson)
       else none
   | _ => False)

/-- The names a schema object may have as members. -/
def schemaKeys : List String :=
  ["type", "title", "description", "properties", "required", "additionalProperties", "items",
   "enum", "oneOf", "anyOf", "allOf", "format", "default"]

/-! ## The echo scenario -/

/-- A schema with a type and nothing else. -/
def typeOnly (type : String) : Properties :=
  Properties.mk type "" "" [] [] true false none [] [] [] [] "" ""

/-- The tool of the scenario: input of type string, handler giving back its
argument. -/
def echoTool : Tool :=
  { name := "echo", description := "", inputSchema := typeOnly "string",
    outputSchema := typeOnly "", handler := some (fun args => args) }

def echoServer : BLEMCPServer :=
  RegisterTool (BLEMCPServer.new DEFAULT_SERVER_NAME DEFAULT_SERVER_VERSION "") echoTool

/-- The raw request of the scenario. -/
def echoRaw : String :=
  "\x7b\"jsonrpc\":\"2.0\",\"id\":1,\"method\":\"tools/call\",\"params\":\x7b\"name\":\"echo\",\"arguments\":\"hi\"\x7d\x7d"

/-- The document the raw request of the scenario denotes. -/
def echoDoc : Json :=
  Json.obj [("jsonrpc", Json.str "2.0"), ("id", Json.int 1), ("method", Json.str "tools/call"),
    ("params", Json.obj [("name", Json.str "echo"), ("arguments", Json.str "hi")])]

/-- A string with a backslash before each quote and each backslash. -/
def escapeJson (s : String) : String :=
  String.mk (s.data.foldr
    (fun c acc => if c = '"' ∨ c = '\\' then '\\' :: c :: acc else c :: acc) [])

mutual
/-- Compact JSON text of a value. -/
def compactJson : Json → String
  | Json.null => "null"
  | Json.bool true => "true"
  | Json.bool false => "false"
  | Json.int n => toString n
  | Json.str s => "\"" ++ escapeJson s ++ "\""
  | Json.arr items => "[" ++ compactItems items ++ "]"
  | Json.obj members => "\x7b" ++ compactMembers members ++ "\x7d"
def compactItems : List Json → String
  | [] => ""
  | [v] => compactJson v
  | v :: rest => compactJson v ++ "," ++ compactItems rest
def compactMembers : List (String × Json) → String
  | [] => ""
  | [(k, v)] => "\"" ++ k ++ "\":" ++ compactJson v
  | (k, v) :: rest => "\"" ++ k ++ "\":" ++ compactJson v ++ "," ++ compactMembers rest
end

/-- A stand-in for the library on the values of the scenario: it reads the
raw request of the scenario, rejects every other text, and writes compact
text. -/
def echoLib : JsonLib :=
  { deserializeJson := fun text => if text = echoRaw then some echoDoc else none,
    serializeJson := compactJson }

/-- A request for `initialize` whose id fits an `unsigned long` and not a
`long`. -/
def bigIdRequest : MCPRequest :=
  { method := "initialize", idDoc := Json.int 3000000000, paramsDoc := Json.null }

/-! ## Vocabulary of the statements on the dispatcher -/

/-- A response with a result and no error, or with an error and no result. -/
def ExactlyOne (r : MCPResponse) : Prop :=
  ((∃ ms, r.resultDoc = Json.obj ms) ∧ r.errorDoc = Json.null) ∨
  (r.resultDoc = Json.null ∧ ∃ ms, r.errorDoc = Json.obj ms)

/-- The `id` member `serializeResponse` writes for a response. -/
def idMember (lib : JsonLib) (id : Json) : Json :=
  if id.is_string then Json.str (id.as_string lib)
  else if id.is_long || id.is_unsigned_long then Json.int id.as_long
  else if id.isNull then Json.null
  else id

/-! ## Further tools and requests -/

/-- A second tool named `echo`, whose handler answers null whatever the
argument. -/
def nullTool : Tool :=
  { name := "echo", description := "second", inputSchema := typeOnly "string",
    outputSchema := typeOnly "", handler := some (fun _ => Json.null) }

/-- A well-formed request whose method is the empty string. -/
def emptyMethodRaw : String :=
  "\x7b\"jsonrpc\":\"2.0\",\"id\":1,\"method\":\"\"\x7d"

/-- The document the request with the empty method denotes. -/
def emptyMethodDoc : Json :=
  Json.obj [("jsonrpc", Json.str "2.0"), ("id", Json.int 1), ("method", Json.str "")]

/-- A well-formed request without a method. -/
def noMethodRaw : String :=
  "\x7b\"jsonrpc\":\"2.0\",\"id\":1\x7d"

/-- The document the request without a method denotes. -/
def noMethodDoc : Json :=
  Json.obj [("jsonrpc", Json.str "2.0"), ("id", Json.int 1)]

/-- A stand-in for the library on the two requests above: it reads them,
rejects every other text, and writes compact text. -/
def methodLib : JsonLib :=
  { deserializeJson := fun text =>
      if text = emptyMethodRaw then some emptyMethodDoc
      else if text = noMethodRaw then some noMethodDoc
      else none,
    serializeJson := compactJson }

end McpServer

namespace McpTransport

/-! # Lemmas -/

/-! ## The C string the callback reads -/

theorem c_string_from_eq (buf : Nat → Nat) :
    ∀ (rest : List Nat) (fuel i : Nat), NulFree rest → rest.length < fuel →
      (∀ j, j < rest.length → buf (i + j) = rest.getD j 0) → buf (i + rest.length) = 0 →
      c_string_from buf fuel i = rest := by
  intro rest
  induction rest with
  | nil =>
    intro fuel i _ hf _ h0
    cases fuel with
    | zero => simp at hf
    | succ f => simpa [c_string_from] using h0
  | cons b rest ih =>
    intro fuel i hn hf hb h0
    cases fuel with
    | zero => simp at hf
    | succ f =>
      have hbi : buf i = b := by simpa using hb 0 (by simp)
      have hbne : b ≠ 0 := hn b (by simp)
      have hrec : c_string_from buf f (i + 1) = rest := by
        apply ih
        · intro c hc
          exact hn c (by simp [hc])
        · simpa using hf
        · intro j hj
          have := hb (j + 1) (by simpa using hj)
          simpa [Nat.add_assoc, Nat.add_comm 1 j] using this
        · simpa [Nat.add_assoc, Nat.add_comm 1] using h0
      simp [c_string_from, hbi, hbne, hrec]

theorem c_string_store_memcpy (buf : Nat → Nat) (p : List Nat) (hn : NulFree p)
    (hl : p.length ≤ MAX_MESSAGE_SIZE) :
    c_string (store (memcpy buf 0 p) p.length 0) = p := by
  unfold c_string
  apply c_string_from_eq
  · exact hn
  · omega
  · intro j hj
    simp [store, memcpy, hj, Nat.ne_of_lt hj]
  · simp [store]

/-! ## Header bits and the length field -/

theorem and_seq_mask (s : Nat) : s &&& HEADER_SEQ_MASK = s % 64 :=
  Nat.and_pow_two_sub_one_eq_mod s 6

theorem header_bits_small :
    ∀ y, y < 64 →
      ((TYPE_SINGLE ||| y) &&& HEADER_TYPE_MASK = TYPE_SINGLE ∧
       (TYPE_START ||| y) &&& HEADER_TYPE_MASK = TYPE_START ∧
       (TYPE_CONT ||| y) &&& HEADER_TYPE_MASK = TYPE_CONT ∧
       (TYPE_END ||| y) &&& HEADER_TYPE_MASK = TYPE_END) ∧
      ((TYPE_SINGLE ||| y) &&& HEADER_SEQ_MASK = y ∧
       (TYPE_START ||| y) &&& HEADER_SEQ_MASK = y ∧
       (TYPE_CONT ||| y) &&& HEADER_SEQ_MASK = y ∧
       (TYPE_END ||| y) &&& HEADER_SEQ_MASK = y) := by
  decide

theorem decode_total_len_bytes (L : Nat) (h : L < 65536) :
    decode_total_len ((L >>> 24) &&& 0xFF) ((L >>> 16) &&& 0xFF) ((L >>> 8) &&& 0xFF)
      (L &&& 0xFF) = L := by
  have e (x : Nat) : x &&& 0xFF = x % 256 := Nat.and_pow_two_sub_one_eq_mod x 8
  have h24 : L >>> 24 = 0 := by rw [Nat.shiftRight_eq_div_pow]; omega
  have h16 : L >>> 16 = 0 := by rw [Nat.shiftRight_eq_div_pow]; omega
  have h8 : L >>> 8 = L / 256 := by rw [Nat.shiftRight_eq_div_pow]
  unfold decode_total_len
  rw [e, e, e, e, h24, h16, h8]
  simp only [Nat.zero_mod, Nat.zero_shiftLeft, Nat.zero_or, Nat.or_zero, Nat.shiftLeft_eq, Nat.zero_mul]
  have hlt : L % 256 < 2 ^ 8 := by omega
  have := Nat.mul_add_lt_is_or hlt (L / 256 % 256)
  rw [Nat.mul_comm] at this
  rw [← this]
  omega

theorem total_len_bytes_eq (L : Nat) :
    total_len_bytes L = [L / 16777216 % 256, L / 65536 % 256, L / 256 % 256, L % 256] := by
  have e (x : Nat) : x &&& 0xFF = x % 256 := Nat.and_pow_two_sub_one_eq_mod x 8
  simp only [total_len_bytes, e, Nat.shiftRight_eq_div_pow]

/-! ## Receiver: single steps -/

theorem receive_cont_end_no_message {κ : Type} (t : Transport κ) (p : List Nat)
    (h0 : t.rx_total_len = 0) (hp : IsContOrEnd p) :
    mcp_transport_receive t p = ⟨t, none, []⟩ := by
  cases p with
  | nil => rcases hp with hp | hp <;> simp [frame_type] at hp
  | cons header payload =>
    have ht : header &&& HEADER_TYPE_MASK = TYPE_CONT ∨ header &&& HEADER_TYPE_MASK = TYPE_END := by
      rcases hp with hp | hp
      · left; simpa [frame_type] using hp
      · right; simpa [frame_type] using hp
    simp only [HEADER_TYPE_MASK, TYPE_CONT, TYPE_END] at ht
    rcases ht with ht | ht <;>
      simp [mcp_transport_receive, HEADER_TYPE_MASK, TYPE_SINGLE, TYPE_START, TYPE_CONT, TYPE_END,
        ht, h0]

theorem receive_all_cont_end_no_message {κ : Type} (ps : List (List Nat)) :
    ∀ (t : Transport κ), t.rx_total_len = 0 → (∀ p ∈ ps, IsContOrEnd p) →
      receive_all t ps = (t, List.replicate ps.length none) := by
  induction ps with
  | nil => intro t _ _; rfl
  | cons p ps ih =>
    intro t h0 hall
    have hp := receive_cont_end_no_message t p h0 (hall p (by simp))
    have hrest := ih t h0 (fun q hq => hall q (by simp [hq]))
    simp [receive_all, hp, hrest, List.replicate_succ]

theorem receive_preserves_inv {κ : Type} (t : Transport κ) (data : List Nat) (h : RxInv t) :
    RxInv (mcp_transport_receive t data).t := by
  obtain ⟨h1, h2⟩ := h
  unfold mcp_transport_receive
  by_cases ha : t.rx_buffer_alloc = true
  swap
  · simp only [Bool.not_eq_true] at ha
    simp only [ha, Bool.not_false, if_true]
    exact ⟨h1, h2⟩
  simp only [ha, Bool.not_true, Bool.false_eq_true, if_false]
  cases data with
  | nil => exact ⟨h1, h2⟩
  | cons header payload =>
    simp only []
    by_cases c1 : header &&& HEADER_TYPE_MASK = TYPE_SINGLE
    · simp only [c1, if_true]
      by_cases c2 : payload.length ≥ MAX_MESSAGE_SIZE
      · simp only [c2, if_true]; exact ⟨h1, h2⟩
      · simp only [c2, if_false]; exact ⟨Nat.zero_le _, fun h => absurd rfl h⟩
    simp only [c1, if_false]
    by_cases c2 : header &&& HEADER_TYPE_MASK = TYPE_START
    · simp only [c2, if_true]
      split
      · rename_i p0 p1 p2 p3 chunk
        by_cases c3 : decode_total_len p0 p1 p2 p3 > MAX_MESSAGE_SIZE
        · simp only [c3, if_true]; exact ⟨Nat.zero_le _, fun h => absurd rfl h⟩
        · simp only [c3, if_false]
          by_cases c4 : chunk.length > decode_total_len p0 p1 p2 p3
          · simp only [c4, if_true]; exact ⟨Nat.zero_le _, fun h => absurd rfl h⟩
          · simp only [c4, if_false]
            refine ⟨Nat.le_of_not_gt c3, fun _ => ⟨rfl, rfl, ?_⟩⟩
            simp only [Nat.zero_add]
            exact Nat.le_of_not_gt c4
      · exact ⟨h1, h2⟩
    simp only [c2, if_false]
    by_cases c3 : header &&& HEADER_TYPE_MASK = TYPE_CONT
    · simp only [c3, if_true]
      by_cases d1 : t.rx_total_len = 0
      · simp only [d1, if_true]; exact ⟨h1, h2⟩
      simp only [d1, if_false]
      by_cases d2 : t.rx_in_progress = true
      swap
      · simp only [Bool.not_eq_true] at d2
        simp only [d2, Bool.not_false, if_true]; exact ⟨h1, h2⟩
      simp only [d2, Bool.not_true, Bool.false_eq_true, if_false]
      by_cases d3 : header &&& HEADER_SEQ_MASK ≠ t.rx_expect_seq_id
      · rw [if_pos d3]; exact ⟨Nat.zero_le _, fun h => absurd rfl h⟩
      rw [if_neg d3]
      by_cases d4 : t.rx_received_len + payload.length > t.rx_total_len
      · simp only [d4, if_true]; exact ⟨Nat.zero_le _, fun h => absurd rfl h⟩
      · simp only [d4, if_false]
        exact ⟨h1, fun _ => ⟨rfl, rfl, Nat.le_of_not_gt d4⟩⟩
    simp only [c3, if_false]
    by_cases c4 : header &&& HEADER_TYPE_MASK = TYPE_END
    · simp only [c4, if_true]
      by_cases d1 : t.rx_total_len = 0
      · simp only [d1, if_true]; exact ⟨h1, h2⟩
      simp only [d1, if_false]
      by_cases d2 : t.rx_in_progress = true
      swap
      · simp only [Bool.not_eq_true] at d2
        simp only [d2, Bool.not_false, if_true]; exact ⟨h1, h2⟩
      simp only [d2, Bool.not_true, Bool.false_eq_true, if_false]
      by_cases d3 : header &&& HEADER_SEQ_MASK ≠ t.rx_expect_seq_id
      · rw [if_pos d3]; exact ⟨Nat.zero_le _, fun h => absurd rfl h⟩
      rw [if_neg d3]
      by_cases d4 : t.rx_received_len + payload.length > t.rx_total_len
      · simp only [d4, if_true]; exact ⟨Nat.zero_le _, fun h => absurd rfl h⟩
      simp only [d4, if_false]
      by_cases d5 : t.rx_received_len + payload.length = t.rx_total_len
      · simp only [d5, if_true]; exact ⟨Nat.zero_le _, fun h => absurd rfl h⟩
      · simp only [d5, if_false]; exact ⟨Nat.zero_le _, fun h => absurd rfl h⟩
    simp only [c4, if_false]
    exact ⟨h1, h2⟩

theorem reachable_inv {κ : Type} (t : Transport κ) (h : Reachable t) : RxInv t := by
  induction h with
  | idle t hi =>
    obtain ⟨_, h0, _⟩ := hi
    refine ⟨?_, fun hne => absurd h0 hne⟩
    rw [h0]; exact Nat.zero_le _
  | step t data _ ih => exact receive_preserves_inv t data ih

theorem getD_take_drop (m : List Nat) (o n i : Nat) (h : i < n) :
    ((m.drop o).take n).getD i 0 = m.getD (o + i) 0 := by
  simp [List.getD_eq_getElem?_getD, List.getElem?_take, h, List.getElem?_drop]

theorem length_take_drop (m : List Nat) (o n : Nat) (h : o + n ≤ m.length) :
    ((m.drop o).take n).length = n := by
  simp [List.length_take, List.length_drop]; omega

theorem memcpy_agrees (buf : Nat → Nat) (m : List Nat) (offset n : Nat)
    (hlen : offset + n ≤ m.length)
    (hbuf : ∀ j, j < offset → buf j = m.getD j 0) :
    ∀ j, j < offset + n → memcpy buf offset ((m.drop offset).take n) j = m.getD j 0 := by
  intro j hj
  unfold memcpy
  rw [length_take_drop m offset n hlen]
  by_cases h : offset ≤ j
  · rw [if_pos ⟨h, hj⟩, getD_take_drop m offset n (j - offset) (by omega)]
    congr 1; omega
  · rw [if_neg (fun hh => h hh.1)]
    exact hbuf j (by omega)

theorem receive_cont_step {κ : Type} (t : Transport κ) (m : List Nat) (offset seq_id P : Nat)
    (hA : Assembling t m offset seq_id) (hrem : m.length - offset > P - 1) :
    (mcp_transport_receive t
      ((TYPE_CONT ||| (seq_id &&& HEADER_SEQ_MASK)) :: (m.drop offset).take (P - 1))).delivered
        = none ∧
    Assembling (mcp_transport_receive t
      ((TYPE_CONT ||| (seq_id &&& HEADER_SEQ_MASK)) :: (m.drop offset).take (P - 1))).t
      m (offset + (P - 1)) ((seq_id + 1) % 256) := by
  obtain ⟨ha, hcb, hprog, htot, hrec, hexp, hbuf⟩ := hA
  have hlt : seq_id % 64 < 64 := Nat.mod_lt _ (by decide)
  have hb := header_bits_small (seq_id % 64) hlt
  have htype : (TYPE_CONT ||| (seq_id &&& HEADER_SEQ_MASK)) &&& HEADER_TYPE_MASK = TYPE_CONT := by
    rw [and_seq_mask seq_id]; exact hb.1.2.2.1
  have hseq : (TYPE_CONT ||| (seq_id &&& HEADER_SEQ_MASK)) &&& HEADER_SEQ_MASK
      = t.rx_expect_seq_id := by
    rw [and_seq_mask seq_id, hexp]; exact hb.2.2.2.1
  have hlen : ((m.drop offset).take (P - 1)).length = P - 1 :=
    length_take_drop m offset (P - 1) (by omega)
  have hne : t.rx_total_len ≠ 0 := by omega
  have hfit : ¬ (t.rx_received_len + ((m.drop offset).take (P - 1)).length > t.rx_total_len) := by
    rw [hlen]; omega
  have hc1 : ¬ (TYPE_CONT = TYPE_SINGLE) := by decide
  have hc2 : ¬ (TYPE_CONT = TYPE_START) := by decide
  have hrecv : mcp_transport_receive t
      ((TYPE_CONT ||| (seq_id &&& HEADER_SEQ_MASK)) :: (m.drop offset).take (P - 1)) =
      ⟨{ t with rx_expect_seq_id := ((t.rx_expect_seq_id + 1) &&& HEADER_SEQ_MASK) % 256,
                rx_buffer := memcpy t.rx_buffer t.rx_received_len ((m.drop offset).take (P - 1)),
                rx_received_len := t.rx_received_len + ((m.drop offset).take (P - 1)).length },
        none, List.range' t.rx_received_len ((m.drop offset).take (P - 1)).length⟩ := by
    rw [mcp_transport_receive]
    simp only [ha, Bool.not_true, Bool.false_eq_true, if_false, htype, hc1, hc2, if_true, hne,
      hprog, hseq, ne_eq, not_true_eq_false, hfit]
  rw [hrecv]
  refine ⟨rfl, ha, hcb, hprog, htot, ?_, ?_, ?_⟩
  · show t.rx_received_len + ((m.drop offset).take (P - 1)).length = offset + (P - 1)
    rw [hlen, hrec]
  · show ((t.rx_expect_seq_id + 1) &&& HEADER_SEQ_MASK) % 256 = (seq_id + 1) % 256 % 64
    rw [and_seq_mask, hexp]; omega
  · show ∀ j, j < offset + (P - 1) →
      memcpy t.rx_buffer t.rx_received_len ((m.drop offset).take (P - 1)) j = m.getD j 0
    rw [hrec]
    exact memcpy_agrees t.rx_buffer m offset (P - 1) (by omega) hbuf

theorem receive_end_step {κ : Type} (t : Transport κ) (m : List Nat) (offset seq_id : Nat)
    (hA : Assembling t m offset seq_id) (hoff : offset < m.length) (hn : NulFree m)
    (hL : m.length ≤ MAX_MESSAGE_SIZE) :
    (mcp_transport_receive t
      ((TYPE_END ||| (seq_id &&& HEADER_SEQ_MASK)) ::
        (m.drop offset).take (m.length - offset))).delivered = some m ∧
    Idle (mcp_transport_receive t
      ((TYPE_END ||| (seq_id &&& HEADER_SEQ_MASK)) ::
        (m.drop offset).take (m.length - offset))).t := by
  obtain ⟨ha, hcb, hprog, htot, hrec, hexp, hbuf⟩ := hA
  have hlt : seq_id % 64 < 64 := Nat.mod_lt _ (by decide)
  have hb := header_bits_small (seq_id % 64) hlt
  have htype : (TYPE_END ||| (seq_id &&& HEADER_SEQ_MASK)) &&& HEADER_TYPE_MASK = TYPE_END := by
    rw [and_seq_mask seq_id]; exact hb.1.2.2.2
  have hseq : (TYPE_END ||| (seq_id &&& HEADER_SEQ_MASK)) &&& HEADER_SEQ_MASK
      = t.rx_expect_seq_id := by
    rw [and_seq_mask seq_id, hexp]; exact hb.2.2.2.2
  have hlen : ((m.drop offset).take (m.length - offset)).length = m.length - offset :=
    length_take_drop m offset (m.length - offset) (by omega)
  have hne : t.rx_total_len ≠ 0 := by omega
  have hsum : t.rx_received_len + ((m.drop offset).take (m.length - offset)).length
      = t.rx_total_len := by
    rw [hlen]; omega
  have hfit : ¬ (t.rx_received_len + ((m.drop offset).take (m.length - offset)).length
      > t.rx_total_len) := by
    rw [hsum]; exact Nat.lt_irrefl _
  have hc1 : ¬ (TYPE_END = TYPE_SINGLE) := by decide
  have hc2 : ¬ (TYPE_END = TYPE_START) := by decide
  have hc3 : ¬ (TYPE_END = TYPE_CONT) := by decide
  have hstr : c_string (store (memcpy t.rx_buffer t.rx_received_len
      ((m.drop offset).take (m.length - offset))) t.rx_total_len 0) = m := by
    unfold c_string
    apply c_string_from_eq
    · exact hn
    · omega
    · intro j hj
      have hag := memcpy_agrees t.rx_buffer m offset (m.length - offset) (by omega) hbuf j
        (by omega)
      simp only [store, Nat.zero_add, htot, Nat.ne_of_lt hj, if_false, hrec]
      exact hag
    · simp [store, htot]
  have hrecv : mcp_transport_receive t
      ((TYPE_END ||| (seq_id &&& HEADER_SEQ_MASK)) :: (m.drop offset).take (m.length - offset)) =
      ⟨{ t with rx_buffer := store (memcpy t.rx_buffer t.rx_received_len
                  ((m.drop offset).take (m.length - offset))) t.rx_total_len 0,
                rx_total_len := 0, rx_received_len := 0, rx_in_progress := false },
        some m,
        List.range' t.rx_received_len ((m.drop offset).take (m.length - offset)).length ++
          [t.rx_total_len]⟩ := by
    rw [mcp_transport_receive]
    simp only [ha, Bool.not_true, Bool.false_eq_true, if_false, htype, hc1, hc2, hc3, if_true,
      hne, hprog, hseq, ne_eq, not_true_eq_false, hsum, hcb, hstr, gt_iff_lt,
      lt_self_iff_false]
  rw [hrecv]
  exact ⟨rfl, rfl, rfl, rfl⟩

theorem receive_start_step {κ : Type} (t : Transport κ) (m : List Nat) (P : Nat)
    (ha : t.rx_buffer_alloc = true) (hcb : t.s_message_cb = true)
    (hlong : P < m.length + 1) (hL : m.length ≤ MAX_MESSAGE_SIZE) :
    (mcp_transport_receive t
      ((TYPE_START ||| (0 &&& HEADER_SEQ_MASK)) ::
        (total_len_bytes m.length ++ (m.drop 0).take (P - 5)))).delivered = none ∧
    Assembling (mcp_transport_receive t
      ((TYPE_START ||| (0 &&& HEADER_SEQ_MASK)) ::
        (total_len_bytes m.length ++ (m.drop 0).take (P - 5)))).t m (0 + (P - 5))
      ((0 + 1) % 256) := by
  have hhdr : TYPE_START ||| (0 &&& HEADER_SEQ_MASK) = TYPE_START := by decide
  have htype : TYPE_START &&& HEADER_TYPE_MASK = TYPE_START := by decide
  have hc1 : ¬ (TYPE_START = TYPE_SINGLE) := by decide
  have hexp : ((TYPE_START &&& HEADER_SEQ_MASK) + 1 &&& HEADER_SEQ_MASK) % 256 = 1 := by decide
  have hdec := decode_total_len_bytes m.length (by simp only [MAX_MESSAGE_SIZE] at hL; omega)
  have hlen : ((m.drop 0).take (P - 5)).length = P - 5 :=
    length_take_drop m 0 (P - 5) (by omega)
  have hbig : ¬ (m.length > MAX_MESSAGE_SIZE) := by omega
  have hfit : ¬ (((m.drop 0).take (P - 5)).length > m.length) := by rw [hlen]; omega
  have hrecv : mcp_transport_receive t
      ((TYPE_START ||| (0 &&& HEADER_SEQ_MASK)) ::
        (total_len_bytes m.length ++ (m.drop 0).take (P - 5))) =
      ⟨{ t with rx_buffer := memcpy t.rx_buffer 0 ((m.drop 0).take (P - 5)),
                rx_total_len := m.length,
                rx_received_len := 0 + ((m.drop 0).take (P - 5)).length,
                rx_in_progress := true,
                rx_expect_seq_id := 1 }, none,
        List.range' 0 ((m.drop 0).take (P - 5)).length⟩ := by
    rw [mcp_transport_receive, hhdr]
    simp only [ha, Bool.not_true, Bool.false_eq_true, if_false, htype, hc1, if_true,
      total_len_bytes, List.cons_append, List.nil_append, hdec, hbig, hfit, hexp]
  rw [hrecv]
  refine ⟨rfl, ha, hcb, rfl, rfl, ?_, rfl, ?_⟩
  · show 0 + ((m.drop 0).take (P - 5)).length = 0 + (P - 5)
    rw [hlen]
  · show ∀ j, j < 0 + (P - 5) → memcpy t.rx_buffer 0 ((m.drop 0).take (P - 5)) j = m.getD j 0
    exact memcpy_agrees t.rx_buffer m 0 (P - 5) (by omega) (fun j hj => absurd hj (Nat.not_lt_zero j))

theorem receive_tailFrames {κ : Type} (m : List Nat) (P : Nat) (hP : 2 ≤ P) (hn : NulFree m)
    (hL : m.length ≤ MAX_MESSAGE_SIZE) :
    ∀ (n offset seq_id : Nat) (t : Transport κ), Assembling t m offset seq_id →
      offset < m.length → m.length - offset ≤ n →
      ∃ c, (tailFrames P m n offset seq_id).length = c + 1 ∧
        (receive_all t (tailFrames P m n offset seq_id)).2 = List.replicate c none ++ [some m] ∧
        Idle (receive_all t (tailFrames P m n offset seq_id)).1 := by
  intro n
  induction n with
  | zero => intro _ _ _ _ h1 h2; omega
  | succ n ih =>
    intro offset seq_id t hA hoff hfuel
    by_cases hrem : m.length - offset > P - 1
    · obtain ⟨hd, hA1⟩ := receive_cont_step t m offset seq_id P hA hrem
      obtain ⟨c, hlen, hdel, hidle⟩ :=
        ih (offset + (P - 1)) ((seq_id + 1) % 256) _ hA1 (by omega) (by omega)
      refine ⟨c + 1, ?_, ?_, ?_⟩
      · simp only [tailFrames, hrem, if_true, List.length_cons, hlen]
      · simp only [tailFrames, hrem, if_true, receive_all, hd, hdel, List.replicate_succ,
          List.cons_append]
      · simp only [tailFrames, hrem, if_true, receive_all]
        exact hidle
    · obtain ⟨hd, hidle⟩ := receive_end_step t m offset seq_id hA hoff hn hL
      refine ⟨0, ?_, ?_, ?_⟩
      · simp only [tailFrames, hrem, if_false, List.length_singleton]
      · simp only [tailFrames, hrem, if_false, receive_all, hd, List.replicate_zero,
          List.nil_append]
      · simp only [tailFrames, hrem, if_false, receive_all]
        exact hidle

/-! ## Sender: the frames of a message -/

theorem sentPackets_append (a b : List TxEvent) :
    sentPackets (a ++ b) = sentPackets a ++ sentPackets b := by
  induction a with
  | nil => rfl
  | cons e es ih =>
    cases e with
    | lock acquire => simpa [sentPackets] using ih
    | sleep ticks => simpa [sentPackets] using ih
    | send data rc =>
      by_cases h : rc = 0
      · simp [sentPackets, h, ih]
      · simp [sentPackets, h, ih]

theorem sentPackets_sleep_if (c : Prop) [Decidable c] (ticks : Nat) :
    sentPackets (if c then [TxEvent.sleep ticks] else []) = [] := by
  split <;> rfl

theorem sentPackets_lock_call {κ : Type} (t : Transport κ) (b : Bool) :
    sentPackets (lock_call t b) = [] := by
  unfold lock_call
  split <;> rfl

theorem send_packet_accepts {κ : Type} (t : Transport κ) (fn : List Nat → κ → Int × κ)
    (hfn : t.s_send_fn = some fn) (hacc : AlwaysAccepts fn) (fuel : Nat) (data : List Nat)
    (k : κ) :
    mcp_transport_send_packet t (fuel + 1) data k =
      some (true, (fn data k).2, [TxEvent.send data 0]) := by
  simp [mcp_transport_send_packet, hfn, send_packet_loop, hacc data k]

theorem send_message_loop_accepts {κ : Type} (t : Transport κ)
    (fn : List Nat → κ → Int × κ) (hfn : t.s_send_fn = some fn) (hacc : AlwaysAccepts fn)
    (m : List Nat) (P : Nat) (hP : 2 ≤ P) :
    ∀ (fuel offset seq_id : Nat) (k : κ), offset < m.length → m.length - offset + 1 ≤ fuel →
      ∃ k1 evs, send_message_loop t m m.length P fuel offset seq_id k = some (true, k1, evs) ∧
        sentPackets evs = tailFrames P m fuel offset seq_id := by
  intro fuel
  induction fuel with
  | zero => intro _ _ _ _ h; omega
  | succ f ih =>
    intro offset seq_id k hoff hfuel
    by_cases hrem : m.length - offset > P - 1
    · obtain ⟨k1, evs, hloop, hsent⟩ :=
        ih (offset + (P - 1)) ((seq_id + 1) % 256)
          (fn ((TYPE_CONT ||| (seq_id &&& HEADER_SEQ_MASK)) :: (m.drop offset).take (P - 1)) k).2
          (by omega) (by omega)
      have hstep : send_message_loop t m m.length P (f + 1) offset seq_id k =
          some (true, k1,
            (if t.s_tx_gap_ticks > 0 ∧ t.s_sleep_fn = true then [TxEvent.sleep t.s_tx_gap_ticks]
              else []) ++
            [TxEvent.send ((TYPE_CONT ||| (seq_id &&& HEADER_SEQ_MASK)) ::
              (m.drop offset).take (P - 1)) 0] ++ evs) := by
        rw [send_message_loop]
        simp only [hoff, hrem, if_true, send_packet_accepts t fn hfn hacc, hloop]
      refine ⟨k1, _, hstep, ?_⟩
      simp only [sentPackets_append, sentPackets_sleep_if, sentPackets, if_true, hsent,
        tailFrames, hrem, List.nil_append, List.singleton_append]
    · obtain ⟨f1, rfl⟩ : ∃ f1, f = f1 + 1 := ⟨f - 1, by omega⟩
      have hstep : send_message_loop t m m.length P (f1 + 1 + 1) offset seq_id k =
          some (true,
            (fn ((TYPE_END ||| (seq_id &&& HEADER_SEQ_MASK)) ::
              (m.drop offset).take (m.length - offset)) k).2,
            (if t.s_tx_gap_ticks > 0 ∧ t.s_sleep_fn = true then [TxEvent.sleep t.s_tx_gap_ticks]
              else []) ++
            [TxEvent.send ((TYPE_END ||| (seq_id &&& HEADER_SEQ_MASK)) ::
              (m.drop offset).take (m.length - offset)) 0] ++ []) := by
        rw [send_message_loop]
        simp only [hoff, hrem, if_true, if_false, send_packet_accepts t fn hfn hacc]
        have hend : offset + (m.length - offset) = m.length := by omega
        rw [hend, send_message_loop]
        simp only [Nat.lt_irrefl, if_false]
      refine ⟨_, _, hstep, ?_⟩
      simp only [sentPackets_append, sentPackets_sleep_if, sentPackets, if_true,
        tailFrames, hrem, if_false, List.nil_append, List.append_nil]

theorem strlen_nulFree (m : List Nat) (hn : NulFree m) : strlen m = m.length := by
  unfold strlen
  have : m.takeWhile (fun b => decide (b ≠ 0)) = m := by
    rw [List.takeWhile_eq_self_iff]
    intro x hx
    simpa using hn x hx
  rw [this]

theorem tailFrames_layout (m : List Nat) (P : Nat) (hP : 2 ≤ P) :
    ∀ (n offset seq_id : Nat), offset < m.length → m.length - offset ≤ n →
      ∃ conts hdr chunk, tailFrames P m n offset seq_id = conts ++ [hdr :: chunk] ∧
        (∀ c ∈ conts, frame_type c = some TYPE_CONT ∧ c.length = P) ∧
        hdr &&& HEADER_TYPE_MASK = TYPE_END ∧ 1 ≤ chunk.length ∧ chunk.length ≤ P - 1 ∧
        dataOf conts ++ chunk = m.drop offset := by
  intro n
  induction n with
  | zero => intro _ _ h1 h2; omega
  | succ n ih =>
    intro offset seq_id hoff hfuel
    have hlt : seq_id % 64 < 64 := Nat.mod_lt _ (by decide)
    have hb := header_bits_small (seq_id % 64) hlt
    by_cases hrem : m.length - offset > P - 1
    · obtain ⟨conts, hdr, chunk, htail, hconts, hend, h1, h2, hdata⟩ :=
        ih (offset + (P - 1)) ((seq_id + 1) % 256) (by omega) (by omega)
      refine ⟨((TYPE_CONT ||| (seq_id &&& HEADER_SEQ_MASK)) :: (m.drop offset).take (P - 1)) ::
        conts, hdr, chunk, ?_, ?_, hend, h1, h2, ?_⟩
      · simp only [tailFrames, hrem, if_true, htail, List.cons_append]
      · intro c hc
        rcases List.mem_cons.mp hc with rfl | hc
        · refine ⟨?_, ?_⟩
          · simp only [frame_type]
            rw [and_seq_mask seq_id, hb.1.2.2.1]
          · rw [List.length_cons, length_take_drop m offset (P - 1) (by omega)]
            omega
        · exact hconts c hc
      · simp only [dataOf, List.drop_succ_cons, List.drop_zero, List.append_assoc, hdata]
        rw [← List.drop_drop, List.take_append_drop]
    · refine ⟨[], TYPE_END ||| (seq_id &&& HEADER_SEQ_MASK),
        (m.drop offset).take (m.length - offset), ?_, ?_, ?_, ?_, ?_, ?_⟩
      · simp only [tailFrames, hrem, if_false, List.nil_append]
      · intro c hc; cases hc
      · rw [and_seq_mask seq_id]; exact hb.1.2.2.2
      · rw [length_take_drop m offset _ (by omega)]; omega
      · rw [length_take_drop m offset _ (by omega)]; omega
      · simp only [dataOf, List.nil_append]
        exact List.take_of_length_le (by simp)

theorem send_message_single {κ : Type} (t : Transport κ) (fn : List Nat → κ → Int × κ)
    (hfn : t.s_send_fn = some fn) (htx : t.tx_buffer_alloc = true) (hacc : AlwaysAccepts fn)
    (m : List Nat) (hn : NulFree m) (hshort : m.length + 1 ≤ mcp_transport_max_packet_len t)
    (hmax : mcp_transport_max_packet_len t ≤ MAX_GATT_VALUE_LEN)
    (fuel : Nat) (hfuel : 1 ≤ fuel) (k : κ) :
    mcp_transport_send_message t fuel m k =
      some ((fn (TYPE_SINGLE :: m) k).2,
        lock_call t true ++ [TxEvent.send (TYPE_SINGLE :: m) 0] ++ lock_call t false) := by
  obtain ⟨f, rfl⟩ : ∃ f, fuel = f + 1 := ⟨fuel - 1, by omega⟩
  have hhdr : TYPE_SINGLE ||| (0 &&& HEADER_SEQ_MASK) = TYPE_SINGLE := by decide
  have hbig : ¬ (m.length > MAX_MESSAGE_SIZE) := by
    simp only [MAX_MESSAGE_SIZE, MAX_GATT_VALUE_LEN] at *; omega
  rw [mcp_transport_send_message]
  simp only [hfn, htx, Option.isNone_some, Bool.false_eq_true, false_or, if_false,
    strlen_nulFree m hn, hbig, hshort, if_true, hhdr, List.take_length,
    send_packet_accepts t fn hfn hacc, reduceCtorEq]

theorem max_packet_len_le {κ : Type} (t : Transport κ) :
    mcp_transport_max_packet_len t ≤ MAX_GATT_VALUE_LEN := by
  simp only [mcp_transport_max_packet_len, MAX_GATT_VALUE_LEN]
  split_ifs <;> omega

theorem max_packet_len_ge {κ : Type} (t : Transport κ) :
    2 ≤ mcp_transport_max_packet_len t := by
  simp only [mcp_transport_max_packet_len, MAX_GATT_VALUE_LEN]
  split_ifs <;> omega

theorem send_message_multi {κ : Type} (t : Transport κ) (fn : List Nat → κ → Int × κ)
    (hfn : t.s_send_fn = some fn) (htx : t.tx_buffer_alloc = true) (hacc : AlwaysAccepts fn)
    (m : List Nat) (hn : NulFree m) (hL : m.length ≤ MAX_MESSAGE_SIZE)
    (hlong : mcp_transport_max_packet_len t < m.length + 1)
    (hP : 5 < mcp_transport_max_packet_len t)
    (fuel : Nat) (hfuel : m.length ≤ fuel) (k : κ) :
    ∃ k1 evs, mcp_transport_send_message t fuel m k = some (k1, evs) ∧
      sentPackets evs =
        ((TYPE_START ||| (0 &&& HEADER_SEQ_MASK)) ::
          (total_len_bytes m.length ++ (m.drop 0).take (mcp_transport_max_packet_len t - 5))) ::
        tailFrames (mcp_transport_max_packet_len t) m fuel
          (0 + (mcp_transport_max_packet_len t - 5)) ((0 + 1) % 256) := by
  obtain ⟨f, rfl⟩ : ∃ f, fuel = f + 1 := ⟨fuel - 1, by omega⟩
  have hbig : ¬ (m.length > MAX_MESSAGE_SIZE) := by omega
  have hns : ¬ (m.length + 1 ≤ mcp_transport_max_packet_len t) := by omega
  have hn5 : ¬ (mcp_transport_max_packet_len t ≤ 5) := by omega
  obtain ⟨k1, evs, hloop, hsent⟩ :=
    send_message_loop_accepts t fn hfn hacc m (mcp_transport_max_packet_len t) (by omega)
      (f + 1) (0 + (mcp_transport_max_packet_len t - 5)) ((0 + 1) % 256)
      (fn ((TYPE_START ||| (0 &&& HEADER_SEQ_MASK)) ::
          (total_len_bytes m.length ++
            (m.drop 0).take (mcp_transport_max_packet_len t - 5))) k).2
      (by omega) (by omega)
  refine ⟨k1, lock_call t true ++
    [TxEvent.send ((TYPE_START ||| (0 &&& HEADER_SEQ_MASK)) ::
      (total_len_bytes m.length ++ (m.drop 0).take (mcp_transport_max_packet_len t - 5))) 0] ++
    evs ++ lock_call t false, ?_, ?_⟩
  · rw [mcp_transport_send_message]
    simp only [hfn, htx, Option.isNone_some, Bool.false_eq_true, false_or, if_false,
      strlen_nulFree m hn, hbig, hns, hn5, send_packet_accepts t fn hfn hacc, hloop,
      reduceCtorEq]
  · simp only [sentPackets_append, sentPackets_lock_call, sentPackets, if_true, hsent,
      List.nil_append, List.append_nil, List.singleton_append]

theorem receive_touches_rx_only {κ : Type} (t : Transport κ) (data : List Nat) :
    ∃ buf received total expect prog,
      (mcp_transport_receive t data).t =
        { t with rx_buffer := buf, rx_received_len := received, rx_total_len := total,
                 rx_expect_seq_id := expect, rx_in_progress := prog } := by
  have hsame : ∃ buf received total expect prog,
      t = { t with rx_buffer := buf, rx_received_len := received, rx_total_len := total,
                   rx_expect_seq_id := expect, rx_in_progress := prog } :=
    ⟨t.rx_buffer, t.rx_received_len, t.rx_total_len, t.rx_expect_seq_id, t.rx_in_progress, rfl⟩
  unfold mcp_transport_receive
  by_cases ha : (!t.rx_buffer_alloc) = true
  · rw [if_pos ha]
    exact hsame
  rw [if_neg ha]
  cases data with
  | nil => exact hsame
  | cons header payload =>
    simp only []
    by_cases c1 : header &&& HEADER_TYPE_MASK = TYPE_SINGLE
    · simp only [c1, if_true]
      by_cases c2 : payload.length ≥ MAX_MESSAGE_SIZE
      · simp only [c2, if_true]; exact hsame
      · simp only [c2, if_false]; exact ⟨_, _, _, _, _, rfl⟩
    simp only [c1, if_false]
    by_cases c2 : header &&& HEADER_TYPE_MASK = TYPE_START
    · simp only [c2, if_true]
      split
      · rename_i p0 p1 p2 p3 chunk
        by_cases c3 : decode_total_len p0 p1 p2 p3 > MAX_MESSAGE_SIZE
        · simp only [c3, if_true]; exact ⟨_, _, _, _, _, rfl⟩
        · simp only [c3, if_false]
          by_cases c4 : chunk.length > decode_total_len p0 p1 p2 p3
          · simp only [c4, if_true]; exact ⟨_, _, _, _, _, rfl⟩
          · simp only [c4, if_false]; exact ⟨_, _, _, _, _, rfl⟩
      · exact hsame
    simp only [c2, if_false]
    by_cases c3 : header &&& HEADER_TYPE_MASK = TYPE_CONT
    · simp only [c3, if_true]
      by_cases d1 : t.rx_total_len = 0
      · simp only [d1, if_true]; exact hsame
      simp only [d1, if_false]
      by_cases d2 : t.rx_in_progress = true
      swap
      · simp only [Bool.not_eq_true] at d2
        simp only [d2, Bool.not_false, if_true]; exact hsame
      simp only [d2, Bool.not_true, Bool.false_eq_true, if_false]
      by_cases d3 : header &&& HEADER_SEQ_MASK ≠ t.rx_expect_seq_id
      · rw [if_pos d3]; exact ⟨_, _, _, _, _, rfl⟩
      rw [if_neg d3]
      by_cases d4 : t.rx_received_len + payload.length > t.rx_total_len
      · simp only [d4, if_true]; exact ⟨_, _, _, _, _, rfl⟩
      · simp only [d4, if_false]; exact ⟨_, _, _, _, _, rfl⟩
    simp only [c3, if_false]
    by_cases c4 : header &&& HEADER_TYPE_MASK = TYPE_END
    · simp only [c4, if_true]
      by_cases d1 : t.rx_total_len = 0
      · simp only [d1, if_true]; exact hsame
      simp only [d1, if_false]
      by_cases d2 : t.rx_in_progress = true
      swap
      · simp only [Bool.not_eq_true] at d2
        simp only [d2, Bool.not_false, if_true]; exact hsame
      simp only [d2, Bool.not_true, Bool.false_eq_true, if_false]
      by_cases d3 : header &&& HEADER_SEQ_MASK ≠ t.rx_expect_seq_id
      · rw [if_pos d3]; exact ⟨_, _, _, _, _, rfl⟩
      rw [if_neg d3]
      by_cases d4 : t.rx_received_len + payload.length > t.rx_total_len
      · simp only [d4, if_true]; exact ⟨_, _, _, _, _, rfl⟩
      simp only [d4, if_false]
      by_cases d5 : t.rx_received_len + payload.length = t.rx_total_len
      · simp only [d5, if_true]; exact ⟨_, _, _, _, _, rfl⟩
      · simp only [d5, if_false]; exact ⟨_, _, _, _, _, rfl⟩
    simp only [c4, if_false]
    exact hsame

theorem receive_config {κ : Type} (t : Transport κ) (data : List Nat) :
    (mcp_transport_receive t data).t.rx_buffer_alloc = t.rx_buffer_alloc ∧
    (mcp_transport_receive t data).t.s_message_cb = t.s_message_cb := by
  obtain ⟨buf, received, total, expect, prog, h⟩ := receive_touches_rx_only t data
  rw [h]
  exact ⟨rfl, rfl⟩

/-! ## Round trip of a multi-frame message -/

theorem receive_all_config {κ : Type} (ps : List (List Nat)) :
    ∀ t : Transport κ, (receive_all t ps).1.rx_buffer_alloc = t.rx_buffer_alloc ∧
      (receive_all t ps).1.s_message_cb = t.s_message_cb := by
  induction ps with
  | nil => intro t; exact ⟨rfl, rfl⟩
  | cons p ps ih =>
    intro t
    have h1 := receive_config t p
    have h2 := ih (mcp_transport_receive t p).t
    simp only [receive_all]
    exact ⟨h2.1.trans h1.1, h2.2.trans h1.2⟩

theorem max_packet_len_set_mtu {κ : Type} (t : Transport κ) (mtu : Nat) (h : 20 ≤ mtu) :
    5 < mcp_transport_max_packet_len (mcp_transport_set_mtu t mtu) := by
  have h0 : mtu ≠ 0 := by omega
  simp only [mcp_transport_max_packet_len, mcp_transport_set_mtu, MAX_GATT_VALUE_LEN, h0,
    ne_eq, not_false_eq_true, if_true]
  split_ifs <;> omega

theorem round_trip_multi {κ : Type} (tx rx : Transport κ) (fn : List Nat → κ → Int × κ)
    (m : List Nat) (fuel : Nat) (k : κ)
    (hfn : tx.s_send_fn = some fn) (htx : tx.tx_buffer_alloc = true) (hacc : AlwaysAccepts fn)
    (hn : NulFree m) (hL : m.length ≤ MAX_MESSAGE_SIZE)
    (hlong : mcp_transport_max_packet_len tx < m.length + 1)
    (hP : 5 < mcp_transport_max_packet_len tx)
    (hrx : rx.rx_buffer_alloc = true) (hcb : rx.s_message_cb = true)
    (hfuel : m.length ≤ fuel) :
    ∃ k1 evs frames last,
      mcp_transport_send_message tx fuel m k = some (k1, evs) ∧
      sentPackets evs = frames ++ [last] ∧
      frame_type last = some TYPE_END ∧
      (receive_all rx (frames ++ [last])).2 = List.replicate frames.length none ++ [some m] := by
  obtain ⟨k1, evs, hsend, hsent⟩ :=
    send_message_multi tx fn hfn htx hacc m hn hL hlong hP fuel hfuel k
  obtain ⟨hd, hA⟩ := receive_start_step rx m (mcp_transport_max_packet_len tx) hrx hcb hlong hL
  have hoff : 0 + (mcp_transport_max_packet_len tx - 5) < m.length := by omega
  obtain ⟨conts, hdr, chunk, htail, -, hend, -, -, -⟩ :=
    tailFrames_layout m (mcp_transport_max_packet_len tx) (by omega) fuel
      (0 + (mcp_transport_max_packet_len tx - 5)) ((0 + 1) % 256) hoff (by omega)
  obtain ⟨c, hlen, hdel, -⟩ :=
    receive_tailFrames m (mcp_transport_max_packet_len tx) (by omega) hn hL fuel
      (0 + (mcp_transport_max_packet_len tx - 5)) ((0 + 1) % 256) _ hA hoff (by omega)
  have hc : conts.length = c := by
    rw [htail] at hlen
    simpa using hlen
  refine ⟨k1, evs,
    ((TYPE_START ||| (0 &&& HEADER_SEQ_MASK)) ::
      (total_len_bytes m.length ++ (m.drop 0).take (mcp_transport_max_packet_len tx - 5))) ::
      conts, hdr :: chunk, hsend, ?_, ?_, ?_⟩
  · rw [hsent, htail, List.cons_append]
  · simp only [frame_type, hend]
  · rw [List.cons_append, ← htail]
    simp only [receive_all, hd, hdel, List.length_cons, hc, List.replicate_succ,
      List.cons_append]

theorem receive_end_resets {κ : Type} (t : Transport κ) (header : Nat) (payload : List Nat)
    (ha : t.rx_buffer_alloc = true) (htot : t.rx_total_len ≠ 0) (hprog : t.rx_in_progress = true)
    (htype : header &&& HEADER_TYPE_MASK = TYPE_END) :
    (mcp_transport_receive t (header :: payload)).t.rx_in_progress = false ∧
    (mcp_transport_receive t (header :: payload)).t.rx_total_len = 0 ∧
    (mcp_transport_receive t (header :: payload)).t.rx_received_len = 0 := by
  have hc1 : ¬ (TYPE_END = TYPE_SINGLE) := by decide
  have hc2 : ¬ (TYPE_END = TYPE_START) := by decide
  have hc3 : ¬ (TYPE_END = TYPE_CONT) := by decide
  rw [mcp_transport_receive]
  simp only [ha, Bool.not_true, Bool.false_eq_true, if_false, htype, hc1, hc2, hc3, if_true,
    htot, hprog]
  by_cases d3 : header &&& HEADER_SEQ_MASK ≠ t.rx_expect_seq_id
  · rw [if_pos d3]; exact ⟨rfl, rfl, rfl⟩
  rw [if_neg d3]
  by_cases d4 : t.rx_received_len + payload.length > t.rx_total_len
  · rw [if_pos d4]; exact ⟨rfl, rfl, rfl⟩
  rw [if_neg d4]
  by_cases d5 : t.rx_received_len + payload.length = t.rx_total_len
  · rw [if_pos d5]; exact ⟨rfl, rfl, rfl⟩
  · rw [if_neg d5]; exact ⟨rfl, rfl, rfl⟩

/-! # The claims -/

/-- Claim C1. Multi-frame round trip: for every MTU of at least 20 and every
NUL-free message `m` that is too long for a SINGLE frame
(`len(m) + 1 > maxPacketLen`) with `len(m) ≤ 8191`, when the carrier accepts
every packet, `mcp_transport_send_message` returns, the packets it emitted are
`frames ++ [last]` with `last` an END frame, and feeding them in order to
`mcp_transport_receive` invokes the message callback exactly once: for no
packet of `frames`, and on `last` with exactly `m`.  This holds from every
state of an allocated receiver with a callback installed, so from the idle
one. -/
theorem multi_frame_round_trip {κ : Type} (tx rx : Transport κ)
    (fn : List Nat → κ → Int × κ) (mtu : Nat) (m : List Nat) (fuel : Nat) (k : κ)
    (hfn : tx.s_send_fn = some fn) (htx : tx.tx_buffer_alloc = true) (hacc : AlwaysAccepts fn)
    (hmtu : 20 ≤ mtu) (hn : NulFree m)
    (hlong : mcp_transport_max_packet_len (mcp_transport_set_mtu tx mtu) < m.length + 1)
    (hL : m.length ≤ MAX_MESSAGE_SIZE - 1)
    (hrx : rx.rx_buffer_alloc = true) (hcb : rx.s_message_cb = true)
    (hfuel : m.length ≤ fuel) :
    ∃ k1 evs frames last,
      mcp_transport_send_message (mcp_transport_set_mtu tx mtu) fuel m k = some (k1, evs) ∧
      sentPackets evs = frames ++ [last] ∧
      frame_type last = some TYPE_END ∧
      (receive_all rx (frames ++ [last])).2 = List.replicate frames.length none ++ [some m] :=
  round_trip_multi (mcp_transport_set_mtu tx mtu) rx fn m fuel k hfn htx hacc hn
    (by simp only [MAX_MESSAGE_SIZE] at hL ⊢; omega) hlong
    (max_packet_len_set_mtu tx mtu hmtu) hrx hcb hfuel

theorem multi_frame_round_trip_witness :
    (readyTransport.s_send_fn = some acceptAll ∧ readyTransport.tx_buffer_alloc = true ∧
      AlwaysAccepts acceptAll ∧ 20 ≤ 23 ∧ NulFree longMessage ∧
      mcp_transport_max_packet_len (mcp_transport_set_mtu readyTransport 23)
        < longMessage.length + 1 ∧
      longMessage.length ≤ MAX_MESSAGE_SIZE - 1 ∧
      readyTransport.rx_buffer_alloc = true ∧ readyTransport.s_message_cb = true ∧
      Idle readyTransport ∧ longMessage.length ≤ 25) ∧
    ∃ k1 evs frames last,
      mcp_transport_send_message (mcp_transport_set_mtu readyTransport 23) 25 longMessage ()
        = some (k1, evs) ∧
      sentPackets evs = frames ++ [last] ∧
      frame_type last = some TYPE_END ∧
      (receive_all readyTransport (frames ++ [last])).2
        = List.replicate frames.length none ++ [some longMessage] :=
  ⟨⟨rfl, rfl, fun _ _ => rfl, by decide, by decide, by decide, by decide, rfl, rfl,
      ⟨rfl, rfl, rfl⟩, by decide⟩,
    multi_frame_round_trip readyTransport readyTransport acceptAll 23 longMessage 25 ()
      rfl rfl (fun _ _ => rfl) (by decide) (by decide) (by decide) (by decide) rfl rfl
      (by decide)⟩

/-- Claim C2. SINGLE round trip: for every MTU and every NUL-free message `m`
with `len(m) < maxPacketLen - 1`, when the carrier accepts the packet,
`mcp_transport_send_message` offers exactly one packet to the carrier (between
the two lock calls); that packet is a SINGLE frame (header type bits `00`)
whose payload is `m`; and feeding it to `mcp_transport_receive`, in whatever
state the receiver is, invokes the message callback exactly once, with exactly
`m`. -/
theorem single_frame_round_trip {κ : Type} (tx rx : Transport κ)
    (fn : List Nat → κ → Int × κ) (mtu : Nat) (m : List Nat) (fuel : Nat) (k : κ)
    (hfn : tx.s_send_fn = some fn) (htx : tx.tx_buffer_alloc = true) (hacc : AlwaysAccepts fn)
    (hn : NulFree m)
    (hshort : m.length < mcp_transport_max_packet_len (mcp_transport_set_mtu tx mtu) - 1)
    (hrx : rx.rx_buffer_alloc = true) (hcb : rx.s_message_cb = true) (hfuel : 1 ≤ fuel) :
    ∃ k1 evs pkt,
      mcp_transport_send_message (mcp_transport_set_mtu tx mtu) fuel m k = some (k1, evs) ∧
      evs = lock_call (mcp_transport_set_mtu tx mtu) true ++ [TxEvent.send pkt 0] ++
        lock_call (mcp_transport_set_mtu tx mtu) false ∧
      sentPackets evs = [pkt] ∧
      frame_type pkt = some TYPE_SINGLE ∧ TYPE_SINGLE = 0 ∧ pkt.drop 1 = m ∧
      (receive_all rx (sentPackets evs)).2 = [some m] := by
  have hsend := send_message_single (mcp_transport_set_mtu tx mtu) fn hfn htx hacc m hn
    (by omega) (max_packet_len_le _) fuel hfuel k
  have hlen : m.length < MAX_MESSAGE_SIZE := by
    have := max_packet_len_le (mcp_transport_set_mtu tx mtu)
    simp only [MAX_MESSAGE_SIZE, MAX_GATT_VALUE_LEN] at *
    omega
  have hsent : sentPackets (lock_call (mcp_transport_set_mtu tx mtu) true ++
      [TxEvent.send (TYPE_SINGLE :: m) 0] ++
      lock_call (mcp_transport_set_mtu tx mtu) false) = [TYPE_SINGLE :: m] := by
    simp only [sentPackets_append, sentPackets_lock_call, sentPackets, if_true,
      List.nil_append, List.append_nil]
  have hc := c_string_store_memcpy rx.rx_buffer m hn (Nat.le_of_lt hlen)
  have hdel : (mcp_transport_receive rx (TYPE_SINGLE :: m)).delivered = some m := by
    have htype : TYPE_SINGLE &&& HEADER_TYPE_MASK = TYPE_SINGLE := by decide
    rw [mcp_transport_receive]
    simp only [hrx, Bool.not_true, Bool.false_eq_true, if_false, htype, if_true, ge_iff_le,
      Nat.not_le.mpr hlen, hcb, hc]
  refine ⟨_, _, TYPE_SINGLE :: m, hsend, rfl, hsent, rfl, rfl, rfl, ?_⟩
  rw [hsent]
  simp only [receive_all, hdel]

theorem single_frame_round_trip_witness :
    (readyTransport.s_send_fn = some acceptAll ∧ readyTransport.tx_buffer_alloc = true ∧
      AlwaysAccepts acceptAll ∧ NulFree shortMessage ∧
      shortMessage.length
        < mcp_transport_max_packet_len (mcp_transport_set_mtu readyTransport 23) - 1 ∧
      midMessage.rx_buffer_alloc = true ∧ midMessage.s_message_cb = true ∧ 1 ≤ 1) ∧
    ∃ k1 evs pkt,
      mcp_transport_send_message (mcp_transport_set_mtu readyTransport 23) 1 shortMessage ()
        = some (k1, evs) ∧
      evs = lock_call (mcp_transport_set_mtu readyTransport 23) true ++ [TxEvent.send pkt 0]
        ++ lock_call (mcp_transport_set_mtu readyTransport 23) false ∧
      sentPackets evs = [pkt] ∧
      frame_type pkt = some TYPE_SINGLE ∧ TYPE_SINGLE = 0 ∧ pkt.drop 1 = shortMessage ∧
      (receive_all midMessage (sentPackets evs)).2 = [some shortMessage] :=
  ⟨⟨rfl, rfl, fun _ _ => rfl, by decide, by decide, by decide, by decide, by decide⟩,
    single_frame_round_trip readyTransport midMessage acceptAll 23 shortMessage 1 ()
      rfl rfl (fun _ _ => rfl) (by decide) (by decide) (by decide) (by decide) (by decide)⟩


/-- Claim C3, at its failing input.  From the idle state, a START frame
announcing 2 bytes and carrying 1, followed by a START frame announcing 8193
bytes, leaves a reachable state with `in_progress` true, `received_len = 1`
and `total_len = 0`: `received_len ≤ total_len` does not hold there.  The
oversized-START path clears `rx_total_len` only, where the other rejection
paths also clear `rx_in_progress` and `rx_received_len`. -/
theorem invariant_fails_after_oversized_start :
    Reachable afterOversizedStart ∧
    afterOversizedStart.rx_in_progress = true ∧
    afterOversizedStart.rx_received_len = 1 ∧
    afterOversizedStart.rx_total_len = 0 ∧
    ¬ (afterOversizedStart.rx_in_progress = true →
        afterOversizedStart.rx_received_len ≤ afterOversizedStart.rx_total_len ∧
        afterOversizedStart.rx_total_len ≤ MAX_MESSAGE_SIZE) :=
  ⟨Reachable.step _ _ (Reachable.step _ _ (Reachable.idle _ ⟨rfl, rfl, rfl⟩)),
    by decide, by decide, by decide, by decide⟩

/-- Claim C4. No corruption of subsequent messages: let the receiver (buffer
allocated, callback installed) be fed an arbitrary finite sequence `junk` of
packets; then for every NUL-free message `m` with `len(m) ≤ 8191`, sent with
`maxPacketLen > 5` over a carrier that accepts every packet,
`mcp_transport_send_message` returns and feeding its packets in order invokes
the message callback exactly once during those packets, on the last one, with
exactly `m`. -/
theorem next_message_not_corrupted {κ : Type} (tx rx : Transport κ)
    (fn : List Nat → κ → Int × κ) (junk : List (List Nat)) (m : List Nat) (fuel : Nat) (k : κ)
    (hfn : tx.s_send_fn = some fn) (htx : tx.tx_buffer_alloc = true) (hacc : AlwaysAccepts fn)
    (hP : 5 < mcp_transport_max_packet_len tx) (hn : NulFree m)
    (hL : m.length ≤ MAX_MESSAGE_SIZE - 1)
    (hrx : rx.rx_buffer_alloc = true) (hcb : rx.s_message_cb = true)
    (hfuel : m.length + 1 ≤ fuel) :
    ∃ k1 evs,
      mcp_transport_send_message tx fuel m k = some (k1, evs) ∧
      (receive_all (receive_all rx junk).1 (sentPackets evs)).2 =
        List.replicate ((sentPackets evs).length - 1) none ++ [some m] := by
  have hcfg := receive_all_config junk rx
  have hrx1 : (receive_all rx junk).1.rx_buffer_alloc = true := hcfg.1.trans hrx
  have hcb1 : (receive_all rx junk).1.s_message_cb = true := hcfg.2.trans hcb
  have hL1 : m.length ≤ MAX_MESSAGE_SIZE := by simp only [MAX_MESSAGE_SIZE] at hL ⊢; omega
  by_cases hshort : m.length + 1 ≤ mcp_transport_max_packet_len tx
  · have hsend := send_message_single tx fn hfn htx hacc m hn hshort (max_packet_len_le tx)
      fuel (by omega) k
    have hlen : m.length < MAX_MESSAGE_SIZE := by simp only [MAX_MESSAGE_SIZE] at hL ⊢; omega
    have hc := c_string_store_memcpy (receive_all rx junk).1.rx_buffer m hn hL1
    have hdel : (mcp_transport_receive (receive_all rx junk).1 (TYPE_SINGLE :: m)).delivered
        = some m := by
      have htype : TYPE_SINGLE &&& HEADER_TYPE_MASK = TYPE_SINGLE := by decide
      rw [mcp_transport_receive]
      simp only [hrx1, Bool.not_true, Bool.false_eq_true, if_false, htype, if_true, ge_iff_le,
        Nat.not_le.mpr hlen, hcb1, hc]
    refine ⟨_, _, hsend, ?_⟩
    simp only [sentPackets_append, sentPackets_lock_call, sentPackets, if_true,
      List.nil_append, List.append_nil, receive_all, hdel, List.length_singleton,
      Nat.sub_self, List.replicate_zero]
  · obtain ⟨k1, evs, frames, last, hsend, hsent, -, hdel⟩ :=
      round_trip_multi tx (receive_all rx junk).1 fn m fuel k hfn htx hacc hn hL1 (by omega) hP
        hrx1 hcb1 (by omega)
    refine ⟨k1, evs, hsend, ?_⟩
    rw [hsent, hdel]
    simp

theorem next_message_not_corrupted_witness :
    (readyTransport.s_send_fn = some acceptAll ∧ readyTransport.tx_buffer_alloc = true ∧
      AlwaysAccepts acceptAll ∧ 5 < mcp_transport_max_packet_len readyTransport ∧
      NulFree longMessage ∧ longMessage.length ≤ MAX_MESSAGE_SIZE - 1 ∧
      readyTransport.rx_buffer_alloc = true ∧ readyTransport.s_message_cb = true ∧
      longMessage.length + 1 ≤ 26) ∧
    ∃ k1 evs,
      mcp_transport_send_message readyTransport 26 longMessage () = some (k1, evs) ∧
      (receive_all
          (receive_all readyTransport [[0x40, 0, 0, 0, 2, 7], [0x81], [0x40, 0, 0, 0x20, 0x01]]).1
          (sentPackets evs)).2 =
        List.replicate ((sentPackets evs).length - 1) none ++ [some longMessage] :=
  ⟨⟨rfl, rfl, fun _ _ => rfl, by decide, by decide, by decide, rfl, rfl, by decide⟩,
    next_message_not_corrupted readyTransport readyTransport acceptAll
      [[0x40, 0, 0, 0, 2, 7], [0x81], [0x40, 0, 0, 0x20, 0x01]] longMessage 26 ()
      rfl rfl (fun _ _ => rfl) (by decide) (by decide) (by decide) rfl rfl (by decide)⟩

/-- Claim C5. Out-of-sequence frames: for every receiver state with a message
in progress (`in_progress` true, `total_len ≠ 0`) and every CONT or END packet
whose 6-bit sequence number differs from `expected_seq`,
`mcp_transport_receive` does not invoke the message callback, stores nothing,
and leaves the state reset (`in_progress = false`, `total_len = 0`,
`received_len = 0`); every CONT or END packet that follows is then discarded:
no callback and no change of state. -/
theorem out_of_sequence_resets {κ : Type} (t : Transport κ) (header : Nat)
    (payload : List Nat)
    (halloc : t.rx_buffer_alloc = true) (hprog : t.rx_in_progress = true)
    (htot : t.rx_total_len ≠ 0)
    (htype : header &&& HEADER_TYPE_MASK = TYPE_CONT ∨ header &&& HEADER_TYPE_MASK = TYPE_END)
    (hseq : header &&& HEADER_SEQ_MASK ≠ t.rx_expect_seq_id) :
    (mcp_transport_receive t (header :: payload)).delivered = none ∧
    (mcp_transport_receive t (header :: payload)).writes = [] ∧
    (mcp_transport_receive t (header :: payload)).t.rx_in_progress = false ∧
    (mcp_transport_receive t (header :: payload)).t.rx_total_len = 0 ∧
    (mcp_transport_receive t (header :: payload)).t.rx_received_len = 0 ∧
    ∀ ps : List (List Nat), (∀ p ∈ ps, IsContOrEnd p) →
      receive_all (mcp_transport_receive t (header :: payload)).t ps =
        ((mcp_transport_receive t (header :: payload)).t, List.replicate ps.length none) := by
  simp only [HEADER_TYPE_MASK, TYPE_CONT, TYPE_END, HEADER_SEQ_MASK] at htype hseq
  have hrec : mcp_transport_receive t (header :: payload) =
      ⟨{ t with rx_total_len := 0, rx_received_len := 0, rx_in_progress := false }, none, []⟩ := by
    rcases htype with ht | ht <;>
      simp [mcp_transport_receive, HEADER_TYPE_MASK, TYPE_SINGLE, TYPE_START, TYPE_CONT,
        TYPE_END, HEADER_SEQ_MASK, ht, halloc, hprog, htot, hseq]
  rw [hrec]
  refine ⟨rfl, rfl, rfl, rfl, rfl, ?_⟩
  intro ps hps
  exact receive_all_cont_end_no_message ps _ rfl hps

theorem out_of_sequence_resets_witness :
    (midMessage.rx_buffer_alloc = true ∧ midMessage.rx_in_progress = true ∧
      midMessage.rx_total_len ≠ 0 ∧
      (0x85 &&& HEADER_TYPE_MASK = TYPE_CONT ∨ 0x85 &&& HEADER_TYPE_MASK = TYPE_END) ∧
      0x85 &&& HEADER_SEQ_MASK ≠ midMessage.rx_expect_seq_id) ∧
    ((mcp_transport_receive midMessage (0x85 :: [8])).delivered = none ∧
    (mcp_transport_receive midMessage (0x85 :: [8])).writes = [] ∧
    (mcp_transport_receive midMessage (0x85 :: [8])).t.rx_in_progress = false ∧
    (mcp_transport_receive midMessage (0x85 :: [8])).t.rx_total_len = 0 ∧
    (mcp_transport_receive midMessage (0x85 :: [8])).t.rx_received_len = 0 ∧
    ∀ ps : List (List Nat), (∀ p ∈ ps, IsContOrEnd p) →
      receive_all (mcp_transport_receive midMessage (0x85 :: [8])).t ps =
        ((mcp_transport_receive midMessage (0x85 :: [8])).t, List.replicate ps.length none)) :=
  ⟨⟨by decide, by decide, by decide, by decide, by decide⟩,
    out_of_sequence_resets midMessage 0x85 [8] (by decide) (by decide) (by decide) (by decide)
      (by decide)⟩

/-- Claim C6. SINGLE supersedes an in-flight message: for every receiver state
(buffer allocated, callback installed), in particular one with a multi-frame
reassembly in progress, and every SINGLE packet with NUL-free payload `p` of
length below 8192, `mcp_transport_receive` invokes the message callback exactly
once, with exactly `p`, and leaves the state idle (`in_progress = false`,
`total_len = 0`, `received_len = 0`); the CONT and END frames that follow are
then discarded without a callback. -/
theorem single_supersedes {κ : Type} (t : Transport κ) (header : Nat) (p : List Nat)
    (halloc : t.rx_buffer_alloc = true) (hcb : t.s_message_cb = true)
    (htype : header &&& HEADER_TYPE_MASK = TYPE_SINGLE)
    (hn : NulFree p) (hl : p.length < MAX_MESSAGE_SIZE) :
    (mcp_transport_receive t (header :: p)).delivered = some p ∧
    (mcp_transport_receive t (header :: p)).t.rx_in_progress = false ∧
    (mcp_transport_receive t (header :: p)).t.rx_total_len = 0 ∧
    (mcp_transport_receive t (header :: p)).t.rx_received_len = 0 ∧
    ∀ ps : List (List Nat), (∀ q ∈ ps, IsContOrEnd q) →
      receive_all (mcp_transport_receive t (header :: p)).t ps =
        ((mcp_transport_receive t (header :: p)).t, List.replicate ps.length none) := by
  simp only [HEADER_TYPE_MASK, TYPE_SINGLE] at htype
  have hrec : mcp_transport_receive t (header :: p) =
      ⟨{ t with rx_buffer := store (memcpy t.rx_buffer 0 p) p.length 0, rx_received_len := 0,
                rx_total_len := 0, rx_in_progress := false },
        some p, List.range' 0 p.length ++ [p.length]⟩ := by
    have hc := c_string_store_memcpy t.rx_buffer p hn (Nat.le_of_lt hl)
    simp [mcp_transport_receive, HEADER_TYPE_MASK, TYPE_SINGLE, htype, halloc, hcb, hc,
      Nat.not_le.mpr hl]
  rw [hrec]
  refine ⟨rfl, rfl, rfl, rfl, ?_⟩
  intro ps hps
  exact receive_all_cont_end_no_message ps _ rfl hps

theorem single_supersedes_witness :
    (midMessage.rx_buffer_alloc = true ∧ midMessage.s_message_cb = true ∧
      midMessage.rx_in_progress = true ∧ midMessage.rx_total_len = 2 ∧
      0 &&& HEADER_TYPE_MASK = TYPE_SINGLE ∧ NulFree shortMessage ∧
      shortMessage.length < MAX_MESSAGE_SIZE) ∧
    ((mcp_transport_receive midMessage (0 :: shortMessage)).delivered = some shortMessage ∧
    (mcp_transport_receive midMessage (0 :: shortMessage)).t.rx_in_progress = false ∧
    (mcp_transport_receive midMessage (0 :: shortMessage)).t.rx_total_len = 0 ∧
    (mcp_transport_receive midMessage (0 :: shortMessage)).t.rx_received_len = 0 ∧
    ∀ ps : List (List Nat), (∀ q ∈ ps, IsContOrEnd q) →
      receive_all (mcp_transport_receive midMessage (0 :: shortMessage)).t ps =
        ((mcp_transport_receive midMessage (0 :: shortMessage)).t,
          List.replicate ps.length none)) :=
  ⟨⟨by decide, by decide, by decide, by decide, by decide, by decide, by decide⟩,
    single_supersedes midMessage 0 shortMessage (by decide) (by decide) (by decide) (by decide)
      (by decide)⟩


/-- Claim C7. Oversized START is rejected: for every receiver state (buffer
allocated) and every START packet whose 4-byte big-endian length field exceeds
`MAX_MESSAGE_SIZE` (8192), `mcp_transport_receive` stores to no cell of the
message buffer (and leaves its contents as they were), does not invoke the
callback, and leaves `total_len = 0`. -/
theorem oversized_start_rejected {κ : Type} (t : Transport κ) (header p0 p1 p2 p3 : Nat)
    (chunk : List Nat) (halloc : t.rx_buffer_alloc = true)
    (htype : header &&& HEADER_TYPE_MASK = TYPE_START)
    (hbig : decode_total_len p0 p1 p2 p3 > MAX_MESSAGE_SIZE) :
    (mcp_transport_receive t (header :: p0 :: p1 :: p2 :: p3 :: chunk)).writes = [] ∧
    (mcp_transport_receive t (header :: p0 :: p1 :: p2 :: p3 :: chunk)).t.rx_buffer
      = t.rx_buffer ∧
    (mcp_transport_receive t (header :: p0 :: p1 :: p2 :: p3 :: chunk)).delivered = none ∧
    (mcp_transport_receive t (header :: p0 :: p1 :: p2 :: p3 :: chunk)).t.rx_total_len = 0 := by
  simp only [HEADER_TYPE_MASK, TYPE_START] at htype
  simp [mcp_transport_receive, HEADER_TYPE_MASK, TYPE_SINGLE, TYPE_START, htype, halloc, hbig]

theorem oversized_start_rejected_witness :
    (midMessage.rx_buffer_alloc = true ∧ 0x40 &&& HEADER_TYPE_MASK = TYPE_START ∧
      decode_total_len 0 0 0x20 0x01 > MAX_MESSAGE_SIZE) ∧
    ((mcp_transport_receive midMessage (0x40 :: 0 :: 0 :: 0x20 :: 0x01 :: [9])).writes = [] ∧
    (mcp_transport_receive midMessage (0x40 :: 0 :: 0 :: 0x20 :: 0x01 :: [9])).t.rx_buffer
      = midMessage.rx_buffer ∧
    (mcp_transport_receive midMessage (0x40 :: 0 :: 0 :: 0x20 :: 0x01 :: [9])).delivered
      = none ∧
    (mcp_transport_receive midMessage (0x40 :: 0 :: 0 :: 0x20 :: 0x01 :: [9])).t.rx_total_len
      = 0) :=
  ⟨⟨by decide, by decide, by decide⟩,
    oversized_start_rejected midMessage 0x40 0 0 0x20 0x01 [9] (by decide) (by decide)
      (by decide)⟩

/-- Claim C8, as stated, fails: after a START frame announcing 0 bytes the
state is reachable and has `in_progress` true and `total_len = 0`; an END
packet is then ignored by the guard `rx_total_len == 0`, so `in_progress` is
still true after `mcp_transport_receive` returns. -/
theorem end_ignored_after_empty_start :
    Reachable afterEmptyStart ∧ frame_type [0xC1] = some TYPE_END ∧
    ¬ ((mcp_transport_receive afterEmptyStart [0xC1]).t.rx_in_progress = false ∧
       (mcp_transport_receive afterEmptyStart [0xC1]).t.rx_total_len = 0 ∧
       (mcp_transport_receive afterEmptyStart [0xC1]).t.rx_received_len = 0) :=
  ⟨Reachable.step _ _ (Reachable.idle _ ⟨rfl, rfl, rfl⟩), by decide, by decide⟩

/-- Claim C8, amended. END resets a pending message: for every reachable
receiver state and every packet whose header type is END, after
`mcp_transport_receive` returns `total_len = 0`; and when `total_len` was not
0 before the call (a START was accepted and its message is pending) also
`in_progress = false` and `received_len = 0`, whether or not the message was
delivered. -/
theorem end_resets_pending_message {κ : Type} (t : Transport κ) (header : Nat)
    (payload : List Nat) (hr : Reachable t)
    (htype : header &&& HEADER_TYPE_MASK = TYPE_END) :
    (mcp_transport_receive t (header :: payload)).t.rx_total_len = 0 ∧
    (t.rx_total_len ≠ 0 →
      (mcp_transport_receive t (header :: payload)).t.rx_in_progress = false ∧
      (mcp_transport_receive t (header :: payload)).t.rx_received_len = 0) := by
  have hinv := reachable_inv t hr
  by_cases h0 : t.rx_total_len = 0
  · have hno := receive_cont_end_no_message t (header :: payload) h0
      (Or.inr (by simp only [frame_type, htype]))
    rw [hno]
    exact ⟨h0, fun h => absurd h0 h⟩
  · obtain ⟨ha, hprog, -⟩ := hinv.2 h0
    obtain ⟨h1, h2, h3⟩ := receive_end_resets t header payload ha h0 hprog htype
    exact ⟨h2, fun _ => ⟨h1, h3⟩⟩

theorem end_resets_pending_message_witness :
    (Reachable midMessage ∧ 0xC1 &&& HEADER_TYPE_MASK = TYPE_END ∧
      midMessage.rx_total_len ≠ 0) ∧
    ((mcp_transport_receive midMessage (0xC1 :: [8])).t.rx_total_len = 0 ∧
    (midMessage.rx_total_len ≠ 0 →
      (mcp_transport_receive midMessage (0xC1 :: [8])).t.rx_in_progress = false ∧
      (mcp_transport_receive midMessage (0xC1 :: [8])).t.rx_received_len = 0)) :=
  ⟨⟨Reachable.step _ _ (Reachable.idle _ ⟨rfl, rfl, rfl⟩), by decide, by decide⟩,
    end_resets_pending_message midMessage 0xC1 [8]
      (Reachable.step _ _ (Reachable.idle _ ⟨rfl, rfl, rfl⟩)) (by decide)⟩

/-- Claim C9, as stated, fails: after `mcp_transport_set_mtu(3)` the sender's
maximum packet length is 20, whereas `clamp(3 - 3, 2, 512)` is 2. -/
theorem max_packet_len_mtu3_not_clamp :
    ((mcp_transport_max_packet_len (mcp_transport_set_mtu (Transport.static Unit) 3) : Nat) : Int)
      = 20 ∧
    clampSpec 3 = 2 ∧
    ((mcp_transport_max_packet_len (mcp_transport_set_mtu (Transport.static Unit) 3) : Nat) : Int)
      ≠ clampSpec 3 := by
  decide

/-- Claim C9, amended. Packet size limit: for every MTU value given to
`mcp_transport_set_mtu` (0 standing for the default 23), the maximum packet
length the sender uses equals `clamp(mtu - 3, 2, 512)` in integer arithmetic
when the MTU is at least 4, and is 20 when the MTU is 1, 2 or 3. -/
theorem max_packet_len_cases {κ : Type} (t : Transport κ) (mtu : Nat) :
    ((mcp_transport_max_packet_len (mcp_transport_set_mtu t mtu) : Nat) : Int) =
      if (if mtu = 0 then DEFAULT_MTU else mtu) < 4 then 20
      else clampSpec (if mtu = 0 then DEFAULT_MTU else mtu) := by
  simp only [mcp_transport_max_packet_len, mcp_transport_set_mtu, clampSpec, DEFAULT_MTU,
    MAX_GATT_VALUE_LEN]
  by_cases h0 : mtu = 0
  · subst h0; decide
  · simp only [h0, ne_eq, not_false_eq_true, if_true, if_false]
    by_cases h4 : mtu < 4
    · simp [h4]
    · simp only [h4, if_false]
      split_ifs <;> omega

/-- Claim C10. Fragment layout: for every message `m` (a C string: `L`
non-zero bytes) with `L + 1 > maxPacketLen`, `maxPacketLen = P > 5` and
`L ≤ 8192`, when all sends succeed `mcp_transport_send_message` returns and the
packets it emitted are, in this order: one START packet of exactly `P` bytes
(header `0x40`, then `L` as a 4-byte big-endian integer, then the first `P - 5`
bytes of `m`); the packets `conts`, each a CONT frame carrying exactly `P - 1`
bytes; one END packet carrying between 1 and `P - 1` bytes.  No packet is
longer than `P`, and the data chunks concatenated in emission order are `m`. -/
theorem fragment_layout {κ : Type} (t : Transport κ) (fn : List Nat → κ → Int × κ)
    (m : List Nat) (fuel : Nat) (k : κ)
    (hfn : t.s_send_fn = some fn) (htx : t.tx_buffer_alloc = true) (hacc : AlwaysAccepts fn)
    (hn : NulFree m) (hL : m.length ≤ MAX_MESSAGE_SIZE)
    (hlong : mcp_transport_max_packet_len t < m.length + 1)
    (hP : 5 < mcp_transport_max_packet_len t) (hfuel : m.length ≤ fuel) :
    ∃ k1 evs start conts hdr chunk,
      mcp_transport_send_message t fuel m k = some (k1, evs) ∧
      sentPackets evs = start :: (conts ++ [hdr :: chunk]) ∧
      start = TYPE_START ::
        ([m.length / 16777216 % 256, m.length / 65536 % 256, m.length / 256 % 256,
          m.length % 256] ++ m.take (mcp_transport_max_packet_len t - 5)) ∧
      start.length = mcp_transport_max_packet_len t ∧
      (∀ c ∈ conts, frame_type c = some TYPE_CONT ∧
        (c.drop 1).length = mcp_transport_max_packet_len t - 1) ∧
      hdr &&& HEADER_TYPE_MASK = TYPE_END ∧
      1 ≤ chunk.length ∧ chunk.length ≤ mcp_transport_max_packet_len t - 1 ∧
      (∀ p ∈ sentPackets evs, p.length ≤ mcp_transport_max_packet_len t) ∧
      m.take (mcp_transport_max_packet_len t - 5) ++ dataOf conts ++ chunk = m := by
  obtain ⟨k1, evs, hsend, hsent⟩ :=
    send_message_multi t fn hfn htx hacc m hn hL hlong hP fuel hfuel k
  have hoff : 0 + (mcp_transport_max_packet_len t - 5) < m.length := by omega
  obtain ⟨conts, hdr, chunk, htail, hconts, hend, h1, h2, hdata⟩ :=
    tailFrames_layout m (mcp_transport_max_packet_len t) (by omega) fuel
      (0 + (mcp_transport_max_packet_len t - 5)) ((0 + 1) % 256) hoff (by omega)
  have hhdr : TYPE_START ||| (0 &&& HEADER_SEQ_MASK) = TYPE_START := by decide
  have hstart : (TYPE_START ||| (0 &&& HEADER_SEQ_MASK)) ::
      (total_len_bytes m.length ++ (m.drop 0).take (mcp_transport_max_packet_len t - 5)) =
      TYPE_START ::
        ([m.length / 16777216 % 256, m.length / 65536 % 256, m.length / 256 % 256,
          m.length % 256] ++ m.take (mcp_transport_max_packet_len t - 5)) := by
    rw [hhdr, total_len_bytes_eq, List.drop_zero]
  have hslen : (TYPE_START ::
        ([m.length / 16777216 % 256, m.length / 65536 % 256, m.length / 256 % 256,
          m.length % 256] ++ m.take (mcp_transport_max_packet_len t - 5))).length
      = mcp_transport_max_packet_len t := by
    simp only [List.length_cons, List.length_append, List.length_nil, List.length_take]
    omega
  refine ⟨k1, evs, _, conts, hdr, chunk, hsend, ?_, rfl, hslen, ?_, hend, h1, h2, ?_, ?_⟩
  · rw [hsent, htail, hstart]
  · intro c hc
    obtain ⟨hty, hlen⟩ := hconts c hc
    exact ⟨hty, by rw [List.length_drop, hlen]⟩
  · intro p hp
    rw [hsent, htail, hstart] at hp
    rcases List.mem_cons.mp hp with rfl | hp
    · exact Nat.le_of_eq hslen
    · rcases List.mem_append.mp hp with hp | hp
      · exact Nat.le_of_eq (hconts p hp).2
      · rw [List.mem_singleton.mp hp, List.length_cons]
        omega
  · rw [List.append_assoc, hdata, Nat.zero_add, List.take_append_drop]

theorem fragment_layout_witness :
    (readyTransport.s_send_fn = some acceptAll ∧ readyTransport.tx_buffer_alloc = true ∧
      AlwaysAccepts acceptAll ∧ NulFree longMessage ∧ longMessage.length ≤ MAX_MESSAGE_SIZE ∧
      mcp_transport_max_packet_len readyTransport < longMessage.length + 1 ∧
      5 < mcp_transport_max_packet_len readyTransport ∧ longMessage.length ≤ 25) ∧
    ∃ k1 evs start conts hdr chunk,
      mcp_transport_send_message readyTransport 25 longMessage () = some (k1, evs) ∧
      sentPackets evs = start :: (conts ++ [hdr :: chunk]) ∧
      start = TYPE_START ::
        ([longMessage.length / 16777216 % 256, longMessage.length / 65536 % 256,
          longMessage.length / 256 % 256, longMessage.length % 256] ++
          longMessage.take (mcp_transport_max_packet_len readyTransport - 5)) ∧
      start.length = mcp_transport_max_packet_len readyTransport ∧
      (∀ c ∈ conts, frame_type c = some TYPE_CONT ∧
        (c.drop 1).length = mcp_transport_max_packet_len readyTransport - 1) ∧
      hdr &&& HEADER_TYPE_MASK = TYPE_END ∧
      1 ≤ chunk.length ∧ chunk.length ≤ mcp_transport_max_packet_len readyTransport - 1 ∧
      (∀ p ∈ sentPackets evs, p.length ≤ mcp_transport_max_packet_len readyTransport) ∧
      longMessage.take (mcp_transport_max_packet_len readyTransport - 5) ++ dataOf conts
        ++ chunk = longMessage :=
  ⟨⟨rfl, rfl, fun _ _ => rfl, by decide, by decide, by decide, by decide, by decide⟩,
    fragment_layout readyTransport acceptAll longMessage 25 () rfl rfl (fun _ _ => rfl)
      (by decide) (by decide) (by decide) (by decide) (by decide)⟩

/-! # Lemmas on retries -/

theorem send_packet_loop_stuck (t : Transport Unit) (hR : t.s_send_max_retries = 255)
    (data : List Nat) :
    ∀ (fuel attempt : Nat) (k : Unit), attempt ≤ 255 →
      send_packet_loop t rejectAll data fuel attempt k = none := by
  intro fuel
  induction fuel with
  | zero => intro attempt k _; rfl
  | succ f ih =>
    intro attempt k ha
    have hle : attempt ≤ t.s_send_max_retries := by omega
    have hrc : ¬ ((rejectAll data k).1 = 0) := by
      show ¬ ((-1 : Int) = 0)
      decide
    rw [send_packet_loop]
    simp only [hle, if_true, hrc, if_false]
    rw [ih ((attempt + 1) % 256) _ (by omega)]

theorem send_packet_stuck (fuel : Nat) (data : List Nat) (k : Unit) :
    mcp_transport_send_packet stuckTransport fuel data k = none := by
  have h : stuckTransport.s_send_fn = some rejectAll := rfl
  rw [mcp_transport_send_packet, h]
  exact send_packet_loop_stuck stuckTransport rfl data fuel 0 k (by decide)

theorem send_message_stuck (fuel : Nat) (k : Unit) :
    mcp_transport_send_message stuckTransport fuel shortMessage k = none := by
  have hfn : stuckTransport.s_send_fn = some rejectAll := rfl
  have htx : stuckTransport.tx_buffer_alloc = true := rfl
  have hlen : strlen shortMessage = 4 := by decide
  have hP : mcp_transport_max_packet_len stuckTransport = 20 := by decide
  rw [mcp_transport_send_message]
  simp only [hfn, htx, Option.isNone_some, Bool.false_eq_true, false_or, if_false, hlen, hP,
    MAX_MESSAGE_SIZE, reduceCtorEq]
  simp [send_packet_stuck]

theorem offeredPackets_append (a b : List TxEvent) :
    offeredPackets (a ++ b) = offeredPackets a ++ offeredPackets b := by
  induction a with
  | nil => rfl
  | cons e es ih =>
    cases e with
    | lock acquire => simpa [offeredPackets] using ih
    | sleep ticks => simpa [offeredPackets] using ih
    | send data rc => simp [offeredPackets, ih]

theorem offeredPackets_lock_call {κ : Type} (t : Transport κ) (b : Bool) :
    offeredPackets (lock_call t b) = [] := by
  unfold lock_call
  split <;> rfl

theorem offeredPackets_sleep_if (c : Prop) [Decidable c] (ticks : Nat) :
    offeredPackets (if c then [TxEvent.sleep ticks] else []) = [] := by
  split <;> rfl

theorem send_packet_loop_patient (data : List Nat) :
    ∀ (k fuel attempt : Nat), attempt ≤ 255 → k < fuel →
      ∃ evs, send_packet_loop patientTransport rejectFirst data fuel attempt k
          = some (true, 0, evs) ∧
        (offeredPackets evs).length = k + 1 := by
  have hR : patientTransport.s_send_max_retries = 255 := rfl
  intro k
  induction k with
  | zero =>
    intro fuel attempt ha hf
    obtain ⟨f, rfl⟩ : ∃ f, fuel = f + 1 := ⟨fuel - 1, by omega⟩
    have hle : attempt ≤ patientTransport.s_send_max_retries := by omega
    refine ⟨[TxEvent.send data 0], ?_, rfl⟩
    rw [send_packet_loop]
    simp only [hle, if_true]
    rfl
  | succ k ih =>
    intro fuel attempt ha hf
    obtain ⟨f, rfl⟩ : ∃ f, fuel = f + 1 := ⟨fuel - 1, by omega⟩
    have hle : attempt ≤ patientTransport.s_send_max_retries := by omega
    obtain ⟨evs, hrec, hlen⟩ := ih f ((attempt + 1) % 256) (by omega) (by omega)
    have hst : (rejectFirst data (k + 1)).2 = k := rfl
    have hrcv : (rejectFirst data (k + 1)).1 = -1 := rfl
    refine ⟨TxEvent.send data (-1) ::
      ((if attempt < patientTransport.s_send_max_retries ∧
            patientTransport.s_send_retry_delay_ticks > 0 ∧ patientTransport.s_sleep_fn = true
          then [TxEvent.sleep patientTransport.s_send_retry_delay_ticks] else []) ++ evs), ?_, ?_⟩
    · rw [send_packet_loop]
      simp only [hle, if_true, hst, hrec, hrcv]
      rw [if_neg (by decide : ¬ ((-1 : Int) = 0))]
      rfl
    · simp only [offeredPackets, offeredPackets_append, offeredPackets_sleep_if,
        List.nil_append, List.length_cons, hlen]


/-- Claim C20, at its failing input.  On a ready transport with a lock hook,
configured by `mcp_transport_set_send_retry(255, 1)`, over a carrier that
rejects every packet, `mcp_transport_send_message` of a 4-byte message does
not return, whatever the fuel: the lock it acquired on entry is never
released.  The cause is the loop of `mcp_transport_send_packet`, whose 8-bit
counter never exceeds a limit of 255. -/
theorem lock_not_released_when_retry_limit_is_255 :
    stuckTransport.s_send_fn = some rejectAll ∧ stuckTransport.tx_buffer_alloc = true ∧
    stuckTransport.s_lock_fn = true ∧ stuckTransport.s_send_max_retries = 255 ∧
    ∀ (fuel : Nat) (k : Unit),
      mcp_transport_send_message stuckTransport fuel shortMessage k = none :=
  ⟨rfl, rfl, rfl, rfl, fun fuel k => send_message_stuck fuel k⟩

/-- Claim C21, at its failing input.  With `max_retries = 255` and a carrier
that rejects a packet 256 times before it accepts it,
`mcp_transport_send_packet` offers the packet 257 times, more than
`max_retries + 1 = 256`: after attempt 255 the 8-bit counter wraps to 0 and
the loop goes on. -/
theorem offers_exceed_retry_limit_at_255 :
    patientTransport.s_send_max_retries + 1 = 256 ∧
    ∃ evs, mcp_transport_send_packet patientTransport 257 [0, 104, 105] 256
        = some (true, 0, evs) ∧
      (offeredPackets evs).length = 257 := by
  refine ⟨rfl, ?_⟩
  have h : patientTransport.s_send_fn = some rejectFirst := rfl
  rw [mcp_transport_send_packet, h]
  exact send_packet_loop_patient [0, 104, 105] 256 257 0 (by decide) (by decide)

/-- Claim C23. MTU too small: for every MTU whose maximum packet length is at
most 5 and every message `m` with `len(m) + 1 > maxPacketLen`,
`mcp_transport_send_message` returns, with any fuel and carrier, without
offering a packet to the carrier: not even a START frame. -/
theorem mtu_too_small_offers_nothing {κ : Type} (t : Transport κ) (mtu fuel : Nat)
    (m : List Nat) (k : κ)
    (hP : mcp_transport_max_packet_len (mcp_transport_set_mtu t mtu) ≤ 5)
    (hlong : strlen m + 1 > mcp_transport_max_packet_len (mcp_transport_set_mtu t mtu)) :
    ∃ evs, mcp_transport_send_message (mcp_transport_set_mtu t mtu) fuel m k = some (k, evs) ∧
      offeredPackets evs = [] := by
  rw [mcp_transport_send_message]
  by_cases hready : (mcp_transport_set_mtu t mtu).s_send_fn.isNone ∨
      (mcp_transport_set_mtu t mtu).tx_buffer_alloc = false
  · rw [if_pos hready]
    exact ⟨[], rfl, rfl⟩
  · rw [if_neg hready]
    simp only []
    by_cases hbig : strlen m > MAX_MESSAGE_SIZE
    · rw [if_pos hbig]
      exact ⟨_, rfl, by simp only [offeredPackets_append, offeredPackets_lock_call,
        List.append_nil]⟩
    · rw [if_neg hbig, if_neg (by omega), if_pos hP]
      exact ⟨_, rfl, by simp only [offeredPackets_append, offeredPackets_lock_call,
        List.append_nil]⟩

theorem mtu_too_small_offers_nothing_witness :
    (mcp_transport_max_packet_len (mcp_transport_set_mtu readyTransport 8) ≤ 5 ∧
      strlen longMessage + 1
        > mcp_transport_max_packet_len (mcp_transport_set_mtu readyTransport 8)) ∧
    ∃ evs, mcp_transport_send_message (mcp_transport_set_mtu readyTransport 8) 3 longMessage ()
        = some ((), evs) ∧
      offeredPackets evs = [] :=
  ⟨⟨by decide, by decide⟩,
    mtu_too_small_offers_nothing readyTransport 8 3 longMessage () (by decide) (by decide)⟩

/-- Claim C25. Ignored packets are no-ops: `mcp_transport_receive` leaves the
whole state as it was (`in_progress`, `total_len`, `received_len`,
`expected_seq` and the buffer), stores nothing and does not invoke the
callback for an empty packet, for a SINGLE packet whose payload length is at
least 8192, for a START packet with fewer than 4 payload bytes, and for a CONT
or END packet that arrives when `in_progress` is false or `total_len` is 0. -/
theorem ignored_packets_are_no_ops {κ : Type} (t : Transport κ) (data : List Nat)
    (h : data = [] ∨
      (∃ header payload, data = header :: payload ∧
        header &&& HEADER_TYPE_MASK = TYPE_SINGLE ∧ payload.length ≥ MAX_MESSAGE_SIZE) ∨
      (∃ header payload, data = header :: payload ∧
        header &&& HEADER_TYPE_MASK = TYPE_START ∧ payload.length < 4) ∨
      (∃ header payload, data = header :: payload ∧
        (header &&& HEADER_TYPE_MASK = TYPE_CONT ∨ header &&& HEADER_TYPE_MASK = TYPE_END) ∧
        (t.rx_in_progress = false ∨ t.rx_total_len = 0))) :
    mcp_transport_receive t data = ⟨t, none, []⟩ := by
  have hc1 : ¬ (TYPE_START = TYPE_SINGLE) := by decide
  have hc2 : ¬ (TYPE_CONT = TYPE_SINGLE) := by decide
  have hc3 : ¬ (TYPE_CONT = TYPE_START) := by decide
  have hc4 : ¬ (TYPE_END = TYPE_SINGLE) := by decide
  have hc5 : ¬ (TYPE_END = TYPE_START) := by decide
  have hc6 : ¬ (TYPE_END = TYPE_CONT) := by decide
  rcases h with rfl | ⟨header, payload, rfl, hty, hlen⟩ | ⟨header, payload, rfl, hty, hlen⟩ |
    ⟨header, payload, rfl, hty, hst⟩
  · rw [mcp_transport_receive]
    by_cases ha : (!t.rx_buffer_alloc) = true
    · rw [if_pos ha]
    · rw [if_neg ha]
  · rw [mcp_transport_receive]
    by_cases ha : (!t.rx_buffer_alloc) = true
    · rw [if_pos ha]
    rw [if_neg ha]
    simp only [hty, if_true, hlen]
  · rw [mcp_transport_receive]
    by_cases ha : (!t.rx_buffer_alloc) = true
    · rw [if_pos ha]
    rw [if_neg ha]
    simp only [hty, hc1, if_false, if_true]
    match payload, hlen with
    | [], _ => rfl
    | [_], _ => rfl
    | [_, _], _ => rfl
    | [_, _, _], _ => rfl
    | _ :: _ :: _ :: _ :: _, h4 => exact absurd h4 (by simp)
  · rw [mcp_transport_receive]
    by_cases ha : (!t.rx_buffer_alloc) = true
    · rw [if_pos ha]
    rw [if_neg ha]
    rcases hty with hty | hty
    · simp only [hty, hc2, hc3, if_false, if_true]
      rcases hst with hp | h0
      · by_cases h0 : t.rx_total_len = 0
        · rw [if_pos h0]
        · rw [if_neg h0]
          simp only [hp, Bool.not_false, if_true]
      · rw [if_pos h0]
    · simp only [hty, hc4, hc5, hc6, if_false, if_true]
      rcases hst with hp | h0
      · by_cases h0 : t.rx_total_len = 0
        · rw [if_pos h0]
        · rw [if_neg h0]
          simp only [hp, Bool.not_false, if_true]
      · rw [if_pos h0]

theorem ignored_packets_are_no_ops_witness :
    ([0x81, 9] = ([] : List Nat) ∨
      (∃ header payload, [0x81, 9] = header :: payload ∧
        header &&& HEADER_TYPE_MASK = TYPE_SINGLE ∧ payload.length ≥ MAX_MESSAGE_SIZE) ∨
      (∃ header payload, [0x81, 9] = header :: payload ∧
        header &&& HEADER_TYPE_MASK = TYPE_START ∧ payload.length < 4) ∨
      (∃ header payload, [0x81, 9] = header :: payload ∧
        (header &&& HEADER_TYPE_MASK = TYPE_CONT ∨ header &&& HEADER_TYPE_MASK = TYPE_END) ∧
        (afterOversizedStart.rx_in_progress = false ∨ afterOversizedStart.rx_total_len = 0))) ∧
    mcp_transport_receive afterOversizedStart [0x81, 9] = ⟨afterOversizedStart, none, []⟩ :=
  ⟨Or.inr (Or.inr (Or.inr ⟨0x81, [9], rfl, Or.inl (by decide), Or.inr (by decide)⟩)),
    ignored_packets_are_no_ops afterOversizedStart [0x81, 9]
      (Or.inr (Or.inr (Or.inr ⟨0x81, [9], rfl, Or.inl (by decide), Or.inr (by decide)⟩)))⟩

/-- Claim C27, at its failing input.  With the retry configuration
`mcp_transport_set_send_retry(255, 1)`, which the setter accepts, and a carrier
that rejects every packet, `mcp_transport_send_packet` does not return,
whatever the fuel: `attempt <= 255` holds for every value of the 8-bit counter,
which wraps from 255 to 0. -/
theorem retry_loop_does_not_end_at_255 :
    stuckTransport.s_send_max_retries = 255 ∧
    (∀ (fuel : Nat) (data : List Nat) (k : Unit),
      mcp_transport_send_packet stuckTransport fuel data k = none) ∧
    (255 + 1) % 256 = 0 :=
  ⟨rfl, fun fuel data k => send_packet_stuck fuel data k, by decide⟩

theorem reachable_receive_all {κ : Type} (ps : List (List Nat)) :
    ∀ t : Transport κ, Reachable t → Reachable (receive_all t ps).1 := by
  induction ps with
  | nil => intro t h; exact h
  | cons p ps ih =>
    intro t h
    exact ih _ (Reachable.step t p h)

theorem getD_map_range (f : Nat → Nat) (n j : Nat) (h : j < n) :
    ((List.range n).map f).getD j 0 = f j := by
  simp [List.getD_eq_getElem?_getD, List.getElem?_map, List.getElem?_range, h]

theorem nulFree_map_range (f : Nat → Nat) (n : Nat) (h : ∀ i, i < n → f i ≠ 0) :
    NulFree ((List.range n).map f) := by
  intro b hb
  obtain ⟨i, hi, rfl⟩ := List.mem_map.mp hb
  exact h i (List.mem_range.mp hi)

theorem tailFrames_headers (m : List Nat) (P : Nat) (hP : 2 ≤ P) :
    ∀ (n offset seq_id j : Nat) (frame : List Nat), offset < m.length → m.length - offset ≤ n →
      (tailFrames P m n offset seq_id)[j]? = some frame →
      frame.head? = some
        ((if j + 1 = (tailFrames P m n offset seq_id).length then TYPE_END else TYPE_CONT) |||
          ((seq_id + j) % 64)) := by
  intro n
  induction n with
  | zero => intro _ _ _ _ h1 h2; omega
  | succ n ih =>
    intro offset seq_id j frame hoff hfuel hget
    by_cases hrem : m.length - offset > P - 1
    · obtain ⟨conts, hdr, chunk, htail, -⟩ :=
        tailFrames_layout m P hP n (offset + (P - 1)) ((seq_id + 1) % 256) (by omega) (by omega)
      have hlen : 1 ≤ (tailFrames P m n (offset + (P - 1)) ((seq_id + 1) % 256)).length := by
        rw [htail]; simp
      simp only [tailFrames, hrem, if_true] at hget ⊢
      cases j with
      | zero =>
        simp only [List.getElem?_cons_zero, Option.some.injEq] at hget
        subst hget
        have hne : ¬ (0 + 1 = (tailFrames P m n (offset + (P - 1)) ((seq_id + 1) % 256)).length
            + 1) := by omega
        simp only [List.length_cons, hne, if_false, List.head?_cons, and_seq_mask seq_id,
          Nat.add_zero]
      | succ j =>
        simp only [List.getElem?_cons_succ] at hget
        have := ih (offset + (P - 1)) ((seq_id + 1) % 256) j frame (by omega) (by omega) hget
        rw [this]
        have hmod : ((seq_id + 1) % 256 + j) % 64 = (seq_id + (j + 1)) % 64 := by omega
        simp only [List.length_cons, Nat.add_right_cancel_iff, hmod]
    · simp only [tailFrames, hrem, if_false] at hget ⊢
      cases j with
      | zero =>
        simp only [List.getElem?_cons_zero, Option.some.injEq] at hget
        subst hget
        simp only [List.length_singleton, if_true, List.head?_cons, and_seq_mask seq_id,
          Nat.add_zero]
      | succ j => simp at hget

/-- Claim C22. END delivers iff the length matches: for every receiver state
with a message in progress (buffer allocated, callback installed,
`in_progress`, `0 < total_len ≤ 8192`) and every END packet with
`seq = expected_seq` and `received_len + payload_len ≤ total_len`,
`mcp_transport_receive` invokes the message callback if and only if
`received_len + payload_len = total_len`.  When it does, the buffer it hands
over holds in its first `total_len` cells the `received_len` bytes that were
there followed by the payload, then a zero byte; the callback reads the C
string there, which is exactly those `total_len` bytes when none of them is
zero. -/
theorem end_delivers_iff_length_matches {κ : Type} (t : Transport κ) (header : Nat)
    (payload : List Nat)
    (ha : t.rx_buffer_alloc = true) (hcb : t.s_message_cb = true)
    (hprog : t.rx_in_progress = true) (htot : t.rx_total_len ≠ 0)
    (hmax : t.rx_total_len ≤ MAX_MESSAGE_SIZE)
    (htype : header &&& HEADER_TYPE_MASK = TYPE_END)
    (hseq : header &&& HEADER_SEQ_MASK = t.rx_expect_seq_id)
    (hfit : t.rx_received_len + payload.length ≤ t.rx_total_len) :
    ((mcp_transport_receive t (header :: payload)).delivered.isSome = true ↔
      t.rx_received_len + payload.length = t.rx_total_len) ∧
    (t.rx_received_len + payload.length = t.rx_total_len →
      (∀ i, i < t.rx_received_len →
        (mcp_transport_receive t (header :: payload)).t.rx_buffer i = t.rx_buffer i) ∧
      (∀ j, j < payload.length →
        (mcp_transport_receive t (header :: payload)).t.rx_buffer (t.rx_received_len + j)
          = payload.getD j 0) ∧
      (mcp_transport_receive t (header :: payload)).t.rx_buffer t.rx_total_len = 0 ∧
      (mcp_transport_receive t (header :: payload)).delivered
        = some (c_string (mcp_transport_receive t (header :: payload)).t.rx_buffer) ∧
      ((∀ i, i < t.rx_total_len →
          (mcp_transport_receive t (header :: payload)).t.rx_buffer i ≠ 0) →
        (mcp_transport_receive t (header :: payload)).delivered
          = some ((List.range t.rx_total_len).map
              (mcp_transport_receive t (header :: payload)).t.rx_buffer))) := by
  have hc1 : ¬ (TYPE_END = TYPE_SINGLE) := by decide
  have hc2 : ¬ (TYPE_END = TYPE_START) := by decide
  have hc3 : ¬ (TYPE_END = TYPE_CONT) := by decide
  have hnf : ¬ (t.rx_received_len + payload.length > t.rx_total_len) := by omega
  by_cases heq : t.rx_received_len + payload.length = t.rx_total_len
  · have hrecv : mcp_transport_receive t (header :: payload) =
        ⟨{ t with rx_buffer := store (memcpy t.rx_buffer t.rx_received_len payload)
                    (t.rx_received_len + payload.length) 0,
                  rx_total_len := 0, rx_received_len := 0, rx_in_progress := false },
          some (c_string (store (memcpy t.rx_buffer t.rx_received_len payload)
            (t.rx_received_len + payload.length) 0)),
          List.range' t.rx_received_len payload.length ++
            [t.rx_received_len + payload.length]⟩ := by
      rw [mcp_transport_receive]
      simp only [ha, Bool.not_true, Bool.false_eq_true, if_false, htype, hc1, hc2, hc3, if_true,
        htot, hprog, hseq, ne_eq, not_true_eq_false, heq, hcb, gt_iff_lt, lt_self_iff_false]
    rw [hrecv]
    have hzero : store (memcpy t.rx_buffer t.rx_received_len payload)
        (t.rx_received_len + payload.length) 0 t.rx_total_len = 0 := by
      simp [store, heq]
    refine ⟨⟨fun _ => heq, fun _ => rfl⟩, fun _ => ⟨?_, ?_, hzero, rfl, ?_⟩⟩
    · intro i hi
      have h1 : ¬ (i = t.rx_received_len + payload.length) := by omega
      have h2 : ¬ (t.rx_received_len ≤ i ∧ i < t.rx_received_len + payload.length) := by omega
      simp only [store, memcpy, h1, h2, if_false]
    · intro j hj
      have h1 : ¬ (t.rx_received_len + j = t.rx_received_len + payload.length) := by omega
      have h2 : t.rx_received_len ≤ t.rx_received_len + j ∧
          t.rx_received_len + j < t.rx_received_len + payload.length := by omega
      simp only [store, memcpy, h1, h2, if_false, and_self, if_true, Nat.add_sub_cancel_left]
    · intro hnz
      show some (c_string (store (memcpy t.rx_buffer t.rx_received_len payload)
        (t.rx_received_len + payload.length) 0)) = _
      congr 1
      unfold c_string
      apply c_string_from_eq
      · exact nulFree_map_range _ _ hnz
      · simp only [List.length_map, List.length_range]; omega
      · intro j hj
        simp only [List.length_map, List.length_range] at hj
        rw [Nat.zero_add, getD_map_range _ _ _ hj]
      · simp only [List.length_map, List.length_range, Nat.zero_add]
        exact hzero
  · have hrecv : mcp_transport_receive t (header :: payload) =
        ⟨{ t with rx_buffer := memcpy t.rx_buffer t.rx_received_len payload,
                  rx_total_len := 0, rx_received_len := 0, rx_in_progress := false },
          none, List.range' t.rx_received_len payload.length⟩ := by
      rw [mcp_transport_receive]
      simp only [ha, Bool.not_true, Bool.false_eq_true, if_false, htype, hc1, hc2, hc3, if_true,
        htot, hprog, hseq, ne_eq, not_true_eq_false, hnf, heq]
    rw [hrecv]
    exact ⟨⟨fun h => by simp at h, fun h => absurd h heq⟩, fun h => absurd h heq⟩

theorem end_delivers_iff_length_matches_witness :
    (midMessage.rx_buffer_alloc = true ∧ midMessage.s_message_cb = true ∧
      midMessage.rx_in_progress = true ∧ midMessage.rx_total_len ≠ 0 ∧
      midMessage.rx_total_len ≤ MAX_MESSAGE_SIZE ∧
      0xC1 &&& HEADER_TYPE_MASK = TYPE_END ∧
      0xC1 &&& HEADER_SEQ_MASK = midMessage.rx_expect_seq_id ∧
      midMessage.rx_received_len + [8].length ≤ midMessage.rx_total_len) ∧
    (((mcp_transport_receive midMessage (0xC1 :: [8])).delivered.isSome = true ↔
      midMessage.rx_received_len + [8].length = midMessage.rx_total_len) ∧
    (midMessage.rx_received_len + [8].length = midMessage.rx_total_len →
      (∀ i, i < midMessage.rx_received_len →
        (mcp_transport_receive midMessage (0xC1 :: [8])).t.rx_buffer i
          = midMessage.rx_buffer i) ∧
      (∀ j, j < [8].length →
        (mcp_transport_receive midMessage (0xC1 :: [8])).t.rx_buffer
          (midMessage.rx_received_len + j) = [8].getD j 0) ∧
      (mcp_transport_receive midMessage (0xC1 :: [8])).t.rx_buffer midMessage.rx_total_len
        = 0 ∧
      (mcp_transport_receive midMessage (0xC1 :: [8])).delivered
        = some (c_string (mcp_transport_receive midMessage (0xC1 :: [8])).t.rx_buffer) ∧
      ((∀ i, i < midMessage.rx_total_len →
          (mcp_transport_receive midMessage (0xC1 :: [8])).t.rx_buffer i ≠ 0) →
        (mcp_transport_receive midMessage (0xC1 :: [8])).delivered
          = some ((List.range midMessage.rx_total_len).map
              (mcp_transport_receive midMessage (0xC1 :: [8])).t.rx_buffer)))) :=
  ⟨⟨by decide, by decide, by decide, by decide, by decide, by decide, by decide, by decide⟩,
    end_delivers_iff_length_matches midMessage 0xC1 [8] (by decide) (by decide) (by decide)
      (by decide) (by decide) (by decide) (by decide) (by decide)⟩

/-- Claim C24. Sequence numbering: for every multi-frame send (a message of up
to 8192 bytes, a maximum packet length above 5, every send accepted) the
`i`-th emitted packet, counted from 0, has the header byte `type | (i mod 64)`,
where `type` is `0x40` (START) for the first packet, `0xC0` (END) for the last
and `0x80` (CONT) in between.  The 8-bit counter of the sender wraps at 256, a
multiple of 64, so the numbers stay the ones the receiver expects. -/
theorem sequence_numbers_mod_64 {κ : Type} (t : Transport κ) (fn : List Nat → κ → Int × κ)
    (m : List Nat) (fuel : Nat) (k : κ)
    (hfn : t.s_send_fn = some fn) (htx : t.tx_buffer_alloc = true) (hacc : AlwaysAccepts fn)
    (hn : NulFree m) (hL : m.length ≤ MAX_MESSAGE_SIZE)
    (hlong : mcp_transport_max_packet_len t < m.length + 1)
    (hP : 5 < mcp_transport_max_packet_len t) (hfuel : m.length ≤ fuel) :
    ∃ k1 evs,
      mcp_transport_send_message t fuel m k = some (k1, evs) ∧
      2 ≤ (sentPackets evs).length ∧
      ∀ (i : Nat) (frame : List Nat), (sentPackets evs)[i]? = some frame →
        frame.head? = some
          ((if i = 0 then TYPE_START
            else if i + 1 = (sentPackets evs).length then TYPE_END else TYPE_CONT) |||
            (i % 64)) := by
  obtain ⟨k1, evs, hsend, hsent⟩ :=
    send_message_multi t fn hfn htx hacc m hn hL hlong hP fuel hfuel k
  have hoff : 0 + (mcp_transport_max_packet_len t - 5) < m.length := by omega
  obtain ⟨conts, hdr, chunk, htail, -⟩ :=
    tailFrames_layout m (mcp_transport_max_packet_len t) (by omega) fuel
      (0 + (mcp_transport_max_packet_len t - 5)) ((0 + 1) % 256) hoff (by omega)
  have hlen : 1 ≤ (tailFrames (mcp_transport_max_packet_len t) m fuel
      (0 + (mcp_transport_max_packet_len t - 5)) ((0 + 1) % 256)).length := by
    rw [htail]; simp
  refine ⟨k1, evs, hsend, ?_, ?_⟩
  · rw [hsent, List.length_cons]; omega
  · intro i frame hget
    rw [hsent] at hget ⊢
    cases i with
    | zero =>
      simp only [List.getElem?_cons_zero, Option.some.injEq] at hget
      subst hget
      simp only [if_true, List.head?_cons]
      rfl
    | succ j =>
      simp only [List.getElem?_cons_succ] at hget
      have := tailFrames_headers m (mcp_transport_max_packet_len t) (by omega) fuel
        (0 + (mcp_transport_max_packet_len t - 5)) ((0 + 1) % 256) j frame hoff (by omega) hget
      rw [this]
      have hmod : ((0 + 1) % 256 + j) % 64 = (j + 1) % 64 := by omega
      have hne : ¬ (j + 1 = 0) := by omega
      simp only [List.length_cons, Nat.add_right_cancel_iff, hmod, hne, if_false]

theorem sequence_numbers_mod_64_witness :
    (readyTransport.s_send_fn = some acceptAll ∧ readyTransport.tx_buffer_alloc = true ∧
      AlwaysAccepts acceptAll ∧ NulFree longMessage ∧ longMessage.length ≤ MAX_MESSAGE_SIZE ∧
      mcp_transport_max_packet_len readyTransport < longMessage.length + 1 ∧
      5 < mcp_transport_max_packet_len readyTransport ∧ longMessage.length ≤ 25) ∧
    ∃ k1 evs,
      mcp_transport_send_message readyTransport 25 longMessage () = some (k1, evs) ∧
      2 ≤ (sentPackets evs).length ∧
      ∀ (i : Nat) (frame : List Nat), (sentPackets evs)[i]? = some frame →
        frame.head? = some
          ((if i = 0 then TYPE_START
            else if i + 1 = (sentPackets evs).length then TYPE_END else TYPE_CONT) |||
            (i % 64)) :=
  ⟨⟨rfl, rfl, fun _ _ => rfl, by decide, by decide, by decide, by decide, by decide⟩,
    sequence_numbers_mod_64 readyTransport acceptAll longMessage 25 () rfl rfl (fun _ _ => rfl)
      (by decide) (by decide) (by decide) (by decide) (by decide)⟩

set_option maxRecDepth 100000 in
/-- Claim C26, at its failing input.  From the idle state the receiver is fed
the frames of an 8192-byte message: a START frame announcing 8192 bytes and 15
CONT frames, none longer than 512 bytes, which leave `total_len = 8192` and
`received_len = 8172`; the END frame with the last 20 bytes then stores the
terminating zero at index 8192, one past the 8192-byte block.  The START path
admits `total_len = 8192` (it rejects `> MAX_MESSAGE_SIZE`), where the SINGLE
path rejects a payload of `>= MAX_MESSAGE_SIZE` bytes and so keeps a cell for
the terminator. -/
theorem terminator_stored_past_the_buffer :
    Reachable beforeFullSizeEnd ∧
    (∀ p ∈ fullSizeStart :: (fullSizeConts ++ [fullSizeEnd]), p.length ≤ 512) ∧
    beforeFullSizeEnd.rx_total_len = 8192 ∧ beforeFullSizeEnd.rx_received_len = 8172 ∧
    (mcp_transport_receive beforeFullSizeEnd fullSizeEnd).writes.getLast? = some 8192 ∧
    ¬ (∀ i ∈ (mcp_transport_receive beforeFullSizeEnd fullSizeEnd).writes,
        i < MAX_MESSAGE_SIZE) :=
  ⟨reachable_receive_all _ _ (Reachable.idle _ ⟨rfl, rfl, rfl⟩), by decide, by decide,
    by decide, by decide, by decide⟩

/-! # Lemmas on retry limits below 255 -/

theorem lockCalls_append (a b : List TxEvent) :
    lockCalls (a ++ b) = lockCalls a ++ lockCalls b := by
  induction a with
  | nil => rfl
  | cons e es ih =>
    cases e with
    | lock acquire => simp [lockCalls, ih]
    | sleep ticks => simpa [lockCalls] using ih
    | send data rc => simpa [lockCalls] using ih

theorem lockCalls_sleep_if (c : Prop) [Decidable c] (ticks : Nat) :
    lockCalls (if c then [TxEvent.sleep ticks] else []) = [] := by
  split <;> rfl

theorem send_packet_loop_bounded {κ : Type} (t : Transport κ) (fn : List Nat → κ → Int × κ)
    (data : List Nat) (hR : t.s_send_max_retries ≤ 254) :
    ∀ (n attempt fuel : Nat) (k : κ), attempt + n = t.s_send_max_retries + 1 → n < fuel →
      ∃ ok k2 evs, send_packet_loop t fn data fuel attempt k = some (ok, k2, evs) ∧
        (offeredPackets evs).length ≤ n ∧ (ok = false → (offeredPackets evs).length = n) ∧
        (sentPackets evs).length = (if ok then 1 else 0) ∧ lockCalls evs = [] := by
  intro n
  induction n with
  | zero =>
    intro attempt fuel k ha hf
    obtain ⟨f, rfl⟩ : ∃ f, fuel = f + 1 := ⟨fuel - 1, by omega⟩
    have hgt : ¬ (attempt ≤ t.s_send_max_retries) := by omega
    refine ⟨false, k, [], ?_, by simp [offeredPackets], fun _ => rfl, rfl, rfl⟩
    rw [send_packet_loop]
    simp only [hgt, if_false]
  | succ n ih =>
    intro attempt fuel k ha hf
    obtain ⟨f, rfl⟩ : ∃ f, fuel = f + 1 := ⟨fuel - 1, by omega⟩
    have hle : attempt ≤ t.s_send_max_retries := by omega
    by_cases hrc : (fn data k).1 = 0
    · refine ⟨true, (fn data k).2, [TxEvent.send data (fn data k).1], ?_, ?_, ?_, ?_, rfl⟩
      · rw [send_packet_loop]
        simp only [hle, if_true, hrc]
      · simp [offeredPackets]
      · intro h; cases h
      · simp [sentPackets, hrc]
    · have hmod : (attempt + 1) % 256 = attempt + 1 := Nat.mod_eq_of_lt (by omega)
      obtain ⟨ok, k2, evs, hrec, hle2, hfail, hsent, hlock⟩ :=
        ih (attempt + 1) f (fn data k).2 (by omega) (by omega)
      refine ⟨ok, k2, TxEvent.send data (fn data k).1 ::
        ((if attempt < t.s_send_max_retries ∧ t.s_send_retry_delay_ticks > 0 ∧
              t.s_sleep_fn = true
            then [TxEvent.sleep t.s_send_retry_delay_ticks] else []) ++ evs), ?_, ?_, ?_, ?_, ?_⟩
      · rw [send_packet_loop]
        simp only [hle, if_true, hrc, if_false, hmod, hrec]
        rfl
      · simp only [offeredPackets, offeredPackets_append, offeredPackets_sleep_if,
          List.nil_append, List.length_cons]
        omega
      · intro hok
        simp only [offeredPackets, offeredPackets_append, offeredPackets_sleep_if,
          List.nil_append, List.length_cons, hfail hok]
      · simp only [sentPackets, hrc, if_false, sentPackets_append, sentPackets_sleep_if,
          List.nil_append, hsent]
      · simp only [lockCalls, lockCalls_append, lockCalls_sleep_if, List.nil_append, hlock]

theorem send_packet_bounded {κ : Type} (t : Transport κ) (hR : t.s_send_max_retries ≤ 254)
    (fuel : Nat) (hf : t.s_send_max_retries + 1 < fuel) (data : List Nat) (k : κ) :
    ∃ ok k2 evs, mcp_transport_send_packet t fuel data k = some (ok, k2, evs) ∧
      (offeredPackets evs).length ≤ t.s_send_max_retries + 1 ∧
      (sentPackets evs).length = (if ok then 1 else 0) ∧ lockCalls evs = [] := by
  unfold mcp_transport_send_packet
  cases hfn : t.s_send_fn with
  | none => exact ⟨false, k, [], rfl, by simp [offeredPackets], rfl, rfl⟩
  | some fn =>
    obtain ⟨ok, k2, evs, h1, h2, _, h4, h5⟩ :=
      send_packet_loop_bounded t fn data hR (t.s_send_max_retries + 1) 0 fuel k (by omega) hf
    exact ⟨ok, k2, evs, h1, h2, h4, h5⟩

theorem send_message_loop_returns {κ : Type} (t : Transport κ)
    (hR : t.s_send_max_retries ≤ 254) (m : List Nat) (total P : Nat) (hP : 2 ≤ P) :
    ∀ (fuel offset seq_id : Nat) (k : κ),
      t.s_send_max_retries + 1 + (total - offset) < fuel →
      ∃ ok k2 body, send_message_loop t m total P fuel offset seq_id k
          = some (ok, k2, body ++ (if ok then [] else lock_call t false)) ∧
        lockCalls body = [] := by
  intro fuel
  induction fuel with
  | zero => intro _ _ _ h; omega
  | succ f ih =>
    intro offset seq_id k hfuel
    by_cases hoff : offset < total
    · by_cases hrem : total - offset > P - 1
      · obtain ⟨ok, k1, evs, hpk, _, _, hlock⟩ :=
          send_packet_bounded t hR (f + 1) (by omega)
            ((TYPE_CONT ||| (seq_id &&& HEADER_SEQ_MASK)) :: (m.drop offset).take (P - 1)) k
        cases ok with
        | false =>
          refine ⟨false, k1, (if t.s_tx_gap_ticks > 0 ∧ t.s_sleep_fn = true
            then [TxEvent.sleep t.s_tx_gap_ticks] else []) ++ evs, ?_, ?_⟩
          · rw [send_message_loop]
            simp only [hoff, hrem, if_true, hpk, Bool.false_eq_true, if_false]
          · simp only [lockCalls_append, lockCalls_sleep_if, hlock, List.nil_append]
        | true =>
          obtain ⟨ok2, k2, body, hloop, hlock2⟩ :=
            ih (offset + (P - 1)) ((seq_id + 1) % 256) k1 (by omega)
          refine ⟨ok2, k2, (if t.s_tx_gap_ticks > 0 ∧ t.s_sleep_fn = true
            then [TxEvent.sleep t.s_tx_gap_ticks] else []) ++ evs ++ body, ?_, ?_⟩
          · rw [send_message_loop]
            simp only [hoff, hrem, if_true, hpk, hloop, List.append_assoc]
          · simp only [lockCalls_append, lockCalls_sleep_if, hlock, hlock2, List.nil_append]
      · obtain ⟨ok, k1, evs, hpk, _, _, hlock⟩ :=
          send_packet_bounded t hR (f + 1) (by omega)
            ((TYPE_END ||| (seq_id &&& HEADER_SEQ_MASK)) ::
              (m.drop offset).take (total - offset)) k
        cases ok with
        | false =>
          refine ⟨false, k1, (if t.s_tx_gap_ticks > 0 ∧ t.s_sleep_fn = true
            then [TxEvent.sleep t.s_tx_gap_ticks] else []) ++ evs, ?_, ?_⟩
          · rw [send_message_loop]
            simp only [hoff, hrem, if_true, if_false, hpk, Bool.false_eq_true]
          · simp only [lockCalls_append, lockCalls_sleep_if, hlock, List.nil_append]
        | true =>
          obtain ⟨ok2, k2, body, hloop, hlock2⟩ :=
            ih (offset + (total - offset)) seq_id k1 (by omega)
          refine ⟨ok2, k2, (if t.s_tx_gap_ticks > 0 ∧ t.s_sleep_fn = true
            then [TxEvent.sleep t.s_tx_gap_ticks] else []) ++ evs ++ body, ?_, ?_⟩
          · rw [send_message_loop]
            simp only [hoff, hrem, if_true, if_false, hpk, hloop, List.append_assoc]
          · simp only [lockCalls_append, lockCalls_sleep_if, hlock, hlock2, List.nil_append]
    · refine ⟨true, k, [], ?_, rfl⟩
      rw [send_message_loop]
      simp only [hoff, if_false, if_true, List.append_nil]

theorem send_message_bracketed {κ : Type} (t : Transport κ) (fn : List Nat → κ → Int × κ)
    (hfn : t.s_send_fn = some fn) (htx : t.tx_buffer_alloc = true)
    (hR : t.s_send_max_retries ≤ 254) (m : List Nat) (fuel : Nat)
    (hfuel : t.s_send_max_retries + 1 + strlen m < fuel) (k : κ) :
    ∃ k2 body, mcp_transport_send_message t fuel m k
        = some (k2, lock_call t true ++ body ++ lock_call t false) ∧
      lockCalls body = [] := by
  have hready : ¬ (t.s_send_fn.isNone = true ∨ t.tx_buffer_alloc = false) := by
    simp [hfn, htx]
  rw [mcp_transport_send_message, if_neg hready]
  by_cases hbig : strlen m > MAX_MESSAGE_SIZE
  · exact ⟨k, [], by simp only [hbig, if_true, List.append_nil], rfl⟩
  simp only [hbig, if_false]
  by_cases hshort : strlen m + 1 ≤ mcp_transport_max_packet_len t
  · obtain ⟨ok, k1, evs, hpk, _, _, hlock⟩ :=
      send_packet_bounded t hR fuel (by omega)
        ((TYPE_SINGLE ||| (0 &&& HEADER_SEQ_MASK)) :: m.take (strlen m)) k
    exact ⟨k1, evs, by simp only [hshort, if_true, hpk], hlock⟩
  simp only [hshort, if_false]
  by_cases hsmall : mcp_transport_max_packet_len t ≤ 5
  · exact ⟨k, [], by simp only [hsmall, if_true, List.append_nil], rfl⟩
  simp only [hsmall, if_false]
  obtain ⟨ok, k1, evs, hpk, _, _, hlock⟩ :=
    send_packet_bounded t hR fuel (by omega)
      ((TYPE_START ||| (0 &&& HEADER_SEQ_MASK)) ::
        (total_len_bytes (strlen m) ++
          (m.drop 0).take (mcp_transport_max_packet_len t - 5))) k
  cases ok with
  | false => exact ⟨k1, evs, by simp only [hpk], hlock⟩
  | true =>
    obtain ⟨ok2, k2, body, hloop, hlock2⟩ :=
      send_message_loop_returns t hR m (strlen m) (mcp_transport_max_packet_len t) (by omega)
        fuel (0 + (mcp_transport_max_packet_len t - 5)) ((0 + 1) % 256) k1 (by omega)
    refine ⟨k2, evs ++ body, ?_, by simp only [lockCalls_append, hlock, hlock2, List.append_nil]⟩
    cases ok2 with
    | false =>
      simp only [hpk, hloop, Bool.false_eq_true, if_false, List.append_assoc]
    | true =>
      simp only [hpk, hloop, if_true, List.append_nil, List.append_assoc]

end McpTransport

namespace McpServer

/-! # Lemmas on the dispatcher -/

theorem member?_setMember (ms : List (String × Json)) (key : String) (v : Json) (k : String) :
    member? (setMember ms key v) k = if key = k then some v else member? ms k := by
  induction ms with
  | nil => simp [setMember, member?]
  | cons kv rest ih =>
    obtain ⟨k1, w⟩ := kv
    by_cases h1 : k1 = key
    · subst h1
      by_cases h2 : k1 = k
      · simp [setMember, member?, h2]
      · simp [setMember, member?, h2]
    · by_cases h2 : k1 = k
      · subst h2
        have h3 : ¬ (key = k1) := fun h => h1 h.symm
        simp [setMember, member?, h1, h3]
      · simp [setMember, member?, h1, h2, ih]

theorem handle_tools_call (lib : JsonLib) (s : BLEMCPServer) (request : MCPRequest)
    (hm : request.method = "tools/call") :
    handle lib s request = handleFunctionCalls lib s request := by
  simp [handle, hm]

theorem hasResult_createJSONRPCError (code : Int) (id : Json) (message : String) :
    (createJSONRPCError code id message).hasResult = false ∧
    (createJSONRPCError code id message).hasError = true ∧
    (createJSONRPCError code id message).errorDoc.get "code" = Json.int code ∧
    (createJSONRPCError code id message).errorDoc.get "message" = Json.str message ∧
    (createJSONRPCError code id message).idDoc = id := by
  refine ⟨rfl, rfl, ?_, ?_, rfl⟩
  · simp [createJSONRPCError, Json.get, setMember, member?]
  · simp [createJSONRPCError, Json.get, setMember, member?]

theorem exactlyOne_error (code : Int) (id : Json) (message : String) :
    ExactlyOne (createJSONRPCError code id message) :=
  Or.inr ⟨rfl, _, rfl⟩

theorem exactlyOne_handleFunctionCalls (lib : JsonLib) (s : BLEMCPServer)
    (request : MCPRequest) : ExactlyOne (handleFunctionCalls lib s request) := by
  unfold handleFunctionCalls
  by_cases hs : (request.params.get "name").is_string = true
  · simp only [hs, Bool.not_true, Bool.false_eq_true, if_false]
    cases hfind : mapFind s.tools ((request.params.get "name").as_string lib) with
    | none => exact exactlyOne_error _ _ _
    | some tool =>
      cases hh : tool.handler with
      | none => simp only [hh]; exact exactlyOne_error _ _ _
      | some call => simp only [hh]; exact Or.inl ⟨⟨_, rfl⟩, rfl⟩
  · simp only [Bool.not_eq_true] at hs
    simp only [hs, Bool.not_false, if_true]
    exact exactlyOne_error _ _ _

theorem exactlyOne_handle (lib : JsonLib) (s : BLEMCPServer) (request : MCPRequest) :
    ExactlyOne (handle lib s request) := by
  unfold handle
  by_cases h0 : request.method = ""
  · rw [if_pos h0]; exact exactlyOne_error _ _ _
  rw [if_neg h0]
  by_cases h1 : request.method = "initialize"
  · rw [if_pos h1]; exact Or.inl ⟨⟨_, rfl⟩, rfl⟩
  rw [if_neg h1]
  by_cases h2 : request.method = "tools/list"
  · rw [if_pos h2]; exact Or.inl ⟨⟨_, rfl⟩, rfl⟩
  rw [if_neg h2]
  by_cases h3 : request.method = "notifications/initialized"
  · rw [if_pos h3]; exact Or.inl ⟨⟨_, rfl⟩, rfl⟩
  rw [if_neg h3]
  by_cases h4 : request.method = "tools/call"
  · rw [if_pos h4]; exact exactlyOne_handleFunctionCalls lib s request
  rw [if_neg h4]
  exact exactlyOne_error _ _ _

theorem responseDoc_eq (lib : JsonLib) (r : MCPResponse) :
    responseDoc lib r =
      (if r.hasError then fun d => setMember d "error" r.error else fun d => d)
        ((if r.hasResult then fun d => setMember d "result" r.result else fun d => d)
          [("id", idMember lib r.idDoc), ("jsonrpc", Json.str "2.0")]) := by
  unfold responseDoc idMember MCPResponse.id
  by_cases h1 : r.idDoc.is_string = true
  · simp only [h1, if_true, setMember]
    split <;> split <;> simp [setMember]
  · by_cases h2 : (r.idDoc.is_long || r.idDoc.is_unsigned_long) = true
    · simp only [h1, h2, if_true, if_false, setMember]
      split <;> split <;> simp [setMember]
    · by_cases h3 : r.idDoc.isNull = true
      · simp only [h1, h2, h3, if_true, if_false, setMember]
        split <;> split <;> simp [setMember]
      · simp only [h1, h2, h3, if_false, setMember]
        split <;> split <;> simp [setMember]

theorem members_of_exactlyOne (lib : JsonLib) (r : MCPResponse) (h : ExactlyOne r) :
    r.hasResult = !r.hasError ∧
    member? (responseDoc lib r) "jsonrpc" = some (Json.str "2.0") ∧
    member? (responseDoc lib r) "id" = some (idMember lib r.idDoc) ∧
    (member? (responseDoc lib r) "result" = if r.hasResult then some r.resultDoc else none) ∧
    (member? (responseDoc lib r) "error" = if r.hasError then some r.errorDoc else none) := by
  rw [responseDoc_eq]
  rcases h with ⟨⟨ms, hres⟩, herr⟩ | ⟨hres, ms, herr⟩
  · have h1 : r.hasResult = true := by simp [MCPResponse.hasResult, hres, Json.isNull]
    have h2 : r.hasError = false := by simp [MCPResponse.hasError, herr, Json.isNull]
    simp [h1, h2, setMember, member?, MCPResponse.result]
  · have h1 : r.hasResult = false := by simp [MCPResponse.hasResult, hres, Json.isNull]
    have h2 : r.hasError = true := by simp [MCPResponse.hasError, herr, Json.isNull]
    simp [h1, h2, setMember, member?, MCPResponse.error]

theorem length_pos_iff (s : String) : s.length > 0 ↔ s ≠ "" := by
  obtain ⟨data⟩ := s
  cases data with
  | nil => simp [String.length]
  | cons c cs =>
    simp only [String.length, List.length_cons, gt_iff_lt, Nat.zero_lt_succ, true_iff]
    intro h
    have h1 := congrArg String.data h
    exact absurd h1 (by simp)

theorem member?_if_setMember (c : Prop) [Decidable c] (ms : List (String × Json))
    (key : String) (v : Json) (k : String) :
    member? (if c then setMember ms key v else ms) k
      = if c ∧ key = k then some v else member? ms k := by
  by_cases hc : c
  · simp [hc, member?_setMember]
  · simp [hc]

theorem toJsonList_eq_map (ps : List Properties) :
    Properties.toJsonList ps = ps.map (fun p => Json.obj p.toJson) := by
  induction ps with
  | nil => simp [Properties.toJsonList]
  | cons p rest ih => simp [Properties.toJsonList, ih]

theorem mem_setMember (ms : List (String × Json)) (key : String) (v : Json)
    (kv : String × Json) (h : kv ∈ setMember ms key v) : kv ∈ ms ∨ kv = (key, v) := by
  induction ms with
  | nil => simpa [setMember] using h
  | cons a rest ih =>
    obtain ⟨k1, w⟩ := a
    by_cases h1 : k1 = key
    · subst h1
      simp only [setMember, if_true, List.mem_cons] at h
      rcases h with h | h
      · exact Or.inr h
      · exact Or.inl (List.mem_cons_of_mem _ h)
    · simp only [setMember, h1, if_false, List.mem_cons] at h
      rcases h with h | h
      · exact Or.inl (by rw [h]; exact List.mem_cons_self _ _)
      · rcases ih h with h2 | h2
        · exact Or.inl (List.mem_cons_of_mem _ h2)
        · exact Or.inr h2

theorem toJsonMap_forall (Q : String × Json → Prop) :
    ∀ (ps : List (String × Properties)) (acc : List (String × Json)),
      (∀ kv ∈ acc, Q kv) → (∀ p ∈ ps, Q (p.1, Json.obj p.2.toJson)) →
      ∀ kv ∈ Properties.toJsonMap ps acc, Q kv := by
  intro ps
  induction ps with
  | nil => intro acc hacc _ kv hkv; simpa [Properties.toJsonMap] using hacc kv (by simpa [Properties.toJsonMap] using hkv)
  | cons p rest ih =>
    obtain ⟨key, value⟩ := p
    intro acc hacc hps kv hkv
    rw [Properties.toJsonMap] at hkv
    refine ih _ ?_ (fun q hq => hps q (List.mem_cons_of_mem _ hq)) kv hkv
    intro kv2 hkv2
    rcases mem_setMember _ _ _ _ hkv2 with h | h
    · exact hacc kv2 h
    · rw [h]; exact hps (key, value) (List.mem_cons_self _ _)

theorem mapFind_mapAssign_self {α : Type} (m : List (String × α)) (key : String) (value : α) :
    mapFind (mapAssign m key value) key = some value := by
  induction m with
  | nil => simp [mapAssign, mapFind]
  | cons kv rest ih =>
    obtain ⟨k, v⟩ := kv
    by_cases h1 : key < k
    · simp [mapAssign, h1, mapFind]
    · by_cases h2 : key = k
      · simp [mapAssign, h1, h2, mapFind]
      · have h3 : ¬ (k = key) := fun h => h2 h.symm
        simp [mapAssign, h1, h2, mapFind, h3, ih]

theorem mapFind_mapAssign_ne {α : Type} (m : List (String × α)) (key : String) (value : α)
    (n : String) (hn : n ≠ key) :
    mapFind (mapAssign m key value) n = mapFind m n := by
  have hn2 : ¬ (key = n) := fun h => hn h.symm
  induction m with
  | nil => simp [mapAssign, mapFind, hn2]
  | cons kv rest ih =>
    obtain ⟨k, v⟩ := kv
    by_cases h1 : key < k
    · simp [mapAssign, h1, mapFind, hn2]
    · by_cases h2 : key = k
      · subst h2
        simp [mapAssign, mapFind, hn2]
      · by_cases h3 : k = n
        · subst h3
          simp only [mapAssign, h1, h2, if_false, mapFind, if_true]
        · simp only [mapAssign, h1, h2, if_false, mapFind, h3, ih]

theorem mem_mapAssign {α : Type} (m : List (String × α)) (key : String) (value : α)
    (kv : String × α) (h : kv ∈ mapAssign m key value) : kv = (key, value) ∨ kv ∈ m := by
  induction m with
  | nil => simpa [mapAssign] using h
  | cons a rest ih =>
    obtain ⟨k, v⟩ := a
    by_cases h1 : key < k
    · simp only [mapAssign, h1, if_true, List.mem_cons] at h
      rcases h with h | h | h
      · exact Or.inl h
      · exact Or.inr (by rw [h]; exact List.mem_cons_self _ _)
      · exact Or.inr (List.mem_cons_of_mem _ h)
    · by_cases h2 : key = k
      · subst h2
        simp only [mapAssign, lt_self_iff_false, if_true, if_false, List.mem_cons] at h
        rcases h with h | h
        · exact Or.inl h
        · exact Or.inr (List.mem_cons_of_mem _ h)
      · simp only [mapAssign, h1, h2, if_false, List.mem_cons] at h
        rcases h with h | h
        · exact Or.inr (by rw [h]; exact List.mem_cons_self _ _)
        · rcases ih h with h3 | h3
          · exact Or.inl h3
          · exact Or.inr (List.mem_cons_of_mem _ h3)

theorem sortedKeys_mapAssign {α : Type} (m : List (String × α)) (key : String) (value : α)
    (hs : SortedKeys m) : SortedKeys (mapAssign m key value) := by
  induction m with
  | nil => simp [mapAssign, SortedKeys]
  | cons a rest ih =>
    obtain ⟨k, v⟩ := a
    have hs2 := List.pairwise_cons.mp hs
    by_cases h1 : key < k
    · simp only [mapAssign, h1, if_true]
      refine List.pairwise_cons.mpr ⟨?_, hs⟩
      intro b hb
      rcases List.mem_cons.mp hb with hb | hb
      · rw [hb]; exact h1
      · exact lt_trans h1 (hs2.1 b hb)
    · by_cases h2 : key = k
      · subst h2
        simp only [mapAssign, lt_self_iff_false, if_true, if_false]
        exact List.pairwise_cons.mpr ⟨fun b hb => hs2.1 b hb, hs2.2⟩
      · simp only [mapAssign, h1, h2, if_false]
        refine List.pairwise_cons.mpr ⟨?_, ih hs2.2⟩
        intro b hb
        rcases mem_mapAssign _ _ _ _ hb with hb | hb
        · rw [hb]
          exact lt_of_le_of_ne (not_lt.mp h1) (fun h => h2 h.symm)
        · exact hs2.1 b hb

theorem validRegistry_new (name version instructions : String) :
    ValidRegistry (BLEMCPServer.new name version instructions).tools :=
  ⟨List.Pairwise.nil, fun _ h => absurd h (List.not_mem_nil _)⟩

theorem validRegistry_registerTool (s : BLEMCPServer) (tool : Tool)
    (hv : ValidRegistry s.tools) : ValidRegistry (RegisterTool s tool).tools := by
  refine ⟨sortedKeys_mapAssign _ _ _ hv.1, ?_⟩
  intro kv hkv
  rcases mem_mapAssign _ _ _ _ hkv with h | h
  · rw [h]
  · exact hv.2 kv h

theorem sortedKeys_nodup {α : Type} (m : List (String × α)) (hs : SortedKeys m) :
    (m.map (fun kv => kv.1)).Nodup := by
  rw [List.Nodup, List.pairwise_map]
  exact hs.imp (fun h => ne_of_lt h)

theorem entryFor_toolEntry (kv : String × Tool) : EntryFor kv (toolEntry kv.1 kv.2) := by
  unfold EntryFor toolEntry
  by_cases h : kv.2.outputSchema.type.length > 0
  · simp [h, Json.get, member?_setMember, member?]
  · simp [h, Json.get, member?_setMember, member?]

theorem toolEntry_name (kv : String × Tool) :
    (toolEntry kv.1 kv.2).get "name" = Json.str kv.1 :=
  (entryFor_toolEntry kv).1

theorem count_key_mapAssign {α : Type} (m : List (String × α)) (key : String) (value : α)
    (hs : SortedKeys m) : ((mapAssign m key value).map (fun kv => kv.1)).count key = 1 := by
  apply List.count_eq_one_of_mem (sortedKeys_nodup _ (sortedKeys_mapAssign m key value hs))
  have h := mapFind_mapAssign_self m key value
  generalize mapAssign m key value = l at h
  induction l with
  | nil => simp [mapFind] at h
  | cons a rest ih =>
    obtain ⟨k, v⟩ := a
    by_cases hk : k = key
    · simp [hk]
    · simp only [mapFind, hk, if_false] at h
      exact List.mem_cons_of_mem _ (ih h)

theorem idMember_eq_self (lib : JsonLib) (id : Json) :
    idMember lib id = id ∨ ∃ n, id = Json.int n ∧ LONG_MAX < n ∧ n ≤ ULONG_MAX := by
  cases id with
  | null => exact Or.inl rfl
  | bool b => exact Or.inl rfl
  | str s => exact Or.inl rfl
  | arr items => exact Or.inl rfl
  | obj members => exact Or.inl rfl
  | int n =>
    by_cases h1 : LONG_MIN ≤ n ∧ n ≤ LONG_MAX
    · left
      simp [idMember, Json.is_string, Json.is_long, Json.as_long, h1]
    · by_cases h2 : 0 ≤ n ∧ n ≤ ULONG_MAX
      · right
        refine ⟨n, rfl, ?_, h2.2⟩
        by_contra h3
        exact h1 ⟨le_trans (by decide) h2.1, not_lt.mp h3⟩
      · left
        simp [idMember, Json.is_string, Json.is_long, Json.is_unsigned_long, Json.isNull, h1, h2]

theorem initialize_response (lib : JsonLib) (s : BLEMCPServer) (request : MCPRequest)
    (hm : request.method = "initialize") :
    (handle lib s request).resultDoc.get "protocolVersion" = Json.str "2024-11-05" ∧
    (((handle lib s request).resultDoc.get "capabilities").get "tools").get "listChanged"
      = Json.bool false ∧
    member? (responseDoc lib (handle lib s request)) "result"
      = some (handle lib s request).resultDoc ∧
    member? (responseDoc lib (handle lib s request)) "id" = some (idMember lib request.id) ∧
    (idMember lib request.id = request.id ∨
      ∃ n, request.id = Json.int n ∧ LONG_MAX < n ∧ n ≤ ULONG_MAX) := by
  have hh : handle lib s request = handleInitialize s request := by
    simp [handle, hm]
  obtain ⟨_, _, h3, h4, _⟩ :=
    members_of_exactlyOne lib (handle lib s request) (exactlyOne_handle lib s request)
  have hres : (handle lib s request).hasResult = true := by rw [hh]; rfl
  rw [hres] at h4
  refine ⟨?_, ?_, h4, ?_, idMember_eq_self lib request.id⟩
  · rw [hh]
    by_cases hi : s.serverInstructions.length > 0
    · simp [handleInitialize, hi, Json.get, member?_setMember, member?, PROTOCOL_VERSION]
    · simp [handleInitialize, hi, Json.get, member?_setMember, member?, PROTOCOL_VERSION]
  · rw [hh]
    by_cases hi : s.serverInstructions.length > 0
    · simp [handleInitialize, hi, Json.get, member?_setMember, member?]
    · simp [handleInitialize, hi, Json.get, member?_setMember, member?]
  · rw [h3, hh]; rfl

theorem append_ne_of_head (p q r : String) (c d : Char) (cs ds : List Char)
    (hp : p.data = c :: cs) (hr : r.data = d :: ds) (hcd : c ≠ d) : p ++ q ≠ r := by
  intro h
  have h2 := congrArg String.data h
  rw [String.data_append, hp, hr] at h2
  simp only [List.cons_append, List.cons.injEq] at h2
  exact hcd h2.1

theorem handle_code_ne_parse_error (lib : JsonLib) (s : BLEMCPServer) (request : MCPRequest)
    (h0 : request.method ≠ "") :
    (handle lib s request).errorDoc.get "code" ≠ Json.int (-32700) ∧
    (handle lib s request).errorDoc.get "message" ≠ Json.str "Parse error: Invalid JSON" := by
  have herr : ∀ (code : Int) (id : Json) (message : String), code ≠ -32700 →
      message ≠ "Parse error: Invalid JSON" →
      (createJSONRPCError code id message).errorDoc.get "code" ≠ Json.int (-32700) ∧
      (createJSONRPCError code id message).errorDoc.get "message"
        ≠ Json.str "Parse error: Invalid JSON" := by
    intro code id message hc hmsg
    obtain ⟨_, _, h3, h4, _⟩ := hasResult_createJSONRPCError code id message
    rw [h3, h4]
    exact ⟨fun h => hc (by injection h), fun h => hmsg (by injection h)⟩
  have hres : ∀ r : MCPResponse, r.errorDoc = Json.null →
      r.errorDoc.get "code" ≠ Json.int (-32700) ∧
      r.errorDoc.get "message" ≠ Json.str "Parse error: Invalid JSON" := by
    intro r hr
    rw [hr]
    exact ⟨fun h => by simp [Json.get] at h, fun h => by simp [Json.get] at h⟩
  unfold handle
  rw [if_neg h0]
  by_cases h1 : request.method = "initialize"
  · rw [if_pos h1]; exact hres _ rfl
  rw [if_neg h1]
  by_cases h2 : request.method = "tools/list"
  · rw [if_pos h2]; exact hres _ rfl
  rw [if_neg h2]
  by_cases h3 : request.method = "notifications/initialized"
  · rw [if_pos h3]; exact hres _ rfl
  rw [if_neg h3]
  by_cases h4 : request.method = "tools/call"
  · rw [if_pos h4]
    unfold handleFunctionCalls
    by_cases hs : (request.params.get "name").is_string = true
    · simp only [hs, Bool.not_true, Bool.false_eq_true, if_false]
      cases hfind : mapFind s.tools ((request.params.get "name").as_string lib) with
      | none =>
        exact herr _ _ _ (by decide)
          (append_ne_of_head _ _ _ 'M' 'P' _ _ rfl rfl (by decide))
      | some tool =>
        cases hh : tool.handler with
        | none =>
          simp only [hh]
          exact herr _ _ _ (by decide)
            (append_ne_of_head _ _ _ 'T' 'P' _ _ rfl rfl (by decide))
        | some call => simp only [hh]; exact hres _ rfl
    · simp only [Bool.not_eq_true] at hs
      simp only [hs, Bool.not_false, if_true]
      exact herr _ _ _ (by decide) (by decide)
  · rw [if_neg h4]
    exact herr _ _ _ (by decide) (append_ne_of_head _ _ _ 'M' 'P' _ _ rfl rfl (by decide))

/-! # The claims on the dispatcher -/

/-- Claim C11. Outcome of `tools/call`: for every registry and every request
with method `tools/call`, `handle` returns (a) error code -32602 and no result
when `params.name` is absent or not a string; otherwise, with `n` the string
`params.name`, (b) error -32601 and no result when `n` is not a registered
name, (c) error -32603 and no result when `n` is registered with its handler
unset, and (d) when `n` is registered with a handler, no error and a result
whose `content` array has exactly one element, with `type` = `text` and
`text` = the serialization of what the handler returns for
`params.arguments`. -/
theorem tools_call_outcome (lib : JsonLib) (s : BLEMCPServer) (request : MCPRequest)
    (hm : request.method = "tools/call") :
    ((request.params.get "name").is_string = false →
      (handle lib s request).hasResult = false ∧
      (handle lib s request).errorDoc.get "code" = Json.int (-32602)) ∧
    (∀ n, request.params.get "name" = Json.str n →
      (mapFind s.tools n = none →
        (handle lib s request).hasResult = false ∧
        (handle lib s request).errorDoc.get "code" = Json.int (-32601)) ∧
      (∀ tool, mapFind s.tools n = some tool → tool.handler = none →
        (handle lib s request).hasResult = false ∧
        (handle lib s request).errorDoc.get "code" = Json.int (-32603)) ∧
      (∀ tool call, mapFind s.tools n = some tool → tool.handler = some call →
        (handle lib s request).hasError = false ∧
        (handle lib s request).resultDoc =
          Json.obj [("content", Json.arr [Json.obj [("type", Json.str "text"),
            ("text", Json.str (lib.serializeJson (call (request.params.get "arguments"))))]])])) := by
  rw [handle_tools_call lib s request hm]
  refine ⟨?_, ?_⟩
  · intro hns
    have h := hasResult_createJSONRPCError INVALID_PARAMS request.id
      "Missing or invalid 'name' parameter"
    simp only [handleFunctionCalls, hns, Bool.not_false, if_true]
    exact ⟨h.1, h.2.2.1⟩
  · intro n hn
    have hs : (request.params.get "name").is_string = true := by rw [hn]; rfl
    have has : (request.params.get "name").as_string lib = n := by rw [hn]; rfl
    refine ⟨?_, ?_, ?_⟩
    · intro hfind
      have h := hasResult_createJSONRPCError METHOD_NOT_FOUND request.id
        ("Method not supported: " ++ n)
      simp only [handleFunctionCalls, hs, Bool.not_true, Bool.false_eq_true, if_false, has,
        hfind]
      exact ⟨h.1, h.2.2.1⟩
    · intro tool hfind hh
      have h := hasResult_createJSONRPCError INTERNAL_ERROR request.id
        ("Tool handler not initialized: " ++ n)
      simp only [handleFunctionCalls, hs, Bool.not_true, Bool.false_eq_true, if_false, has,
        hfind, hh]
      exact ⟨h.1, h.2.2.1⟩
    · intro tool call hfind hh
      simp only [handleFunctionCalls, hs, Bool.not_true, Bool.false_eq_true, if_false, has,
        hfind, hh]
      exact ⟨rfl, rfl⟩

theorem tools_call_outcome_witness :
    (parseRequest echoLib echoRaw).method = "tools/call" ∧
    (((parseRequest echoLib echoRaw).params.get "name").is_string = false →
      (handle echoLib echoServer (parseRequest echoLib echoRaw)).hasResult = false ∧
      (handle echoLib echoServer (parseRequest echoLib echoRaw)).errorDoc.get "code"
        = Json.int (-32602)) ∧
    (∀ n, (parseRequest echoLib echoRaw).params.get "name" = Json.str n →
      (mapFind echoServer.tools n = none →
        (handle echoLib echoServer (parseRequest echoLib echoRaw)).hasResult = false ∧
        (handle echoLib echoServer (parseRequest echoLib echoRaw)).errorDoc.get "code"
          = Json.int (-32601)) ∧
      (∀ tool, mapFind echoServer.tools n = some tool → tool.handler = none →
        (handle echoLib echoServer (parseRequest echoLib echoRaw)).hasResult = false ∧
        (handle echoLib echoServer (parseRequest echoLib echoRaw)).errorDoc.get "code"
          = Json.int (-32603)) ∧
      (∀ tool call, mapFind echoServer.tools n = some tool → tool.handler = some call →
        (handle echoLib echoServer (parseRequest echoLib echoRaw)).hasError = false ∧
        (handle echoLib echoServer (parseRequest echoLib echoRaw)).resultDoc =
          Json.obj [("content", Json.arr [Json.obj [("type", Json.str "text"),
            ("text", Json.str (echoLib.serializeJson
              (call ((parseRequest echoLib echoRaw).params.get "arguments"))))]])])) :=
  ⟨by decide, tools_call_outcome echoLib echoServer (parseRequest echoLib echoRaw) (by decide)⟩

/-- Claim C12. Exactly one of result and error: for every registry and every
request (any method, the empty parse-failure sentinel and
`notifications/initialized` included) the response `handle` returns has
exactly one of result and error set, and the document `serializeResponse`
serializes has the member `jsonrpc` = `2.0`, an `id` member, and exactly one
of the members `result` and `error`. -/
theorem exactly_one_of_result_and_error (lib : JsonLib) (s : BLEMCPServer)
    (request : MCPRequest) :
    (handle lib s request).hasResult = !(handle lib s request).hasError ∧
    serializeResponse lib (handle lib s request)
      = lib.serializeJson (Json.obj (responseDoc lib (handle lib s request))) ∧
    member? (responseDoc lib (handle lib s request)) "jsonrpc" = some (Json.str "2.0") ∧
    (member? (responseDoc lib (handle lib s request)) "id").isSome = true ∧
    (member? (responseDoc lib (handle lib s request)) "result").isSome
      = !(member? (responseDoc lib (handle lib s request)) "error").isSome := by
  obtain ⟨h1, h2, h3, h4, h5⟩ :=
    members_of_exactlyOne lib (handle lib s request) (exactlyOne_handle lib s request)
  refine ⟨h1, rfl, h2, by rw [h3]; rfl, ?_⟩
  rw [h4, h5, h1]
  cases (handle lib s request).hasError <;> rfl

/-- Claim C13, at its failing input.  For the request
`initialize` with the id 3000000000, a number that passes
`is<unsigned long>()` and does not fit the 32-bit `long` of `as<long>()`, the
`id` member of the serialized response is 0 and not the id of the request.
The rest of the response is as the claim says. -/
theorem initialize_id_not_echoed (lib : JsonLib) (s : BLEMCPServer) :
    bigIdRequest.method = "initialize" ∧ bigIdRequest.id = Json.int 3000000000 ∧
    (Json.int 3000000000).is_unsigned_long = true ∧ (Json.int 3000000000).is_long = false ∧
    member? (responseDoc lib (handle lib s bigIdRequest)) "id" = some (Json.int 0) ∧
    member? (responseDoc lib (handle lib s bigIdRequest)) "id" ≠ some bigIdRequest.id := by
  have hh : handle lib s bigIdRequest = handleInitialize s bigIdRequest := by
    simp [handle, bigIdRequest]
  have hid : member? (responseDoc lib (handle lib s bigIdRequest)) "id"
      = some (Json.int 0) := by
    rw [(members_of_exactlyOne lib _ (exactlyOne_handle lib s bigIdRequest)).2.2.1, hh]
    rfl
  refine ⟨rfl, rfl, by decide, by decide, hid, ?_⟩
  rw [hid]
  simp [bigIdRequest, MCPRequest.id]

/-- Claim C14. Unknown method: for every request whose method is not empty and
is none of `initialize`, `tools/list`, `notifications/initialized`,
`tools/call`, `handle` returns a response with no result and an error whose
code is -32601 and whose message is `Method not found: ` followed by the
method, carrying the id of the request. -/
theorem unknown_method (lib : JsonLib) (s : BLEMCPServer) (request : MCPRequest)
    (h0 : request.method ≠ "") (h1 : request.method ≠ "initialize")
    (h2 : request.method ≠ "tools/list") (h3 : request.method ≠ "notifications/initialized")
    (h4 : request.method ≠ "tools/call") :
    (handle lib s request).hasResult = false ∧
    (handle lib s request).hasError = true ∧
    (handle lib s request).errorDoc.get "code" = Json.int (-32601) ∧
    (handle lib s request).errorDoc.get "message"
      = Json.str ("Method not found: " ++ request.method) ∧
    (handle lib s request).id = request.id := by
  have hh : handle lib s request =
      createJSONRPCError METHOD_NOT_FOUND request.id ("Method not found: " ++ request.method) := by
    unfold handle
    rw [if_neg h0, if_neg h1, if_neg h2, if_neg h3, if_neg h4]
  rw [hh]
  exact hasResult_createJSONRPCError _ _ _

theorem unknown_method_witness :
    (("resources/list" : String) ≠ "" ∧ ("resources/list" : String) ≠ "initialize" ∧
      ("resources/list" : String) ≠ "tools/list" ∧
      ("resources/list" : String) ≠ "notifications/initialized" ∧
      ("resources/list" : String) ≠ "tools/call") ∧
    ((handle echoLib echoServer ⟨"resources/list", Json.int 7, Json.null⟩).hasResult = false ∧
    (handle echoLib echoServer ⟨"resources/list", Json.int 7, Json.null⟩).hasError = true ∧
    (handle echoLib echoServer ⟨"resources/list", Json.int 7, Json.null⟩).errorDoc.get "code"
      = Json.int (-32601) ∧
    (handle echoLib echoServer ⟨"resources/list", Json.int 7, Json.null⟩).errorDoc.get "message"
      = Json.str ("Method not found: " ++
          (⟨"resources/list", Json.int 7, Json.null⟩ : MCPRequest).method) ∧
    (handle echoLib echoServer ⟨"resources/list", Json.int 7, Json.null⟩).id
      = (⟨"resources/list", Json.int 7, Json.null⟩ : MCPRequest).id) :=
  ⟨⟨by decide, by decide, by decide, by decide, by decide⟩,
    unknown_method echoLib echoServer ⟨"resources/list", Json.int 7, Json.null⟩
      (by decide) (by decide) (by decide) (by decide) (by decide)⟩

/-- Claim C15. Parse failure: for every raw message on which
`deserializeJson` reports an error, as it does for text that is not
well-formed JSON, `parseRequest` returns a request with an empty method, and
`handle` of that request returns a response with no result, error code
-32700, error message `Parse error: Invalid JSON` and a null id, which
`serializeResponse` writes as the member `id` = null. -/
theorem parse_failure (lib : JsonLib) (s : BLEMCPServer) (raw : String)
    (herr : lib.deserializeJson raw = none) :
    (parseRequest lib raw).method = "" ∧
    (handle lib s (parseRequest lib raw)).hasResult = false ∧
    (handle lib s (parseRequest lib raw)).hasError = true ∧
    (handle lib s (parseRequest lib raw)).errorDoc.get "code" = Json.int (-32700) ∧
    (handle lib s (parseRequest lib raw)).errorDoc.get "message"
      = Json.str "Parse error: Invalid JSON" ∧
    (handle lib s (parseRequest lib raw)).id = Json.null ∧
    member? (responseDoc lib (handle lib s (parseRequest lib raw))) "id" = some Json.null := by
  have hp : parseRequest lib raw = ⟨"", Json.null, Json.null⟩ := by
    simp [parseRequest, herr]
  have hh : handle lib s (parseRequest lib raw) =
      createJSONRPCError PARSE_ERROR Json.null "Parse error: Invalid JSON" := by
    rw [hp]
    simp [handle, MCPRequest.id]
  have hid := (members_of_exactlyOne lib _ (exactlyOne_handle lib s (parseRequest lib raw))).2.2.1
  rw [hh] at hid ⊢
  obtain ⟨a, b, c, d, e⟩ := hasResult_createJSONRPCError PARSE_ERROR Json.null
    "Parse error: Invalid JSON"
  refine ⟨by rw [hp], a, b, c, d, e, ?_⟩
  rw [hid]
  rfl

theorem parse_failure_witness :
    echoLib.deserializeJson "\x7b\"method\":" = none ∧
    ((parseRequest echoLib "\x7b\"method\":").method = "" ∧
    (handle echoLib echoServer (parseRequest echoLib "\x7b\"method\":")).hasResult = false ∧
    (handle echoLib echoServer (parseRequest echoLib "\x7b\"method\":")).hasError = true ∧
    (handle echoLib echoServer (parseRequest echoLib "\x7b\"method\":")).errorDoc.get "code"
      = Json.int (-32700) ∧
    (handle echoLib echoServer (parseRequest echoLib "\x7b\"method\":")).errorDoc.get "message"
      = Json.str "Parse error: Invalid JSON" ∧
    (handle echoLib echoServer (parseRequest echoLib "\x7b\"method\":")).id = Json.null ∧
    member? (responseDoc echoLib
      (handle echoLib echoServer (parseRequest echoLib "\x7b\"method\":"))) "id"
      = some Json.null) :=
  ⟨by simp [echoLib, echoRaw],
    parse_failure echoLib echoServer "\x7b\"method\":" (by simp [echoLib, echoRaw])⟩

/-- Claim C16. Result of `tools/list`: for every registry (a `std::map` filled
by `RegisterTool`), `handle` of a `tools/list` request returns no error and a
result whose only member `tools` is an array with one entry per registered
name, in key order: as many entries as names, the names of the entries
pairwise distinct and equal to the keys of the registry, each entry with the
name, description and input schema of its tool, and with an `outputSchema`
member exactly when the type of the tool's output schema is not empty; with no
tool registered the array is empty. -/
theorem tools_list_one_entry_per_tool (lib : JsonLib) (s : BLEMCPServer)
    (request : MCPRequest) (hm : request.method = "tools/list") (hv : ValidRegistry s.tools) :
    ∃ entries : List Json,
      (handle lib s request).hasError = false ∧
      (handle lib s request).resultDoc = Json.obj [("tools", Json.arr entries)] ∧
      entries.length = s.tools.length ∧
      List.Forall₂ EntryFor s.tools entries ∧
      entries.map (fun e => e.get "name") = s.tools.map (fun kv => Json.str kv.1) ∧
      entries.map (fun e => e.get "name") = s.tools.map (fun kv => Json.str kv.2.name) ∧
      (s.tools.map (fun kv => kv.1)).Nodup ∧
      (entries.map (fun e => e.get "name")).Nodup ∧
      (s.tools = [] → entries = []) := by
  have hh : handle lib s request = handleToolsList s request := by
    simp [handle, hm]
  have hnames : (s.tools.map (fun kv => toolEntry kv.1 kv.2)).map (fun e => e.get "name")
      = s.tools.map (fun kv => Json.str kv.1) := by
    rw [List.map_map]
    exact List.map_congr_left (fun kv _ => toolEntry_name kv)
  refine ⟨s.tools.map (fun kv => toolEntry kv.1 kv.2), ?_, ?_, ?_, ?_, hnames, ?_, ?_, ?_, ?_⟩
  · rw [hh]; rfl
  · rw [hh]; rfl
  · simp
  · rw [List.forall₂_map_right_iff]
    exact List.forall₂_same.mpr (fun kv _ => entryFor_toolEntry kv)
  · rw [hnames]
    exact List.map_congr_left (fun kv hkv => by rw [hv.2 kv hkv])
  · exact sortedKeys_nodup _ hv.1
  · rw [hnames]
    have h := sortedKeys_nodup _ hv.1
    have h2 : s.tools.map (fun kv => Json.str kv.1)
        = (s.tools.map (fun kv => kv.1)).map Json.str := by rw [List.map_map]; rfl
    rw [h2]
    exact h.map (fun a b hab => by injection hab)
  · intro h; rw [h]; rfl

theorem tools_list_one_entry_per_tool_witness :
    (⟨"tools/list", Json.int 2, Json.null⟩ : MCPRequest).method = "tools/list" ∧
    ValidRegistry echoServer.tools ∧
    ∃ entries : List Json,
      (handle echoLib echoServer ⟨"tools/list", Json.int 2, Json.null⟩).hasError = false ∧
      (handle echoLib echoServer ⟨"tools/list", Json.int 2, Json.null⟩).resultDoc
        = Json.obj [("tools", Json.arr entries)] ∧
      entries.length = echoServer.tools.length ∧
      List.Forall₂ EntryFor echoServer.tools entries ∧
      entries.map (fun e => e.get "name") = echoServer.tools.map (fun kv => Json.str kv.1) ∧
      entries.map (fun e => e.get "name")
        = echoServer.tools.map (fun kv => Json.str kv.2.name) ∧
      (echoServer.tools.map (fun kv => kv.1)).Nodup ∧
      (entries.map (fun e => e.get "name")).Nodup ∧
      (echoServer.tools = [] → entries = []) :=
  ⟨rfl, validRegistry_registerTool _ _ (validRegistry_new _ _ _),
    tools_list_one_entry_per_tool echoLib echoServer ⟨"tools/list", Json.int 2, Json.null⟩ rfl
      (validRegistry_registerTool _ _ (validRegistry_new _ _ _))⟩

/-- Claim C17. Registration overwrites by name: for every registry and tool
`t1`, after `RegisterTool(t1)` the registry maps the name of `t1` to `t1` and
every other name as before, and the other data members of the server are
unchanged; registering then a tool `t2` of the same name leaves one entry for
that name, equal to `t2`, and a later `tools/call` of that name answers with
what the handler of `t2` returns. -/
theorem registration_overwrites_by_name (lib : JsonLib) (s : BLEMCPServer) (t1 t2 : Tool)
    (request : MCPRequest) (call : Json → Json)
    (hs : SortedKeys s.tools) (hname : t2.name = t1.name)
    (hm : request.method = "tools/call")
    (hn : request.params.get "name" = Json.str t1.name) (hcall : t2.handler = some call) :
    mapFind (RegisterTool s t1).tools t1.name = some t1 ∧
    (∀ n, n ≠ t1.name → mapFind (RegisterTool s t1).tools n = mapFind s.tools n) ∧
    ((RegisterTool s t1).serverName = s.serverName ∧
      (RegisterTool s t1).serverVersion = s.serverVersion ∧
      (RegisterTool s t1).serverInstructions = s.serverInstructions) ∧
    mapFind (RegisterTool (RegisterTool s t1) t2).tools t1.name = some t2 ∧
    (∀ n, n ≠ t1.name →
      mapFind (RegisterTool (RegisterTool s t1) t2).tools n = mapFind s.tools n) ∧
    ((RegisterTool (RegisterTool s t1) t2).tools.map (fun kv => kv.1)).count t1.name = 1 ∧
    (handle lib (RegisterTool (RegisterTool s t1) t2) request).hasError = false ∧
    (handle lib (RegisterTool (RegisterTool s t1) t2) request).resultDoc =
      Json.obj [("content", Json.arr [Json.obj [("type", Json.str "text"),
        ("text", Json.str (lib.serializeJson (call (request.params.get "arguments"))))]])] := by
  have h2 : mapFind (RegisterTool (RegisterTool s t1) t2).tools t1.name = some t2 := by
    simp only [RegisterTool, hname]
    exact mapFind_mapAssign_self _ _ _
  have hfc : handle lib (RegisterTool (RegisterTool s t1) t2) request
      = handleFunctionCalls lib (RegisterTool (RegisterTool s t1) t2) request := by
    simp [handle, hm]
  have hs1 : (request.params.get "name").is_string = true := by rw [hn]; rfl
  have has : (request.params.get "name").as_string lib = t1.name := by rw [hn]; rfl
  refine ⟨mapFind_mapAssign_self _ _ _, fun n hne => mapFind_mapAssign_ne _ _ _ n hne,
    ⟨rfl, rfl, rfl⟩, h2, ?_, ?_, ?_, ?_⟩
  · intro n hne
    simp only [RegisterTool, hname]
    rw [mapFind_mapAssign_ne _ _ _ n hne, mapFind_mapAssign_ne _ _ _ n hne]
  · simp only [RegisterTool, hname]
    exact count_key_mapAssign _ _ _ (sortedKeys_mapAssign _ _ _ hs)
  · rw [hfc]
    simp only [handleFunctionCalls, hs1, Bool.not_true, Bool.false_eq_true, if_false, has, h2,
      hcall]
    rfl
  · rw [hfc]
    simp only [handleFunctionCalls, hs1, Bool.not_true, Bool.false_eq_true, if_false, has, h2,
      hcall]
    rfl

theorem registration_overwrites_by_name_witness :
    (SortedKeys (BLEMCPServer.new DEFAULT_SERVER_NAME DEFAULT_SERVER_VERSION "").tools ∧
      nullTool.name = echoTool.name ∧
      (parseRequest echoLib echoRaw).method = "tools/call" ∧
      (parseRequest echoLib echoRaw).params.get "name" = Json.str echoTool.name ∧
      nullTool.handler = some (fun _ => Json.null)) ∧
    (mapFind (RegisterTool (BLEMCPServer.new DEFAULT_SERVER_NAME DEFAULT_SERVER_VERSION "")
        echoTool).tools echoTool.name = some echoTool ∧
    (∀ n, n ≠ echoTool.name →
      mapFind (RegisterTool (BLEMCPServer.new DEFAULT_SERVER_NAME DEFAULT_SERVER_VERSION "")
        echoTool).tools n
        = mapFind (BLEMCPServer.new DEFAULT_SERVER_NAME DEFAULT_SERVER_VERSION "").tools n) ∧
    ((RegisterTool (BLEMCPServer.new DEFAULT_SERVER_NAME DEFAULT_SERVER_VERSION "")
        echoTool).serverName
        = (BLEMCPServer.new DEFAULT_SERVER_NAME DEFAULT_SERVER_VERSION "").serverName ∧
      (RegisterTool (BLEMCPServer.new DEFAULT_SERVER_NAME DEFAULT_SERVER_VERSION "")
        echoTool).serverVersion
        = (BLEMCPServer.new DEFAULT_SERVER_NAME DEFAULT_SERVER_VERSION "").serverVersion ∧
      (RegisterTool (BLEMCPServer.new DEFAULT_SERVER_NAME DEFAULT_SERVER_VERSION "")
        echoTool).serverInstructions
        = (BLEMCPServer.new DEFAULT_SERVER_NAME DEFAULT_SERVER_VERSION "").serverInstructions) ∧
    mapFind (RegisterTool (RegisterTool
      (BLEMCPServer.new DEFAULT_SERVER_NAME DEFAULT_SERVER_VERSION "") echoTool) nullTool).tools
      echoTool.name = some nullTool ∧
    (∀ n, n ≠ echoTool.name →
      mapFind (RegisterTool (RegisterTool
        (BLEMCPServer.new DEFAULT_SERVER_NAME DEFAULT_SERVER_VERSION "") echoTool)
        nullTool).tools n
        = mapFind (BLEMCPServer.new DEFAULT_SERVER_NAME DEFAULT_SERVER_VERSION "").tools n) ∧
    ((RegisterTool (RegisterTool
      (BLEMCPServer.new DEFAULT_SERVER_NAME DEFAULT_SERVER_VERSION "") echoTool)
      nullTool).tools.map (fun kv => kv.1)).count echoTool.name = 1 ∧
    (handle echoLib (RegisterTool (RegisterTool
      (BLEMCPServer.new DEFAULT_SERVER_NAME DEFAULT_SERVER_VERSION "") echoTool) nullTool)
      (parseRequest echoLib echoRaw)).hasError = false ∧
    (handle echoLib (RegisterTool (RegisterTool
      (BLEMCPServer.new DEFAULT_SERVER_NAME DEFAULT_SERVER_VERSION "") echoTool) nullTool)
      (parseRequest echoLib echoRaw)).resultDoc =
      Json.obj [("content", Json.arr [Json.obj [("type", Json.str "text"),
        ("text", Json.str (echoLib.serializeJson ((fun _ => Json.null)
          ((parseRequest echoLib echoRaw).params.get "arguments"))))]])]) :=
  ⟨⟨List.Pairwise.nil, rfl, by decide, rfl, rfl⟩,
    registration_overwrites_by_name echoLib
      (BLEMCPServer.new DEFAULT_SERVER_NAME DEFAULT_SERVER_VERSION "") echoTool nullTool
      (parseRequest echoLib echoRaw) (fun _ => Json.null)
      List.Pairwise.nil rfl (by decide) rfl rfl⟩

/-- Claim C18. Schema serialization emits only populated fields: for every
schema node (so for every node nested under `properties`, `items`, `oneOf`,
`anyOf`, `allOf`, each of which is written by the same function) the object
`Properties::toJson` fills has the member `type` always; `title`,
`description`, `format`, `default` exactly when the string is not empty;
`required`, `enum` exactly when the list is not empty; `items` exactly when an
items node is there; `oneOf`, `anyOf`, `allOf` exactly when the list is not
empty; `additionalProperties` exactly when `hasAdditionalProperties` is set,
with the stored boolean; `properties` exactly when the map is not empty; and
no other member. -/
theorem schema_emits_only_populated_fields (s : Properties) :
    member? s.toJson "type" = some (Json.str s.type) ∧
    member? s.toJson "title" = (if s.title ≠ "" then some (Json.str s.title) else none) ∧
    member? s.toJson "description"
      = (if s.description ≠ "" then some (Json.str s.description) else none) ∧
    member? s.toJson "format" = (if s.format ≠ "" then some (Json.str s.format) else none) ∧
    member? s.toJson "default"
      = (if s.defaultValue ≠ "" then some (Json.str s.defaultValue) else none) ∧
    member? s.toJson "required"
      = (if s.required.isEmpty then none else some (Json.arr (s.required.map Json.str))) ∧
    member? s.toJson "enum"
      = (if s.enumValues.isEmpty then none else some (Json.arr (s.enumValues.map Json.str))) ∧
    member? s.toJson "items" = s.items.map (fun it => Json.obj it.toJson) ∧
    member? s.toJson "oneOf"
      = (if s.oneOf.isEmpty then none
         else some (Json.arr (s.oneOf.map (fun p => Json.obj p.toJson)))) ∧
    member? s.toJson "anyOf"
      = (if s.anyOf.isEmpty then none
         else some (Json.arr (s.anyOf.map (fun p => Json.obj p.toJson)))) ∧
    member? s.toJson "allOf"
      = (if s.allOf.isEmpty then none
         else some (Json.arr (s.allOf.map (fun p => Json.obj p.toJson)))) ∧
    member? s.toJson "additionalProperties"
      = (if s.hasAdditionalProperties then some (Json.bool s.additionalProperties) else none) ∧
    (∃ members, member? s.toJson "properties"
        = (if s.properties.isEmpty then none else some (Json.obj members)) ∧
      ∀ kv ∈ members, ∃ child, (kv.1, child) ∈ s.properties ∧ kv.2 = Json.obj child.toJson) ∧
    (∀ k, k ∉ schemaKeys → member? s.toJson k = none) := by
  cases s with
  | mk type title description properties required additionalProperties
      hasAdditionalProperties items enumValues oneOf anyOf allOf format defaultValue =>
    have hk : ∀ k, member? (Properties.mk type title description properties required
        additionalProperties hasAdditionalProperties items enumValues oneOf anyOf allOf format
        defaultValue).toJson k =
        if defaultValue.length > 0 ∧ "default" = k then some (Json.str defaultValue)
        else if format.length > 0 ∧ "format" = k then some (Json.str format)
        else if (!allOf.isEmpty) = true ∧ "allOf" = k then
          some (Json.arr (Properties.toJsonList allOf))
        else if (!anyOf.isEmpty) = true ∧ "anyOf" = k then
          some (Json.arr (Properties.toJsonList anyOf))
        else if (!oneOf.isEmpty) = true ∧ "oneOf" = k then
          some (Json.arr (Properties.toJsonList oneOf))
        else if (!enumValues.isEmpty) = true ∧ "enum" = k then some (stringArray enumValues)
        else if "items" = k ∧ items.isSome = true then
          items.map (fun it => Json.obj it.toJson)
        else if hasAdditionalProperties = true ∧ "additionalProperties" = k then
          some (Json.bool additionalProperties)
        else if (!required.isEmpty) = true ∧ "required" = k then some (stringArray required)
        else if (!properties.isEmpty) = true ∧ "properties" = k then
          some (Json.obj (Properties.toJsonMap properties []))
        else if description.length > 0 ∧ "description" = k then some (Json.str description)
        else if title.length > 0 ∧ "title" = k then some (Json.str title)
        else if "type" = k then some (Json.str type) else none := by
      intro k
      cases items with
      | none =>
        conv_lhs => unfold Properties.toJson
        simp only [member?_if_setMember, member?_setMember, member?, Option.isSome_none,
          Bool.false_eq_true, and_false, if_false]
      | some it =>
        conv_lhs => unfold Properties.toJson
        simp only [member?_if_setMember, member?_setMember, member?, Option.isSome_some,
          and_true, Option.map_some']
    have hlen : ∀ x : String, 0 < x.length ↔ x ≠ "" := length_pos_iff
    refine ⟨?_, ?_, ?_, ?_, ?_, ?_, ?_, ?_, ?_, ?_, ?_, ?_, ?_, ?_⟩
    · rw [hk]; simp [Properties.type]
    · rw [hk]; simp [Properties.title, hlen]
    · rw [hk]; simp [Properties.description, hlen]
    · rw [hk]; simp [Properties.format, hlen]
    · rw [hk]; simp [Properties.defaultValue, hlen]
    · rw [hk]; cases required <;> simp [Properties.required, stringArray]
    · rw [hk]; cases enumValues <;> simp [Properties.enumValues, stringArray]
    · rw [hk]; cases items <;> simp [Properties.items]
    · rw [hk]; cases oneOf <;> simp [Properties.oneOf, toJsonList_eq_map]
    · rw [hk]; cases anyOf <;> simp [Properties.anyOf, toJsonList_eq_map]
    · rw [hk]; cases allOf <;> simp [Properties.allOf, toJsonList_eq_map]
    · rw [hk]; cases hasAdditionalProperties <;>
        simp [Properties.hasAdditionalProperties, Properties.additionalProperties]
    · refine ⟨Properties.toJsonMap properties [], ?_, ?_⟩
      · rw [hk]; cases properties <;> simp [Properties.properties]
      · exact toJsonMap_forall
          (fun kv => ∃ child, (kv.1, child) ∈ properties ∧ kv.2 = Json.obj child.toJson)
          properties [] (fun kv h => absurd h (List.not_mem_nil _))
          (fun p hp => ⟨p.2, hp, rfl⟩)
    · intro k hkn
      simp only [schemaKeys, List.mem_cons, List.mem_singleton, not_or, List.not_mem_nil,
        not_false_eq_true, and_true] at hkn
      obtain ⟨h1, h2, h3, h4, h5, h6, h7, h8, h9, h10, h11, h12, h13⟩ := hkn
      rw [hk]
      simp [Ne.symm h1, Ne.symm h2, Ne.symm h3, Ne.symm h4, Ne.symm h5, Ne.symm h6, Ne.symm h7,
        Ne.symm h8, Ne.symm h9, Ne.symm h10, Ne.symm h11, Ne.symm h12, Ne.symm h13]

/-- Claim C19. Echo scenario: with a registry holding the one tool `echo`
(input schema of type string, handler giving back its argument), and a library
that reads the raw request of the scenario as the document it denotes and
writes the string hi as the four characters of its JSON text, `parseRequest`,
`handle` and `serializeResponse` yield the serialization of the object with
the members `id` = 1 (a number), `jsonrpc` = `2.0` and `result` = an object
whose `content` holds one element with `type` = `text` and `text` = the
4-character string made of hi and its quotes; the object has no `error`
member, and its members are those of the response the scenario expects, which
lists `jsonrpc` before `id`. -/
theorem echo_scenario (lib : JsonLib) (hd : lib.deserializeJson echoRaw = some echoDoc)
    (hser : lib.serializeJson (Json.str "hi") = "\"hi\"") :
    responseDoc lib (handle lib echoServer (parseRequest lib echoRaw)) =
      [("id", Json.int 1), ("jsonrpc", Json.str "2.0"),
        ("result", Json.obj [("content", Json.arr [Json.obj [("type", Json.str "text"),
          ("text", Json.str "\"hi\"")]])])] ∧
    List.Perm (responseDoc lib (handle lib echoServer (parseRequest lib echoRaw)))
      [("jsonrpc", Json.str "2.0"), ("id", Json.int 1),
        ("result", Json.obj [("content", Json.arr [Json.obj [("type", Json.str "text"),
          ("text", Json.str "\"hi\"")]])])] ∧
    processMessage lib echoServer echoRaw =
      (lib.serializeJson (Json.obj [("id", Json.int 1), ("jsonrpc", Json.str "2.0"),
        ("result", Json.obj [("content", Json.arr [Json.obj [("type", Json.str "text"),
          ("text", Json.str "\"hi\"")]])])]), 200) ∧
    member? (responseDoc lib (handle lib echoServer (parseRequest lib echoRaw))) "error"
      = none ∧
    ("\"hi\"" : String).length = 4 := by
  have hp : parseRequest lib echoRaw =
      ⟨"tools/call", Json.int 1,
        Json.obj [("name", Json.str "echo"), ("arguments", Json.str "hi")]⟩ := by
    simp [parseRequest, hd, echoDoc, Json.get, member?, Json.as_string]
  have hh : handle lib echoServer (parseRequest lib echoRaw) =
      { idDoc := Json.int 1,
        resultDoc := Json.obj [("content", Json.arr [Json.obj [("type", Json.str "text"),
          ("text", Json.str "\"hi\"")]])],
        errorDoc := Json.null, httpStatusCode := 200 } := by
    rw [hp]
    have hfind : mapFind echoServer.tools "echo" = some echoTool := by
      simp [echoServer, RegisterTool, BLEMCPServer.new, mapAssign, mapFind, echoTool]
    simp [handle, handleFunctionCalls, MCPRequest.params, MCPRequest.id, Json.get, member?,
      Json.is_string, Json.as_string, hfind, echoTool, hser, setMember, MCPResponse.ofId]
  have hdoc : responseDoc lib (handle lib echoServer (parseRequest lib echoRaw)) =
      [("id", Json.int 1), ("jsonrpc", Json.str "2.0"),
        ("result", Json.obj [("content", Json.arr [Json.obj [("type", Json.str "text"),
          ("text", Json.str "\"hi\"")]])])] := by
    rw [hh]
    simp [responseDoc, MCPResponse.id, Json.is_string, Json.is_long, Json.is_unsigned_long,
      Json.as_long, LONG_MIN, LONG_MAX, ULONG_MAX, MCPResponse.hasResult, MCPResponse.hasError,
      Json.isNull, MCPResponse.result, setMember]
  refine ⟨hdoc, ?_, ?_, ?_, by decide⟩
  · rw [hdoc]
    exact List.Perm.swap _ _ _
  · simp only [processMessage, serializeResponse, hdoc]
    rw [hh]
  · rw [hdoc]
    simp [member?]

theorem echo_scenario_witness :
    (echoLib.deserializeJson echoRaw = some echoDoc ∧
      echoLib.serializeJson (Json.str "hi") = "\"hi\"") ∧
    (responseDoc echoLib (handle echoLib echoServer (parseRequest echoLib echoRaw)) =
      [("id", Json.int 1), ("jsonrpc", Json.str "2.0"),
        ("result", Json.obj [("content", Json.arr [Json.obj [("type", Json.str "text"),
          ("text", Json.str "\"hi\"")]])])] ∧
    List.Perm (responseDoc echoLib (handle echoLib echoServer (parseRequest echoLib echoRaw)))
      [("jsonrpc", Json.str "2.0"), ("id", Json.int 1),
        ("result", Json.obj [("content", Json.arr [Json.obj [("type", Json.str "text"),
          ("text", Json.str "\"hi\"")]])])] ∧
    processMessage echoLib echoServer echoRaw =
      (echoLib.serializeJson (Json.obj [("id", Json.int 1), ("jsonrpc", Json.str "2.0"),
        ("result", Json.obj [("content", Json.arr [Json.obj [("type", Json.str "text"),
          ("text", Json.str "\"hi\"")]])])]), 200) ∧
    member? (responseDoc echoLib (handle echoLib echoServer (parseRequest echoLib echoRaw)))
      "error" = none ∧
    ("\"hi\"" : String).length = 4) :=
  ⟨⟨rfl, rfl⟩, echo_scenario echoLib rfl rfl⟩

/-- Claim C28, counterexample. The text of the request with the empty method
is well-formed JSON: the library reads it without an error.  `parseRequest`
returns the empty method for it and `handle` answers with error code -32700
and the message `Parse error: Invalid JSON`. -/
theorem parse_error_for_empty_method_string :
    methodLib.deserializeJson emptyMethodRaw = some emptyMethodDoc ∧
    (parseRequest methodLib emptyMethodRaw).method = "" ∧
    (handle methodLib echoServer (parseRequest methodLib emptyMethodRaw)).errorDoc.get "code"
      = Json.int (-32700) ∧
    (handle methodLib echoServer (parseRequest methodLib emptyMethodRaw)).errorDoc.get "message"
      = Json.str "Parse error: Invalid JSON" ∧
    (handle methodLib echoServer (parseRequest methodLib emptyMethodRaw)).hasResult = false :=
  ⟨rfl, rfl, rfl, rfl, rfl⟩

/-- Claim C28, amended. For every raw message the library reads without an
error as a document whose `method` member is not the empty string (a string
that is not empty, or no member, or a value that is not a string, which
`as<std::string>()` turns into its serialization, never empty), `parseRequest`
returns a method that is not empty and `handle` returns neither the error code
-32700 nor the message `Parse error: Invalid JSON`. -/
theorem parse_error_only_for_empty_method (lib : JsonLib) (s : BLEMCPServer) (raw : String)
    (doc : Json) (hd : lib.deserializeJson raw = some doc)
    (hmethod : doc.get "method" ≠ Json.str "")
    (hser : lib.serializeJson (doc.get "method") ≠ "") :
    (parseRequest lib raw).method ≠ "" ∧
    (handle lib s (parseRequest lib raw)).errorDoc.get "code" ≠ Json.int (-32700) ∧
    (handle lib s (parseRequest lib raw)).errorDoc.get "message"
      ≠ Json.str "Parse error: Invalid JSON" := by
  have hne : (parseRequest lib raw).method ≠ "" := by
    simp only [parseRequest, hd]
    cases hv : doc.get "method" with
    | str m =>
      intro h
      apply hmethod
      rw [hv]
      exact congrArg Json.str h
    | null => rw [hv] at hser; exact hser
    | bool b => rw [hv] at hser; exact hser
    | int n => rw [hv] at hser; exact hser
    | arr items => rw [hv] at hser; exact hser
    | obj members => rw [hv] at hser; exact hser
  exact ⟨hne, handle_code_ne_parse_error lib s _ hne⟩

theorem parse_error_only_for_empty_method_witness :
    (methodLib.deserializeJson noMethodRaw = some noMethodDoc ∧
      noMethodDoc.get "method" ≠ Json.str "" ∧
      methodLib.serializeJson (noMethodDoc.get "method") ≠ "") ∧
    ((parseRequest methodLib noMethodRaw).method ≠ "" ∧
    (handle methodLib echoServer (parseRequest methodLib noMethodRaw)).errorDoc.get "code"
      ≠ Json.int (-32700) ∧
    (handle methodLib echoServer (parseRequest methodLib noMethodRaw)).errorDoc.get "message"
      ≠ Json.str "Parse error: Invalid JSON") :=
  ⟨⟨rfl, by simp [noMethodDoc, Json.get, member?], by decide⟩,
    parse_error_only_for_empty_method methodLib echoServer noMethodRaw noMethodDoc rfl
      (by simp [noMethodDoc, Json.get, member?]) (by decide)⟩

end McpServer
